import Mathlib

/-!
# StreamProtocol: packet codec (C and C++ restatements)

Shallow embedding of `src/c/SocketProtocol_single.h` and
`src/cpp/src/StreamProtocol.cpp`, with the byte-vector overload of `toBytes` that only
the single-header variants `src/cpp/StreamProtocol_single.hpp` and
`src/cpp/include/socketprotocol/SocketProtocol_single.hpp` have (their `buildPacket`,
`parsePacket` and `SetProtocolVersion` restate the ones of `StreamProtocol.cpp`).

Conventions of the embedding.

* A byte buffer is a `List Nat`; a buffer is well formed (`IsBytes`) when every
  cell is below 256.  Unsigned machine words are `Nat`; every place where the C
  arithmetic can wrap carries its `% 2 ^ w`.
* `size_t` is 64 bits wide (`to_size_t`) and the host is little-endian (this
  only matters for `object_bytes_u32`, the `reinterpret_cast` of the C++ encoder).
* A pointer argument is an `Option`: `none` is `NULL`, `some v` a pointer to a
  cell currently holding `v`.  Output parameters are passed in with their old
  contents and returned with their new contents.
* `malloc` is an oracle of the environment (`Allocator`): it answers `none`
  (`NULL`) or a block of the requested size with indeterminate contents.  Statements
  that promise `SP_OK` assume the oracle serves the request; the `NULL` branch of the
  encoder is `sp_encode_packet_malloc_null`.
* Exceptions of the C++ API are the `error` side of `Except`; allocation failure inside
  `std::vector` (`std::bad_alloc`) is not modelled.
-/

namespace SocketProtocol

/-! ## C API: constants and types -/

/-- Constant `SP_HEADER_SIZE`. -/
def SP_HEADER_SIZE : Nat := 8
/-- Constant `SP_FRAGED`. -/
def SP_FRAGED : Nat := 0x01
/-- Constant `SP_UNFRAGED`. -/
def SP_UNFRAGED : Nat := 0x00
/-- Constant `SP_MAX_HEADER_LENGTH_VALUE`, the largest value of the 45-bit length field. -/
def SP_MAX_HEADER_LENGTH_VALUE : Nat := 0x1FFFFFFFFFFF

/-- Result codes `sp_result_t`. -/
inductive sp_result_t where
  | SP_OK
  | SP_ERR_BUFFER_TOO_SMALL
  | SP_ERR_PAYLOAD_TOO_LARGE
  | SP_ERR_INVALID_ARGUMENT
  | SP_ERR_LENGTH_MISMATCH
  | SP_ERR_CRC_MISMATCH
  deriving DecidableEq, Repr

open sp_result_t

/-- Struct `sp_parsed_packet_t`.  The field `payload` is a pointer into the input
buffer: it is modelled by the memory that starts at that address, and the payload
proper is its first `payload_length` cells (`payload_view`). -/
structure sp_parsed_packet_t where
  protocol_version : Nat
  packet_length : Nat
  fragment_flag : Nat
  payload_type : Nat
  user_field : Nat
  payload : List Nat
  payload_length : Nat
  deriving DecidableEq, Repr

/-- The bytes a parsed packet designates as its payload: `payload_length` cells
starting at the `payload` pointer. -/
def payload_view (p : sp_parsed_packet_t) : List Nat :=
  p.payload.take p.payload_length

/-- Well-formed byte buffer: every cell holds a `uint8_t`. -/
def IsBytes (b : List Nat) : Prop := ∀ x ∈ b, x < 256

instance (b : List Nat) : Decidable (IsBytes b) := by
  unfold IsBytes; infer_instance

/-- Conversion to `size_t` (64 bits); also the reduction of `size_t` arithmetic. -/
def to_size_t (x : Nat) : Nat := x % 2 ^ 64

/-- The environment's allocator: `malloc n` is `none` for `NULL`, or a block of
exactly `n` cells whose contents are indeterminate. -/
structure Allocator where
  malloc : Nat → Option (List Nat)
  size_ok : ∀ n b, malloc n = some b → b.length = n

/-! ## CRC-32 (`sp_crc32_inline`) -/

/-- Body of the inner loop of `sp_crc32_inline`:
`mask = 0u - (crc & 1u); crc = (crc >> 1) ^ (0xEDB88320u & mask);` on `uint32_t`. -/
def sp_crc32_step (crc : Nat) : Nat :=
  let mask := (0 + 2 ^ 32 - (crc &&& 1)) % 2 ^ 32
  (crc >>> 1) ^^^ (0xEDB88320 &&& mask)

/-- Inner loop of `sp_crc32_inline`: `j` iterations of the bit step. -/
def sp_crc32_bits : Nat → Nat → Nat
  | 0, crc => crc
  | j + 1, crc => sp_crc32_bits j (sp_crc32_step crc)

/-- Outer loop of `sp_crc32_inline` over the bytes read: `crc ^= data[i]`, then 8 bit steps. -/
def sp_crc32_loop : List Nat → Nat → Nat
  | [], crc => crc
  | d :: ds, crc => sp_crc32_loop ds (sp_crc32_bits 8 (crc ^^^ d))

/-- Function `sp_crc32_inline(data, length)`: register initialised to `0xFFFFFFFF`,
the first `length` bytes of `data` folded in, result complemented (`~crc`). -/
def sp_crc32_inline (data : List Nat) (length : Nat) : Nat :=
  0xFFFFFFFF ^^^ sp_crc32_loop (data.take length) 0xFFFFFFFF

/-! ## C API: encoder -/

/-- The 64-bit header word assembled by `sp_encode_internal_inline`
(`protocol_version` is the local constant `1u`). -/
def sp_header_value (total_len_64 frag_flag payload_type user_field : Nat) : Nat :=
  let protocol_version := 1
  let header_value := 0
  let header_value := header_value ||| ((protocol_version &&& 0x0F) <<< 0)
  let header_value := header_value ||| ((total_len_64 &&& 0x1FFFFFFFFFFF) <<< 4)
  let header_value := header_value ||| ((frag_flag &&& 0x01) <<< 49)
  let header_value := header_value ||| ((payload_type &&& 0x0F) <<< 50)
  let header_value := header_value ||| ((user_field &&& 0x3FF) <<< 54)
  header_value

/-- Loop `for (i = 0; i < SP_HEADER_SIZE; ++i) buf[i] = (uint8_t)((header_value >> (i * 8)) & 0xFF);`. -/
def sp_write_header (buf : List Nat) (header_value : Nat) : List Nat :=
  (List.range SP_HEADER_SIZE).foldl
    (fun b i => b.set i (((header_value >>> (i * 8)) &&& 0xFF) % 256)) buf

/-- Loop `for (i = 0; i < payload_length; ++i) buf[SP_HEADER_SIZE + i] = payload[i];`. -/
def sp_copy_payload (buf payload : List Nat) (payload_length : Nat) : List Nat :=
  (List.range payload_length).foldl
    (fun b i => b.set (SP_HEADER_SIZE + i) (payload.getD i 0)) buf

/-- The four stores of the CRC at `crc_offset`, least significant byte first. -/
def sp_write_crc (buf : List Nat) (crc_offset crc : Nat) : List Nat :=
  let buf := buf.set (crc_offset + 0) (((crc >>> 0) &&& 0xFF) % 256)
  let buf := buf.set (crc_offset + 1) (((crc >>> 8) &&& 0xFF) % 256)
  let buf := buf.set (crc_offset + 2) (((crc >>> 16) &&& 0xFF) % 256)
  let buf := buf.set (crc_offset + 3) (((crc >>> 24) &&& 0xFF) % 256)
  buf

/-- Function `sp_encode_internal_inline`.  Arguments as in C, followed by the
allocator; the result is the return code and the new contents of `*out_packet`
and `*out_length`. -/
def sp_encode_internal_inline (payload : Option (List Nat)) (payload_length : Nat)
    (frag_flag payload_type user_field max_packet_size : Nat)
    (out_packet : Option (List Nat)) (out_length : Option Nat) (A : Allocator) :
    sp_result_t × Option (List Nat) × Option Nat :=
  match payload, out_packet, out_length with
  | some payload, some _, some _ =>
    if frag_flag ≠ SP_FRAGED ∧ frag_flag ≠ SP_UNFRAGED then
      (SP_ERR_INVALID_ARGUMENT, out_packet, out_length)
    else if payload_type > 0x0F then
      (SP_ERR_INVALID_ARGUMENT, out_packet, out_length)
    else if user_field > 0x3FF then
      (SP_ERR_INVALID_ARGUMENT, out_packet, out_length)
    else
      let total_len_64 := (SP_HEADER_SIZE + payload_length % 2 ^ 64 + 4) % 2 ^ 64
      let header_limit := SP_MAX_HEADER_LENGTH_VALUE
      let effective_max :=
        if max_packet_size > 0 ∧ max_packet_size < header_limit then max_packet_size
        else header_limit
      if total_len_64 > effective_max then
        (SP_ERR_PAYLOAD_TOO_LARGE, out_packet, out_length)
      else
        let total_len := to_size_t total_len_64
        match A.malloc total_len with
        | none => (SP_ERR_PAYLOAD_TOO_LARGE, out_packet, out_length)
        | some buf =>
          let header_value := sp_header_value total_len_64 frag_flag payload_type user_field
          let buf := sp_write_header buf header_value
          let buf := if payload_length > 0 then sp_copy_payload buf payload payload_length else buf
          let crc := sp_crc32_inline buf (to_size_t (SP_HEADER_SIZE + payload_length))
          let crc_offset := to_size_t (total_len + 2 ^ 64 - 4)
          let buf := sp_write_crc buf crc_offset crc
          (SP_OK, some buf, some total_len)
  | _, _, _ => (SP_ERR_INVALID_ARGUMENT, out_packet, out_length)

/-- Function `sp_encode_packet`: the encoder with `max_packet_size = 0`. -/
def sp_encode_packet (payload : Option (List Nat)) (payload_length : Nat)
    (frag_flag payload_type user_field : Nat)
    (out_packet : Option (List Nat)) (out_length : Option Nat) (A : Allocator) :
    sp_result_t × Option (List Nat) × Option Nat :=
  sp_encode_internal_inline payload payload_length frag_flag payload_type user_field
    0 out_packet out_length A

/-- Function `sp_encode_packet_limited`: the encoder with a caller-supplied ceiling. -/
def sp_encode_packet_limited (payload : Option (List Nat)) (payload_length : Nat)
    (frag_flag payload_type user_field max_packet_size : Nat)
    (out_packet : Option (List Nat)) (out_length : Option Nat) (A : Allocator) :
    sp_result_t × Option (List Nat) × Option Nat :=
  sp_encode_internal_inline payload payload_length frag_flag payload_type user_field
    (max_packet_size % 2 ^ 64) out_packet out_length A

/-! ## C API: decoder -/

/-- Loop `for (i = 0; i < SP_HEADER_SIZE; ++i) header_value |= ((uint64_t)packet[i]) << (i * 8);`. -/
def sp_read_header (packet : List Nat) : Nat :=
  (List.range SP_HEADER_SIZE).foldl
    (fun header_value i => header_value ||| ((packet.getD i 0) <<< (i * 8))) 0

/-- The little-endian read of the four CRC bytes at `crc_offset`. -/
def sp_read_crc (packet : List Nat) (crc_offset : Nat) : Nat :=
  let received_crc := 0
  let received_crc := received_crc ||| ((packet.getD (crc_offset + 0) 0) <<< 0)
  let received_crc := received_crc ||| ((packet.getD (crc_offset + 1) 0) <<< 8)
  let received_crc := received_crc ||| ((packet.getD (crc_offset + 2) 0) <<< 16)
  let received_crc := received_crc ||| ((packet.getD (crc_offset + 3) 0) <<< 24)
  received_crc

/-- Function `sp_parse_packet(packet, packet_len, out_packet)`: the return code and the
new contents of `*out_packet`. -/
def sp_parse_packet (packet : Option (List Nat)) (packet_len : Nat)
    (out_packet : Option sp_parsed_packet_t) : sp_result_t × Option sp_parsed_packet_t :=
  match packet, out_packet with
  | some packet, some _ =>
    if packet_len < SP_HEADER_SIZE + 4 then
      (SP_ERR_BUFFER_TOO_SMALL, out_packet)
    else
      let header_value := sp_read_header packet
      let proto_version := ((header_value >>> 0) &&& 0x0F) % 256
      let packet_length64 := (header_value >>> 4) &&& 0x1FFFFFFFFFFF
      let fragment_flag := ((header_value >>> 49) &&& 0x01) % 256
      let payload_type := ((header_value >>> 50) &&& 0x0F) % 256
      let user_field := ((header_value >>> 54) &&& 0x3FF) % 65536
      if packet_length64 < SP_HEADER_SIZE + 4 then
        (SP_ERR_BUFFER_TOO_SMALL, out_packet)
      else if packet_length64 > SP_MAX_HEADER_LENGTH_VALUE then
        (SP_ERR_PAYLOAD_TOO_LARGE, out_packet)
      else
        let packet_length := to_size_t packet_length64
        if packet_len ≠ packet_length then
          (SP_ERR_LENGTH_MISMATCH, out_packet)
        else
          let crc_offset := packet_length - 4
          let received_crc := sp_read_crc packet crc_offset
          let computed_crc := sp_crc32_inline packet (packet_length - 4)
          if computed_crc ≠ received_crc then
            (SP_ERR_CRC_MISMATCH, out_packet)
          else
            (SP_OK, some
              { protocol_version := proto_version
                packet_length := packet_length64
                fragment_flag := fragment_flag
                payload_type := payload_type
                user_field := user_field
                payload := packet.drop SP_HEADER_SIZE
                payload_length := packet_length - SP_HEADER_SIZE - 4 })
  | _, _ => (SP_ERR_INVALID_ARGUMENT, out_packet)

end SocketProtocol

/-! ## C++ API (`streamprotocol::StreamProtocol`) -/

namespace streamprotocol

/-- The exceptions of `PacketException.h`, and `std::invalid_argument`; the message
strings are not modelled, the constructor arguments are. -/
inductive Exception where
  | invalid_argument
  | PayloadTooLargeException (given max : Nat)
  | BufferTooSmallException (given : Nat)
  | PacketSizeMismatch (bufferSize totalsize : Nat)
  | InvalidCRCException (received computed : Nat)
  deriving DecidableEq, Repr

deriving instance DecidableEq for Except

/-- Class `ParsedPacket` (its private members; the accessors follow). -/
structure ParsedPacket where
  protocolVersion : Nat
  packetLength : Nat
  fragmentFlag : Nat
  payloadType : Nat
  userField : Nat
  payloadRaw : List Nat
  deriving DecidableEq, Repr

/-- Accessor `ParsedPacket::ProtocolVersion`. -/
def ParsedPacket.ProtocolVersion (p : ParsedPacket) : Nat := p.protocolVersion
/-- Accessor `ParsedPacket::PacketLength`. -/
def ParsedPacket.PacketLength (p : ParsedPacket) : Nat := p.packetLength
/-- Accessor `ParsedPacket::FragmentFlag`. -/
def ParsedPacket.FragmentFlag (p : ParsedPacket) : Nat := p.fragmentFlag
/-- Accessor `ParsedPacket::PayloadType`. -/
def ParsedPacket.PayloadType (p : ParsedPacket) : Nat := p.payloadType
/-- Accessor `ParsedPacket::UserField`. -/
def ParsedPacket.UserField (p : ParsedPacket) : Nat := p.userField
/-- Accessor `ParsedPacket::Payload`. -/
def ParsedPacket.Payload (p : ParsedPacket) : List Nat := p.payloadRaw

/-- Class `StreamProtocol`: its only data member, `protocolVersion = 1` by default. -/
structure StreamProtocol where
  protocolVersion : Nat := 1
  deriving DecidableEq, Repr

/-- Constant `StreamProtocol::HEADER_SIZE`. -/
def HEADER_SIZE : Nat := 8
/-- Constant `StreamProtocol::MAX_HEADER_LENGTH_VALUE`. -/
def MAX_HEADER_LENGTH_VALUE : Nat := 0x1FFFFFFFFFFF
/-- Largest `size_t` (64 bits). -/
def SIZE_MAX : Nat := 2 ^ 64 - 1
/-- Constant `StreamProtocol::MAX_PACKET_LENGTH`. -/
def MAX_PACKET_LENGTH : Nat :=
  if MAX_HEADER_LENGTH_VALUE < SIZE_MAX then MAX_HEADER_LENGTH_VALUE else SIZE_MAX
/-- Constant `StreamProtocol::FRAGED`. -/
def FRAGED : Nat := 0x01
/-- Constant `StreamProtocol::UNFRAGED`. -/
def UNFRAGED : Nat := 0x00

/-- Body of the inner loop of `computeCRC32`. -/
def computeCRC32_step (crc : Nat) : Nat :=
  let mask := (0 + 2 ^ 32 - (crc &&& 1)) % 2 ^ 32
  (crc >>> 1) ^^^ (0xEDB88320 &&& mask)

/-- Inner loop of `computeCRC32`: `j` iterations of the bit step. -/
def computeCRC32_bits : Nat → Nat → Nat
  | 0, crc => crc
  | j + 1, crc => computeCRC32_bits j (computeCRC32_step crc)

/-- Outer loop of `computeCRC32`. -/
def computeCRC32_loop : List Nat → Nat → Nat
  | [], crc => crc
  | d :: ds, crc => computeCRC32_loop ds (computeCRC32_bits 8 (crc ^^^ d))

/-- Method `StreamProtocol::computeCRC32(data, length)`. -/
def computeCRC32 (data : List Nat) (length : Nat) : Nat :=
  0xFFFFFFFF ^^^ computeCRC32_loop (data.take length) 0xFFFFFFFF

/-- Object representation of a `uint32_t` on the (little-endian) host: what
`reinterpret_cast<const uint8_t*>(&crc)` points to. -/
def object_bytes_u32 (x : Nat) : List Nat :=
  [x % 256, x / 2 ^ 8 % 256, x / 2 ^ 16 % 256, x / 2 ^ 24 % 256]

/-- Method `StreamProtocol::buildPacket`. -/
def StreamProtocol.buildPacket (self : StreamProtocol) (data : Option (List Nat)) (size : Nat)
    (payloadType fragFlag userValue : Nat) : Except Exception (List Nat) :=
  match data with
  | none => .error .invalid_argument
  | some data =>
    if fragFlag ≠ FRAGED ∧ fragFlag ≠ UNFRAGED then
      .error .invalid_argument
    else
      let pt := (payloadType &&& 0xFF) % 256
      if pt > 0x0F then
        .error .invalid_argument
      else
        let totalPacketLength64 := (HEADER_SIZE + size % 2 ^ 64 + 4) % 2 ^ 64
        if totalPacketLength64 > MAX_PACKET_LENGTH then
          .error (.PayloadTooLargeException totalPacketLength64 MAX_PACKET_LENGTH)
        else if userValue > 0x3FF then
          .error .invalid_argument
        else
          let headerValue := 0
          let headerValue := headerValue ||| ((self.protocolVersion &&& 0x0F) <<< 0)
          let headerValue := headerValue ||| ((totalPacketLength64 &&& 0x1FFFFFFFFFFF) <<< 4)
          let headerValue := headerValue ||| ((fragFlag &&& 0x01) <<< 49)
          let headerValue := headerValue ||| ((payloadType &&& 0x0F) <<< 50)
          let headerValue := headerValue ||| ((userValue &&& 0x3FF) <<< 54)
          let packet : List Nat := []
          let packet := (List.range HEADER_SIZE).foldl
            (fun p i => p ++ [((headerValue >>> (i * 8)) &&& 0xFF) % 256]) packet
          let packet := packet ++ data.take size
          let crc := computeCRC32 packet packet.length
          let packet := packet ++ object_bytes_u32 crc
          .ok packet

/-- Method `StreamProtocol::toBytes(payload, fragFlag, userValue)`. -/
def StreamProtocol.toBytes (self : StreamProtocol) (payload : List Nat)
    (fragFlag userValue : Nat) : Except Exception (List Nat) :=
  self.buildPacket (some payload) payload.length 0x01 fragFlag userValue

/-- Method `StreamProtocol::toBytes(payload, fragFlag, userValue, bufferSize)`. -/
def StreamProtocol.toBytes_bufferSize (self : StreamProtocol) (payload : List Nat)
    (fragFlag userValue bufferSize : Nat) : Except Exception (List Nat) :=
  if bufferSize < HEADER_SIZE + 4 then
    .error (.BufferTooSmallException bufferSize)
  else
    let totalPacketLength64 := (HEADER_SIZE + payload.length % 2 ^ 64 + 4) % 2 ^ 64
    if totalPacketLength64 > bufferSize then
      .error (.PayloadTooLargeException totalPacketLength64 bufferSize)
    else
      self.buildPacket (some payload) payload.length 0x01 fragFlag userValue

/-- Member `std::vector<uint8_t>::data()`: a pointer to the elements; on an empty vector
the library may answer a null pointer (`null_when_empty`). -/
def vector_data (null_when_empty : Bool) (v : List Nat) : Option (List Nat) :=
  if v.isEmpty && null_when_empty then none else some v

/-- Method `StreamProtocol::toBytes(const std::vector<uint8_t>&, fragFlag, userValue)` of the
single-header variants (`StreamProtocol_single.hpp`, `SocketProtocol_single.hpp`), whose
`buildPacket` is the one above. -/
def StreamProtocol.toBytes_vector (self : StreamProtocol) (null_when_empty : Bool)
    (payload : List Nat) (fragFlag userValue : Nat) : Except Exception (List Nat) :=
  self.buildPacket (vector_data null_when_empty payload) payload.length 0x00 fragFlag userValue

/-- Method `StreamProtocol::parsePacket`. -/
def StreamProtocol.parsePacket (_self : StreamProtocol) (packetBytes : List Nat) :
    Except Exception ParsedPacket :=
  if packetBytes.length < HEADER_SIZE + 4 then
    .error (.BufferTooSmallException packetBytes.length)
  else
    let headerValue := (List.range HEADER_SIZE).foldl
      (fun h i => h ||| ((packetBytes.getD i 0) <<< (i * 8))) 0
    let protoVersion := ((headerValue >>> 0) &&& 0x0F) % 256
    let packetLength64 := (headerValue >>> 4) &&& 0x1FFFFFFFFFFF
    let fragmentFlag := ((headerValue >>> 49) &&& 0x01) % 256
    let payloadType := ((headerValue >>> 50) &&& 0x0F) % 256
    let userField := ((headerValue >>> 54) &&& 0x3FF) % 65536
    if packetLength64 < HEADER_SIZE + 4 then
      .error (.BufferTooSmallException packetLength64)
    else if packetLength64 > MAX_PACKET_LENGTH then
      .error (.PayloadTooLargeException packetLength64 MAX_PACKET_LENGTH)
    else
      let packetLength := packetLength64 % 2 ^ 64
      if packetBytes.length ≠ packetLength then
        .error (.PacketSizeMismatch packetBytes.length packetLength)
      else
        let receivedCRC := 0
        let crcOffset := packetLength - 4
        let receivedCRC := (List.range 4).foldl
          (fun r i => r ||| ((packetBytes.getD (crcOffset + i) 0) <<< (i * 8))) receivedCRC
        let computedCRC := computeCRC32 packetBytes (packetLength - 4)
        if computedCRC ≠ receivedCRC then
          .error (.InvalidCRCException receivedCRC computedCRC)
        else
          let payload := (packetBytes.take (packetLength - 4)).drop HEADER_SIZE
          .ok ⟨protoVersion, packetLength, fragmentFlag, payloadType, userField, payload⟩

/-- Method `StreamProtocol::SetProtocolVersion`: the outcome and the object afterwards. -/
def StreamProtocol.SetProtocolVersion (self : StreamProtocol) (version : Nat) :
    Except Exception Unit × StreamProtocol :=
  if version > 0x0F then
    (.error .invalid_argument, self)
  else
    (.ok (), { self with protocolVersion := version })

end streamprotocol

/-! ## Specification-level notions -/

namespace PacketCodec

open SocketProtocol SocketProtocol.sp_result_t

/-- Little-endian encoding of `x` on `n` bytes (`LE8` is `le_bytes 8`, `LE4` is `le_bytes 4`). -/
def le_bytes : Nat → Nat → List Nat
  | 0, _ => []
  | n + 1, x => x % 256 :: le_bytes n (x / 256)

/-- Little-endian value of a byte sequence. -/
def le_value : List Nat → Nat
  | [] => 0
  | b :: bs => b + 256 * le_value bs

/-- The length a buffer declares: bits 4..48 of the little-endian 64-bit word held in its
first 8 bytes. -/
def declared_length (b : List Nat) : Nat :=
  le_value (b.take 8) / 2 ^ 4 % 2 ^ 45

/-- The buffer with its bit `j` flipped: bit `j % 8` of byte `j / 8`, which for `j < 64` is
bit `j` of the little-endian header word. -/
def flip_bit (p : List Nat) (j : Nat) : List Nat :=
  p.set (j / 8) (p.getD (j / 8) 0 ^^^ 2 ^ (j % 8))

/-- The result code of the error taxonomy that an exception of the C++ API stands for. -/
def exception_code : streamprotocol.Exception → sp_result_t
  | .invalid_argument => SP_ERR_INVALID_ARGUMENT
  | .PayloadTooLargeException _ _ => SP_ERR_PAYLOAD_TOO_LARGE
  | .BufferTooSmallException _ => SP_ERR_BUFFER_TOO_SMALL
  | .PacketSizeMismatch _ _ => SP_ERR_LENGTH_MISMATCH
  | .InvalidCRCException _ _ => SP_ERR_CRC_MISMATCH

/-- The result code of an outcome of the C++ API: `SP_OK` for a returned value, the code of
the exception otherwise. -/
def outcome_code {α : Type} : Except streamprotocol.Exception α → sp_result_t
  | .ok _ => SP_OK
  | .error e => exception_code e

/-- The header word of the wire format:
`version | (length << 4) | (frag << 49) | (type << 50) | (user << 54)`. -/
def header_word (version total_length fragment_flag payload_type user_field : Nat) : Nat :=
  version ||| (total_length <<< 4) ||| (fragment_flag <<< 49) ||| (payload_type <<< 50)
    ||| (user_field <<< 54)

/-- The wire layout `LE8(h) ++ payload ++ LE4(crc32(LE8(h) ++ payload))`. -/
def wire (h : Nat) (payload : List Nat) : List Nat :=
  let body := le_bytes 8 h ++ payload
  body ++ le_bytes 4 (sp_crc32_inline body body.length)

/-- The effective maximum of the encoder: the caller's ceiling when it is nonzero and
below the 45-bit capacity, the 45-bit capacity otherwise. -/
def effective_max (max_packet_size : Nat) : Nat :=
  if max_packet_size > 0 ∧ max_packet_size < SP_MAX_HEADER_LENGTH_VALUE then max_packet_size
  else SP_MAX_HEADER_LENGTH_VALUE

/-- One reflected shift step of the table generation: shift right, and fold the
polynomial `0xEDB88320` in when the bit shifted out is set. -/
def crc32_table_step (c : Nat) : Nat :=
  if c % 2 = 1 then 0xEDB88320 ^^^ (c / 2) else c / 2

/-- Entry `i` of the standard CRC-32 table: `i` after 8 reflected shift steps. -/
def crc32_table_entry (i : Nat) : Nat := crc32_table_step^[8] i

/-- The standard 256-entry CRC-32 table. -/
def crc32_table : List Nat := (List.range 256).map crc32_table_entry

/-- Byte-wise table-driven update: `crc = table[(crc ^ b) & 0xFF] ^ (crc >> 8)`. -/
def crc32_table_update (crc b : Nat) : Nat :=
  crc32_table.getD ((crc ^^^ b) &&& 0xFF) 0 ^^^ (crc >>> 8)

/-- The standard byte-wise table-driven CRC-32: initial value `0xFFFFFFFF`, one table
update per byte, final complement. -/
def crc32_table_driven (data : List Nat) : Nat :=
  0xFFFFFFFF ^^^ data.foldl crc32_table_update 0xFFFFFFFF

/-- An allocator that always succeeds and hands out blocks filled with `0xAA`. -/
def fillAllocator : Allocator where
  malloc n := some (List.replicate n 0xAA)
  size_ok := by
    intro n b h
    simp only [Option.some.injEq] at h
    subst h
    exact List.length_replicate _ _

/-- An allocator that always fails. -/
def nullAllocator : Allocator where
  malloc _ := none
  size_ok := by
    intro n b h
    cases h

/-! ## Lemmas: bit arithmetic, buffers, CRC -/

/-- OR-ing a field shifted above every set bit of the accumulator is an addition. -/
theorem or_shl_eq_add (a b k : Nat) (h : a < 2 ^ k) : a ||| (b <<< k) = a + b * 2 ^ k := by
  rw [Nat.lor_comm, Nat.shiftLeft_eq, Nat.mul_comm b, ← Nat.mul_add_lt_is_or h]
  omega

theorem and_255 (x : Nat) : x &&& 0xFF = x % 256 := Nat.and_pow_two_sub_one_eq_mod x 8

theorem and_15 (x : Nat) : x &&& 0x0F = x % 16 := Nat.and_pow_two_sub_one_eq_mod x 4

theorem and_1 (x : Nat) : x &&& 0x01 = x % 2 := Nat.and_pow_two_sub_one_eq_mod x 1

theorem and_1023 (x : Nat) : x &&& 0x3FF = x % 1024 := Nat.and_pow_two_sub_one_eq_mod x 10

theorem and_m45 (x : Nat) : x &&& 0x1FFFFFFFFFFF = x % 2 ^ 45 := Nat.and_pow_two_sub_one_eq_mod x 45

/-- A store loop over `off .. off+n-1` overwrites exactly that window of the buffer. -/
theorem foldl_set_range (f : Nat → Nat) (off : Nat) :
    ∀ (n : Nat) (buf : List Nat), off + n ≤ buf.length →
      (List.range n).foldl (fun b i => b.set (off + i) (f i)) buf
        = buf.take off ++ (List.range n).map f ++ buf.drop (off + n) := by
  intro n
  induction n with
  | zero => intro buf _; simp
  | succ n ih =>
    intro buf h
    have h1 : off + n < buf.length := by omega
    rw [List.range_succ, List.foldl_append, ih buf (by omega), List.map_append]
    simp only [List.foldl_cons, List.foldl_nil, List.map_cons, List.map_nil]
    rw [List.drop_eq_getElem_cons h1, List.set_append]
    have hl : (List.take off buf ++ List.map f (List.range n)).length = off + n := by
      simp; omega
    rw [hl]
    simp [Nat.add_assoc]

theorem map_getD_range (l : List Nat) : (List.range l.length).map (fun i => l.getD i 0) = l := by
  apply List.ext_getElem
  · simp
  · intro i h1 h2
    simp at h1
    simp [h1]

theorem le_bytes_length (n x : Nat) : (le_bytes n x).length = n := by
  induction n generalizing x with
  | zero => rfl
  | succ n ih => simp [le_bytes, ih]

theorem le_bytes_isBytes (n x : Nat) : IsBytes (le_bytes n x) := by
  induction n generalizing x with
  | zero => intro y hy; simp [le_bytes] at hy
  | succ n ih =>
    intro y hy
    simp only [le_bytes, List.mem_cons] at hy
    rcases hy with hy | hy
    · omega
    · exact ih _ y hy

theorem header_bytes_eq (h : Nat) :
    (List.range 8).map (fun i => ((h >>> (i * 8)) &&& 0xFF) % 256) = le_bytes 8 h := by
  have r8 : List.range 8 = [0, 1, 2, 3, 4, 5, 6, 7] := by decide
  simp only [r8, List.map_cons, List.map_nil, le_bytes, and_255, Nat.shiftRight_eq_div_pow]
  simp only [Nat.div_div_eq_div_mul]
  norm_num

theorem sp_write_header_eq (buf : List Nat) (h : Nat) (hb : 8 ≤ buf.length) :
    sp_write_header buf h = le_bytes 8 h ++ buf.drop 8 := by
  have := foldl_set_range (fun i => ((h >>> (i * 8)) &&& 0xFF) % 256) 0 8 buf (by omega)
  simp only [Nat.zero_add, List.take_zero, List.nil_append] at this
  rw [← header_bytes_eq]
  exact this

theorem sp_copy_payload_eq (buf payload : List Nat) (hb : 8 + payload.length ≤ buf.length) :
    sp_copy_payload buf payload payload.length
      = buf.take 8 ++ payload ++ buf.drop (8 + payload.length) := by
  have := foldl_set_range (fun i => payload.getD i 0) 8 payload.length buf hb
  rw [map_getD_range] at this
  exact this

theorem crc_bytes_eq (c : Nat) :
    [((c >>> 0) &&& 0xFF) % 256, ((c >>> 8) &&& 0xFF) % 256, ((c >>> 16) &&& 0xFF) % 256,
      ((c >>> 24) &&& 0xFF) % 256] = le_bytes 4 c := by
  simp only [le_bytes, and_255, Nat.shiftRight_eq_div_pow]
  simp only [Nat.div_div_eq_div_mul]
  norm_num

theorem sp_write_crc_eq (buf : List Nat) (off c : Nat) (hb : off + 4 ≤ buf.length) :
    sp_write_crc buf off c = buf.take off ++ le_bytes 4 c ++ buf.drop (off + 4) := by
  have := foldl_set_range
    (fun i => [((c >>> 0) &&& 0xFF) % 256, ((c >>> 8) &&& 0xFF) % 256,
      ((c >>> 16) &&& 0xFF) % 256, ((c >>> 24) &&& 0xFF) % 256].getD i 0) off 4 buf hb
  have r4 : List.range 4 = [0, 1, 2, 3] := by decide
  rw [r4] at this
  simp only [List.foldl_cons, List.foldl_nil, List.map_cons, List.map_nil] at this
  rw [← crc_bytes_eq]
  simpa [sp_write_crc] using this

theorem wire_eq (h : Nat) (payload : List Nat) :
    wire h payload = le_bytes 8 h ++ payload
      ++ le_bytes 4 (sp_crc32_inline (le_bytes 8 h ++ payload) (8 + payload.length)) := by
  simp only [wire, List.length_append, le_bytes_length]

theorem effective_max_le (m : Nat) : effective_max m ≤ 2 ^ 45 - 1 := by
  unfold effective_max SP_MAX_HEADER_LENGTH_VALUE
  split <;> omega

theorem copy_if_eq (buf payload : List Nat) (n : Nat) :
    (if n > 0 then sp_copy_payload buf payload n else buf) = sp_copy_payload buf payload n := by
  split
  · rfl
  · have : n = 0 := by omega
    subst this
    rfl

theorem layout_payload (hdr payload buf : List Nat) (hh : hdr.length = 8) :
    (hdr ++ buf.drop 8).take 8 ++ payload ++ (hdr ++ buf.drop 8).drop (8 + payload.length)
      = hdr ++ payload ++ buf.drop (8 + payload.length) := by
  have t1 : (hdr ++ buf.drop 8).take 8 = hdr := List.take_left' hh
  have t2 : (hdr ++ buf.drop 8).drop (8 + payload.length) = buf.drop (8 + payload.length) := by
    have := @List.drop_append _ hdr (buf.drop 8) payload.length
    rw [hh] at this
    rw [this, List.drop_drop]
  rw [t1, t2]

theorem layout_crc (pre crcb tail : List Nat) (n : Nat) (hp : pre.length = n)
    (ht : tail.length = 4) :
    (pre ++ tail).take n ++ crcb ++ (pre ++ tail).drop (n + 4) = pre ++ crcb := by
  have t1 : (pre ++ tail).take n = pre := List.take_left' hp
  have t2 : (pre ++ tail).drop (n + 4) = [] := by
    apply List.drop_of_length_le
    simp [hp, ht]
  rw [t1, t2, List.append_nil]

/-- The three store phases of the encoder fill an `N+12`-byte block, whatever it held,
with the wire layout. -/
theorem encode_body (buf payload : List Nat) (h : Nat) (hb : buf.length = payload.length + 12)
    (hN : payload.length + 12 < 2 ^ 64) :
    sp_write_crc (sp_copy_payload (sp_write_header buf h) payload payload.length)
      (to_size_t (to_size_t (payload.length + 12) + 2 ^ 64 - 4))
      (sp_crc32_inline (sp_copy_payload (sp_write_header buf h) payload payload.length)
        (to_size_t (SP_HEADER_SIZE + payload.length)))
      = wire h payload := by
  have e1 : to_size_t (to_size_t (payload.length + 12) + 2 ^ 64 - 4) = payload.length + 8 := by
    simp only [to_size_t]; omega
  have e2 : to_size_t (SP_HEADER_SIZE + payload.length) = 8 + payload.length := by
    simp only [to_size_t, SP_HEADER_SIZE]; omega
  have hh : (le_bytes 8 h).length = 8 := le_bytes_length 8 h
  have e3 : sp_copy_payload (sp_write_header buf h) payload payload.length
      = le_bytes 8 h ++ payload ++ buf.drop (8 + payload.length) := by
    rw [sp_write_header_eq buf h (by omega),
      sp_copy_payload_eq _ _ (by rw [List.length_append, hh, List.length_drop]; omega)]
    exact layout_payload _ _ _ hh
  have hl : (le_bytes 8 h ++ payload).length = 8 + payload.length := by
    rw [List.length_append, hh]
  have e4 : sp_crc32_inline (le_bytes 8 h ++ payload ++ List.drop (8 + payload.length) buf)
      (8 + payload.length) = sp_crc32_inline (le_bytes 8 h ++ payload) (8 + payload.length) := by
    unfold sp_crc32_inline
    rw [List.take_append_of_le_length (by omega)]
  have ht : (List.drop (8 + payload.length) buf).length = 4 := by
    rw [List.length_drop]; omega
  rw [e1, e2, e3, e4, sp_write_crc_eq _ _ _ (by rw [List.length_append, hl, ht]; omega), wire_eq]
  exact layout_crc _ _ _ _ (by omega) ht

/-- Normal form of the encoder on non-null arguments, for a payload whose framed length
fits `size_t`. -/
theorem sp_encode_internal_spec (payload : List Nat) (frag type user m : Nat)
    (op : List Nat) (ol : Nat) (A : Allocator) (hN : payload.length + 12 < 2 ^ 64) :
    sp_encode_internal_inline (some payload) payload.length frag type user m (some op) (some ol) A
      = if frag ≠ 1 ∧ frag ≠ 0 then (SP_ERR_INVALID_ARGUMENT, some op, some ol)
        else if type > 15 then (SP_ERR_INVALID_ARGUMENT, some op, some ol)
        else if user > 1023 then (SP_ERR_INVALID_ARGUMENT, some op, some ol)
        else if payload.length + 12 > effective_max m then
          (SP_ERR_PAYLOAD_TOO_LARGE, some op, some ol)
        else match A.malloc (payload.length + 12) with
          | none => (SP_ERR_PAYLOAD_TOO_LARGE, some op, some ol)
          | some _ => (SP_OK,
              some (wire (sp_header_value (payload.length + 12) frag type user) payload),
              some (payload.length + 12)) := by
  have e0 : (SP_HEADER_SIZE + payload.length % 2 ^ 64 + 4) % 2 ^ 64 = payload.length + 12 := by
    simp only [SP_HEADER_SIZE]; omega
  have e1 : to_size_t (payload.length + 12) = payload.length + 12 := by
    simp only [to_size_t]; omega
  unfold sp_encode_internal_inline
  simp only [e0, e1, copy_if_eq, SP_FRAGED, SP_UNFRAGED, effective_max]
  split_ifs
  all_goals first
    | rfl
    | (cases hm : A.malloc (payload.length + 12) with
        | none => rfl
        | some buf =>
          have hbody := encode_body buf payload
            (sp_header_value (payload.length + 12) frag type user) (A.size_ok _ _ hm) hN
          rw [e1] at hbody
          simp only [hbody])

theorem or_chain8 (b0 b1 b2 b3 b4 b5 b6 b7 : Nat) (h0 : b0 < 256) (h1 : b1 < 256)
    (h2 : b2 < 256) (h3 : b3 < 256) (h4 : b4 < 256) (h5 : b5 < 256) (h6 : b6 < 256) :
    (((((((0 ||| (b0 <<< (0 * 8))) ||| (b1 <<< (1 * 8))) ||| (b2 <<< (2 * 8))) |||
      (b3 <<< (3 * 8))) ||| (b4 <<< (4 * 8))) ||| (b5 <<< (5 * 8))) ||| (b6 <<< (6 * 8))) |||
      (b7 <<< (7 * 8))
      = b0 + b1 * 2 ^ 8 + b2 * 2 ^ 16 + b3 * 2 ^ 24 + b4 * 2 ^ 32 + b5 * 2 ^ 40 + b6 * 2 ^ 48
        + b7 * 2 ^ 56 := by
  rw [or_shl_eq_add 0 b0 (0 * 8) (by norm_num)]
  rw [or_shl_eq_add _ b1 (1 * 8) (by norm_num; omega)]
  rw [or_shl_eq_add _ b2 (2 * 8) (by norm_num; omega)]
  rw [or_shl_eq_add _ b3 (3 * 8) (by norm_num; omega)]
  rw [or_shl_eq_add _ b4 (4 * 8) (by norm_num; omega)]
  rw [or_shl_eq_add _ b5 (5 * 8) (by norm_num; omega)]
  rw [or_shl_eq_add _ b6 (6 * 8) (by norm_num; omega)]
  rw [or_shl_eq_add _ b7 (7 * 8) (by norm_num; omega)]
  norm_num

theorem sp_read_header_cons (b0 b1 b2 b3 b4 b5 b6 b7 : Nat) (rest : List Nat) :
    sp_read_header (b0 :: b1 :: b2 :: b3 :: b4 :: b5 :: b6 :: b7 :: rest)
      = (((((((0 ||| (b0 <<< (0 * 8))) ||| (b1 <<< (1 * 8))) ||| (b2 <<< (2 * 8))) |||
      (b3 <<< (3 * 8))) ||| (b4 <<< (4 * 8))) ||| (b5 <<< (5 * 8))) ||| (b6 <<< (6 * 8))) |||
      (b7 <<< (7 * 8)) := by
  have r8 : List.range SP_HEADER_SIZE = [0, 1, 2, 3, 4, 5, 6, 7] := by decide
  simp only [sp_read_header, r8, List.foldl_cons, List.foldl_nil]
  rfl

/-- The decoder's header read inverts the little-endian encoding on 8 bytes. -/
theorem sp_read_header_le_bytes (h : Nat) (rest : List Nat) :
    sp_read_header (le_bytes 8 h ++ rest) = h % 2 ^ 64 := by
  simp only [le_bytes, List.cons_append, List.nil_append]
  rw [sp_read_header_cons, or_chain8] <;> omega

theorem sp_read_crc_append (pre : List Nat) (c : Nat) (tail : List Nat) :
    sp_read_crc (pre ++ le_bytes 4 c ++ tail) pre.length = c % 2 ^ 32 := by
  simp only [le_bytes, sp_read_crc, List.append_assoc, List.cons_append, List.nil_append]
  have g : ∀ i x, (pre ++ x).getD (pre.length + i) 0 = x.getD i 0 := by
    intro i x
    simp [List.getD_eq_getElem?_getD, List.getElem?_append_right]
  simp only [g, List.getD_cons_zero, List.getD_cons_succ]
  rw [or_shl_eq_add 0 _ 0 (by norm_num)]
  rw [or_shl_eq_add _ _ 8 (by norm_num; omega)]
  rw [or_shl_eq_add _ _ 16 (by norm_num; omega)]
  rw [or_shl_eq_add _ _ 24 (by norm_num; omega)]
  omega

/-- The masked, shifted and OR-ed header fields add up: the five bit ranges are disjoint. -/
theorem header_or_eq (v T f t u : Nat) :
    ((((0 ||| ((v &&& 0x0F) <<< 0)) ||| ((T &&& 0x1FFFFFFFFFFF) <<< 4)) ||| ((f &&& 0x01) <<< 49))
      ||| ((t &&& 0x0F) <<< 50)) ||| ((u &&& 0x3FF) <<< 54)
      = v % 16 + T % 2 ^ 45 * 2 ^ 4 + f % 2 * 2 ^ 49 + t % 16 * 2 ^ 50 + u % 1024 * 2 ^ 54 := by
  rw [and_15, and_m45, and_1, and_15, and_1023]
  rw [or_shl_eq_add 0 _ 0 (by norm_num)]
  rw [or_shl_eq_add _ _ 4 (by norm_num; omega)]
  rw [or_shl_eq_add _ _ 49 (by norm_num; omega)]
  rw [or_shl_eq_add _ _ 50 (by norm_num; omega)]
  rw [or_shl_eq_add _ _ 54 (by norm_num; omega)]
  norm_num

/-- The decoder's shifts and masks recover each field of a header word. -/
theorem header_fields (v T f t u H : Nat) (hv : v < 16) (hT : T < 2 ^ 45) (hf : f < 2)
    (ht : t < 16) (hu : u < 1024)
    (hH : H = v + T * 2 ^ 4 + f * 2 ^ 49 + t * 2 ^ 50 + u * 2 ^ 54) :
    H < 2 ^ 64 ∧ ((H >>> 0) &&& 0x0F) = v ∧ ((H >>> 4) &&& 0x1FFFFFFFFFFF) = T ∧
      ((H >>> 49) &&& 0x01) = f ∧ ((H >>> 50) &&& 0x0F) = t ∧ ((H >>> 54) &&& 0x3FF) = u := by
  rw [and_15, and_m45, and_1, and_15, and_1023]
  simp only [Nat.shiftRight_eq_div_pow]
  norm_num at *
  omega

theorem sp_crc32_step_lt (crc : Nat) (h : crc < 2 ^ 32) : sp_crc32_step crc < 2 ^ 32 := by
  unfold sp_crc32_step
  apply Nat.xor_lt_two_pow
  · rw [Nat.shiftRight_eq_div_pow]; omega
  · rw [Nat.and_comm]
    exact Nat.and_lt_two_pow _ (by norm_num)

theorem sp_crc32_bits_lt (j crc : Nat) (h : crc < 2 ^ 32) : sp_crc32_bits j crc < 2 ^ 32 := by
  induction j generalizing crc with
  | zero => exact h
  | succ j ih => exact ih _ (sp_crc32_step_lt crc h)

theorem sp_crc32_loop_lt (data : List Nat) (crc : Nat) (hd : IsBytes data) (h : crc < 2 ^ 32) :
    sp_crc32_loop data crc < 2 ^ 32 := by
  induction data generalizing crc with
  | nil => exact h
  | cons d ds ih =>
    have hd0 : d < 256 := hd d (List.mem_cons_self _ _)
    refine ih _ (fun x hx => hd x (List.mem_cons_of_mem _ hx)) ?_
    exact sp_crc32_bits_lt 8 _ (Nat.xor_lt_two_pow h (by omega))

theorem IsBytes_take (data : List Nat) (n : Nat) (hd : IsBytes data) : IsBytes (data.take n) :=
  fun x hx => hd x (List.mem_of_mem_take hx)

theorem IsBytes_append (a b : List Nat) (ha : IsBytes a) (hb : IsBytes b) : IsBytes (a ++ b) := by
  intro x hx
  rcases List.mem_append.mp hx with h | h
  · exact ha x h
  · exact hb x h

/-- The CRC of a byte buffer fits in 32 bits. -/
theorem sp_crc32_inline_lt (data : List Nat) (n : Nat) (hd : IsBytes data) :
    sp_crc32_inline data n < 2 ^ 32 := by
  unfold sp_crc32_inline
  exact Nat.xor_lt_two_pow (by norm_num) (sp_crc32_loop_lt _ _ (IsBytes_take _ _ hd) (by norm_num))

theorem wire_length (h : Nat) (payload : List Nat) : (wire h payload).length = payload.length + 12 := by
  simp only [wire_eq, List.length_append, le_bytes_length]; omega

theorem sp_crc32_inline_append (a b : List Nat) : sp_crc32_inline (a ++ b) a.length = sp_crc32_inline a a.length := by
  unfold sp_crc32_inline
  rw [List.take_left, List.take_length]

/-- The decoder accepts the wire layout of a header word whose length field is right. -/
theorem sp_parse_wire (v T f t u : Nat) (payload : List Nat) (q0 : sp_parsed_packet_t)
    (hv : v < 16) (hf : f < 2) (ht : t < 16) (hu : u < 1024)
    (hT : T = payload.length + 12) (hT2 : T < 2 ^ 45) (hp : IsBytes payload) :
    sp_parse_packet (some (wire (v + T * 2 ^ 4 + f * 2 ^ 49 + t * 2 ^ 50 + u * 2 ^ 54) payload))
      (payload.length + 12) (some q0)
      = (SP_OK, some
          { protocol_version := v
            packet_length := T
            fragment_flag := f
            payload_type := t
            user_field := u
            payload := (wire (v + T * 2 ^ 4 + f * 2 ^ 49 + t * 2 ^ 50 + u * 2 ^ 54) payload).drop 8
            payload_length := payload.length }) := by
  obtain ⟨hH, f1, f2, f3, f4, f5⟩ := header_fields v T f t u _ hv hT2 hf ht hu rfl
  generalize hHd : v + T * 2 ^ 4 + f * 2 ^ 49 + t * 2 ^ 50 + u * 2 ^ 54 = H at *
  have hrd : sp_read_header (wire H payload) = H := by
    rw [wire_eq, List.append_assoc, sp_read_header_le_bytes]
    exact Nat.mod_eq_of_lt hH
  have hl : (le_bytes 8 H ++ payload).length = 8 + payload.length := by
    rw [List.length_append, le_bytes_length]
  have hcb : IsBytes (le_bytes 8 H ++ payload) := IsBytes_append _ _ (le_bytes_isBytes _ _) hp
  have hcrc : sp_read_crc (wire H payload) (payload.length + 12 - 4)
      = sp_crc32_inline (le_bytes 8 H ++ payload) (8 + payload.length) := by
    have := sp_read_crc_append (le_bytes 8 H ++ payload)
      (sp_crc32_inline (le_bytes 8 H ++ payload) (8 + payload.length)) []
    rw [List.append_nil, hl] at this
    have e : payload.length + 12 - 4 = 8 + payload.length := by omega
    rw [e, wire_eq, this]
    exact Nat.mod_eq_of_lt (sp_crc32_inline_lt _ _ hcb)
  have hcomp : sp_crc32_inline (wire H payload) (payload.length + 12 - 4)
      = sp_crc32_inline (le_bytes 8 H ++ payload) (8 + payload.length) := by
    have e : payload.length + 12 - 4 = (le_bytes 8 H ++ payload).length := by omega
    rw [e, wire_eq, sp_crc32_inline_append, hl]
  have hts : to_size_t T = T := by simp only [to_size_t]; omega
  unfold sp_parse_packet
  simp only [hrd, f1, f2, f3, f4, f5, hts, SP_HEADER_SIZE, SP_MAX_HEADER_LENGTH_VALUE]
  subst hT
  simp only [hcrc, hcomp]
  have m1 : v % 256 = v := by omega
  have m2 : f % 256 = f := by omega
  have m3 : t % 256 = t := by omega
  have m4 : u % 65536 = u := by omega
  rw [m1, m2, m3, m4]
  have c1 : ¬ (payload.length + 12 < 8 + 4) := by omega
  have c2 : ¬ (payload.length + 12 > 35184372088831) := by omega
  have e3 : payload.length + 12 - 8 - 4 = payload.length := by omega
  simp only [c1, c2, e3, if_false, ne_eq, not_true_eq_false]

theorem xor_xor_cancel (p a b : Nat) : (p ^^^ a) ^^^ (p ^^^ b) = a ^^^ b := by
  rw [Nat.xor_assoc, ← Nat.xor_assoc a, Nat.xor_comm a p, Nat.xor_assoc p, ← Nat.xor_assoc,
    Nat.xor_self, Nat.zero_xor]

theorem sp_crc32_step_eq (x : Nat) : sp_crc32_step x = crc32_table_step x := by
  unfold sp_crc32_step crc32_table_step
  simp only [Nat.and_one_is_mod, Nat.shiftRight_eq_div_pow, Nat.pow_one]
  rcases Nat.mod_two_eq_zero_or_one x with h | h
  · rw [h]; norm_num
  · rw [h]
    simp only [if_true]
    have : (0 + 2 ^ 32 - 1) % 2 ^ 32 = 2 ^ 32 - 1 := by norm_num
    rw [this, Nat.and_pow_two_sub_one_eq_mod, Nat.xor_comm]

/-- The bit step is linear over XOR. -/
theorem crc32_table_step_xor (x y : Nat) :
    crc32_table_step (x ^^^ y) = crc32_table_step x ^^^ crc32_table_step y := by
  unfold crc32_table_step
  rw [Nat.xor_div_two]
  have hm := @Nat.xor_mod_two_eq x y
  rcases Nat.mod_two_eq_zero_or_one x with hx | hx <;>
    rcases Nat.mod_two_eq_zero_or_one y with hy | hy
  · have : (x ^^^ y) % 2 = 0 := by omega
    rw [if_neg (by omega), if_neg (by omega), if_neg (by omega)]
  · have : (x ^^^ y) % 2 = 1 := by omega
    rw [if_pos this, if_neg (by omega), if_pos hy, ← Nat.xor_assoc, Nat.xor_comm _ (x / 2),
      Nat.xor_assoc]
  · have : (x ^^^ y) % 2 = 1 := by omega
    rw [if_pos this, if_pos hx, if_neg (by omega), Nat.xor_assoc]
  · have : (x ^^^ y) % 2 = 0 := by omega
    rw [if_neg (by omega), if_pos hx, if_pos hy, xor_xor_cancel]

theorem iterate_step_xor (n x y : Nat) :
    crc32_table_step^[n] (x ^^^ y) = crc32_table_step^[n] x ^^^ crc32_table_step^[n] y := by
  induction n generalizing x y with
  | zero => rfl
  | succ n ih => simp only [Function.iterate_succ, Function.comp_apply, crc32_table_step_xor, ih]

theorem sp_crc32_bits_eq (n x : Nat) : sp_crc32_bits n x = crc32_table_step^[n] x := by
  induction n generalizing x with
  | zero => rfl
  | succ n ih => simp only [sp_crc32_bits, Function.iterate_succ, Function.comp_apply, ih, sp_crc32_step_eq]

theorem step_shiftLeft (z k : Nat) : crc32_table_step (z <<< (k + 1)) = z <<< k := by
  unfold crc32_table_step
  simp only [Nat.shiftLeft_eq, Nat.pow_succ, ← Nat.mul_assoc]
  generalize z * 2 ^ k = m
  rw [if_neg (by omega)]
  omega

theorem iterate_step_shiftLeft (n z : Nat) : crc32_table_step^[n] (z <<< n) = z := by
  induction n with
  | zero => rfl
  | succ n ih => simp only [Function.iterate_succ, Function.comp_apply, step_shiftLeft, ih]

theorem split_low8 (w : Nat) : w = (w &&& 0xFF) ^^^ ((w >>> 8) <<< 8) := by
  apply Nat.eq_of_testBit_eq
  intro i
  have e : (0xFF : Nat) = 2 ^ 8 - 1 := by norm_num
  rw [e]
  simp only [Nat.testBit_xor, Nat.testBit_and, Nat.testBit_two_pow_sub_one,
    Nat.testBit_shiftLeft, Nat.testBit_shiftRight]
  by_cases h : i < 8
  · have h2 : ¬ (i ≥ 8) := by omega
    simp [h, h2]
  · have h2 : i ≥ 8 := by omega
    have h3 : 8 + (i - 8) = i := by omega
    simp [h, h2, h3]

theorem shiftRight8_xor_byte (crc b : Nat) (hb : b < 256) : (crc ^^^ b) >>> 8 = crc >>> 8 := by
  simp only [Nat.shiftRight_eq_div_pow]
  apply Nat.eq_of_testBit_eq
  intro i
  have hb2 : b.testBit (8 + i) = false :=
    Nat.testBit_lt_two_pow (Nat.lt_of_lt_of_le hb (by
      calc 256 = 2 ^ 8 := by norm_num
        _ ≤ 2 ^ (8 + i) := Nat.pow_le_pow_right (by norm_num) (by omega)))
  rw [← Nat.shiftRight_eq_div_pow, ← Nat.shiftRight_eq_div_pow]
  simp [Nat.testBit_shiftRight, Nat.testBit_xor, hb2]

theorem crc32_table_getD (i : Nat) (h : i < 256) : crc32_table.getD i 0 = crc32_table_entry i := by
  unfold crc32_table
  rw [List.getD_eq_getElem?_getD, List.getElem?_map, List.getElem?_range h]
  rfl

/-- Eight bit steps on `crc ^ b` are one table-driven update. -/
theorem byte_update_eq (crc b : Nat) (hb : b < 256) :
    sp_crc32_bits 8 (crc ^^^ b) = crc32_table_update crc b := by
  unfold crc32_table_update
  have hi : (crc ^^^ b) &&& 0xFF < 256 := Nat.and_lt_two_pow _ (by norm_num : 0xFF < 2 ^ 8)
  rw [crc32_table_getD _ hi, sp_crc32_bits_eq]
  conv_lhs => rw [split_low8 (crc ^^^ b)]
  rw [iterate_step_xor, iterate_step_shiftLeft, shiftRight8_xor_byte crc b hb]
  rfl

theorem sp_crc32_loop_eq (data : List Nat) (crc : Nat) (hd : IsBytes data) :
    sp_crc32_loop data crc = data.foldl crc32_table_update crc := by
  induction data generalizing crc with
  | nil => rfl
  | cons d ds ih =>
    simp only [sp_crc32_loop, List.foldl_cons]
    rw [byte_update_eq crc d (hd d (List.mem_cons_self _ _))]
    exact ih _ (fun x hx => hd x (List.mem_cons_of_mem _ hx))

theorem sp_crc32_inline_eq_table (data : List Nat) (hd : IsBytes data) :
    sp_crc32_inline data data.length = crc32_table_driven data := by
  unfold sp_crc32_inline crc32_table_driven
  rw [List.take_length, sp_crc32_loop_eq data _ hd]

theorem header_word_eq (v T f t u : Nat) (hv : v < 16) (hT : T < 2 ^ 45) (hf : f < 2)
    (ht : t < 16) :
    header_word v T f t u = v + T * 2 ^ 4 + f * 2 ^ 49 + t * 2 ^ 50 + u * 2 ^ 54 := by
  unfold header_word
  rw [or_shl_eq_add _ _ 4 (by norm_num; omega)]
  rw [or_shl_eq_add _ _ 49 (by norm_num; omega)]
  rw [or_shl_eq_add _ _ 50 (by norm_num; omega)]
  rw [or_shl_eq_add _ _ 54 (by norm_num; omega)]

theorem sp_header_value_eq (T f t u : Nat) (hT : T < 2 ^ 45) (hf : f < 2)
    (ht : t < 16) (hu : u < 1024) :
    sp_header_value T f t u = 1 + T * 2 ^ 4 + f * 2 ^ 49 + t * 2 ^ 50 + u * 2 ^ 54 := by
  unfold sp_header_value
  simp only []
  rw [header_or_eq, Nat.mod_eq_of_lt hT, Nat.mod_eq_of_lt hf, Nat.mod_eq_of_lt ht,
    Nat.mod_eq_of_lt hu]

theorem sp_header_value_eq_word (T f t u : Nat) (hT : T < 2 ^ 45) (hf : f < 2)
    (ht : t < 16) (hu : u < 1024) :
    sp_header_value T f t u = header_word 1 T f t u := by
  rw [sp_header_value_eq T f t u hT hf ht hu, header_word_eq 1 T f t u (by norm_num) hT hf ht]

theorem le_value_le_bytes (n x : Nat) : le_value (le_bytes n x) = x % 256 ^ n := by
  induction n generalizing x with
  | zero => simp [le_bytes, le_value, Nat.mod_one]
  | succ n ih => rw [le_bytes, le_value, ih, Nat.pow_succ', Nat.mod_mul]

/-- Outcome of the encoder on non-null arguments when every check passes. -/
theorem sp_encode_internal_ok (payload : List Nat) (frag type user m : Nat)
    (op : List Nat) (ol : Nat) (A : Allocator)
    (hf : frag = 0 ∨ frag = 1) (ht : type ≤ 15) (hu : user ≤ 1023)
    (hlen : payload.length + 12 ≤ effective_max m)
    (hm : A.malloc (payload.length + 12) ≠ none) :
    sp_encode_internal_inline (some payload) payload.length frag type user m (some op) (some ol) A
      = (SP_OK, some (wire (header_word 1 (payload.length + 12) frag type user) payload),
          some (payload.length + 12)) := by
  have hmax := effective_max_le m
  have hN : payload.length + 12 < 2 ^ 64 := by omega
  rw [sp_encode_internal_spec payload frag type user m op ol A hN]
  rw [if_neg (by omega), if_neg (by omega), if_neg (by omega), if_neg (by omega)]
  rw [sp_header_value_eq_word _ _ _ _ (by omega) (by omega) (by omega) (by omega)]
  cases hA : A.malloc (payload.length + 12) with
  | none => exact absurd hA hm
  | some buf => rfl

/-- When the encoder answers `SP_OK` on a payload whose framed length fits `size_t`, every
check passed. -/
theorem sp_encode_internal_inv (payload : List Nat) (frag type user m : Nat)
    (out_packet : Option (List Nat)) (out_length : Option Nat) (A : Allocator)
    (hN : payload.length + 12 < 2 ^ 64)
    (hok : (sp_encode_internal_inline (some payload) payload.length frag type user m
      out_packet out_length A).1 = SP_OK) :
    (frag = 0 ∨ frag = 1) ∧ type ≤ 15 ∧ user ≤ 1023 ∧ payload.length + 12 ≤ effective_max m ∧
      A.malloc (payload.length + 12) ≠ none ∧ (∃ op, out_packet = some op) ∧
      (∃ ol, out_length = some ol) := by
  cases out_packet with
  | none => simp [sp_encode_internal_inline] at hok
  | some op =>
    cases out_length with
    | none => simp [sp_encode_internal_inline] at hok
    | some ol =>
      rw [sp_encode_internal_spec payload frag type user m op ol A hN] at hok
      split_ifs at hok with h1 h2 h3 h4
      cases hA : A.malloc (payload.length + 12) with
      | none => rw [hA] at hok; simp at hok
      | some buf =>
        refine ⟨by omega, by omega, by omega, by omega, by simp, ⟨op, rfl⟩, ⟨ol, rfl⟩⟩

/-- A successful parse of the wire layout, with the payload view recovered. -/
theorem sp_parse_wire_view (v T f t u : Nat) (payload : List Nat) (q0 : sp_parsed_packet_t)
    (hv : v < 16) (hf : f < 2) (ht : t < 16) (hu : u < 1024)
    (hT : T = payload.length + 12) (hT2 : T < 2 ^ 45) (hp : IsBytes payload) :
    ∃ r, sp_parse_packet (some (wire (header_word v T f t u) payload))
        (wire (header_word v T f t u) payload).length (some q0) = (SP_OK, some r) ∧
      r.protocol_version = v ∧ r.packet_length = T ∧ r.fragment_flag = f ∧
      r.payload_type = t ∧ r.user_field = u ∧ r.payload_length = payload.length ∧
      payload_view r = payload := by
  rw [wire_length, header_word_eq v T f t u hv hT2 hf ht]
  refine ⟨_, sp_parse_wire v T f t u payload q0 hv hf ht hu hT hT2 hp, rfl, rfl, rfl, rfl, rfl,
    rfl, ?_⟩
  simp only [payload_view, wire_eq, List.append_assoc]
  rw [List.drop_left' (le_bytes_length 8 _), List.take_left]

/-- Every successful run of the internal encoder on a payload whose framed length fits
`size_t` returns the wire layout and its length. -/
theorem sp_encode_internal_ok_of_code (payload : List Nat) (frag type user m : Nat)
    (out_packet : Option (List Nat)) (out_length : Option Nat) (A : Allocator)
    (hN : payload.length + 12 < 2 ^ 64)
    (hok : (sp_encode_internal_inline (some payload) payload.length frag type user m
      out_packet out_length A).1 = SP_OK) :
    sp_encode_internal_inline (some payload) payload.length frag type user m
      out_packet out_length A
      = (SP_OK, some (wire (header_word 1 (payload.length + 12) frag type user) payload),
          some (payload.length + 12)) ∧ payload.length + 12 ≤ 2 ^ 45 - 1 := by
  obtain ⟨hf, ht, hu, hl, hm, ⟨op, rfl⟩, ⟨ol, rfl⟩⟩ :=
    sp_encode_internal_inv payload frag type user m out_packet out_length A hN hok
  exact ⟨sp_encode_internal_ok payload frag type user m op ol A hf ht hu hl hm,
    Nat.le_trans hl (effective_max_le m)⟩

theorem wire_length_field (v T f t u : Nat) (payload : List Nat) (hv : v < 16) (hT : T < 2 ^ 45)
    (hf : f < 2) (ht : t < 16) :
    le_value ((wire (header_word v T f t u) payload).take 8) / 2 ^ 4 % 2 ^ 45 = T := by
  rw [wire_eq, List.append_assoc, List.take_left' (le_bytes_length 8 _), le_value_le_bytes,
    header_word_eq v T f t u hv hT hf ht]
  norm_num at *
  omega

theorem effective_max_of_lt (m : Nat) (h0 : 0 < m) (h1 : m < 2 ^ 45 - 1) :
    effective_max (m % 2 ^ 64) = m := by
  have e : m % 2 ^ 64 = m := Nat.mod_eq_of_lt (by omega)
  rw [e]
  simp only [effective_max, SP_MAX_HEADER_LENGTH_VALUE]
  rw [if_pos ⟨h0, by omega⟩]

theorem list_eq_cons8 (b : List Nat) (h : 8 ≤ b.length) :
    ∃ b0 b1 b2 b3 b4 b5 b6 b7 rest, b = b0 :: b1 :: b2 :: b3 :: b4 :: b5 :: b6 :: b7 :: rest := by
  match b, h with
  | b0 :: b1 :: b2 :: b3 :: b4 :: b5 :: b6 :: b7 :: rest, _ =>
    exact ⟨b0, b1, b2, b3, b4, b5, b6, b7, rest, rfl⟩

theorem list_eq_of_length4 (b : List Nat) (h : b.length = 4) :
    ∃ c0 c1 c2 c3, b = [c0, c1, c2, c3] := by
  match b, h with
  | [c0, c1, c2, c3], _ => exact ⟨c0, c1, c2, c3, rfl⟩

theorem sp_read_header_eq_le_value (b : List Nat) (hb : IsBytes b) (hl : 8 ≤ b.length) :
    sp_read_header b = le_value (b.take 8) := by
  obtain ⟨b0, b1, b2, b3, b4, b5, b6, b7, rest, rfl⟩ := list_eq_cons8 b hl
  have h0 : b0 < 256 := hb b0 (by simp)
  have h1 : b1 < 256 := hb b1 (by simp)
  have h2 : b2 < 256 := hb b2 (by simp)
  have h3 : b3 < 256 := hb b3 (by simp)
  have h4 : b4 < 256 := hb b4 (by simp)
  have h5 : b5 < 256 := hb b5 (by simp)
  have h6 : b6 < 256 := hb b6 (by simp)
  rw [sp_read_header_cons, or_chain8 _ _ _ _ _ _ _ _ h0 h1 h2 h3 h4 h5 h6]
  simp only [List.take_succ_cons, List.take_zero, le_value]
  omega

theorem sp_read_crc_cons (pre : List Nat) (c0 c1 c2 c3 : Nat) (tail : List Nat)
    (h0 : c0 < 256) (h1 : c1 < 256) (h2 : c2 < 256) :
    sp_read_crc (pre ++ c0 :: c1 :: c2 :: c3 :: tail) pre.length
      = c0 + c1 * 2 ^ 8 + c2 * 2 ^ 16 + c3 * 2 ^ 24 := by
  simp only [sp_read_crc]
  have g : ∀ i x, (pre ++ x).getD (pre.length + i) 0 = x.getD i 0 := by
    intro i x
    simp [List.getD_eq_getElem?_getD, List.getElem?_append_right]
  simp only [g, List.getD_cons_zero, List.getD_cons_succ]
  rw [or_shl_eq_add 0 _ 0 (by norm_num)]
  rw [or_shl_eq_add _ _ 8 (by norm_num; omega)]
  rw [or_shl_eq_add _ _ 16 (by norm_num; omega)]
  rw [or_shl_eq_add _ _ 24 (by norm_num; omega)]
  omega

theorem sp_read_crc_eq_le_value (b : List Nat) (hb : IsBytes b) (hl : 4 ≤ b.length) :
    sp_read_crc b (b.length - 4) = le_value (b.drop (b.length - 4)) := by
  have hd : (b.drop (b.length - 4)).length = 4 := by rw [List.length_drop]; omega
  obtain ⟨c0, c1, c2, c3, hc⟩ := list_eq_of_length4 _ hd
  have hsplit : b = b.take (b.length - 4) ++ [c0, c1, c2, c3] := by
    rw [← hc, List.take_append_drop]
  have hmem : ∀ x ∈ [c0, c1, c2, c3], x < 256 := by
    intro x hx
    apply hb x
    rw [hsplit]
    exact List.mem_append_right _ hx
  have hlen : (b.take (b.length - 4)).length = b.length - 4 := by
    rw [List.length_take]; omega
  rw [hc]
  conv_lhs => rw [hsplit]
  have := sp_read_crc_cons (b.take (b.length - 4)) c0 c1 c2 c3 []
    (hmem c0 (by simp)) (hmem c1 (by simp)) (hmem c2 (by simp))
  rw [hlen] at this
  rw [List.length_append, hlen]
  simp only [List.length_cons, List.length_nil]
  have e : b.length - 4 + (0 + 1 + 1 + 1 + 1) - 4 = b.length - 4 := by omega
  rw [e, this]
  simp only [le_value]
  omega

/-- The header length field as the decoder extracts it, for a well-formed buffer. -/
theorem declared_length_eq (b : List Nat) (hb : IsBytes b) (hl : 8 ≤ b.length) :
    (sp_read_header b >>> 4) &&& 0x1FFFFFFFFFFF = le_value (b.take 8) / 2 ^ 4 % 2 ^ 45 := by
  rw [sp_read_header_eq_le_value b hb hl, and_m45, Nat.shiftRight_eq_div_pow]

/-- Normal form of the decoder on non-null arguments: the `SP_ERR_PAYLOAD_TOO_LARGE` test can
never fire and the conversions to `size_t` are the identity. -/
theorem sp_parse_packet_spec (b : List Nat) (q0 : sp_parsed_packet_t) :
    sp_parse_packet (some b) b.length (some q0)
      = if b.length < 12 then (SP_ERR_BUFFER_TOO_SMALL, some q0)
        else if (sp_read_header b >>> 4) &&& 0x1FFFFFFFFFFF < 12 then
          (SP_ERR_BUFFER_TOO_SMALL, some q0)
        else if b.length ≠ (sp_read_header b >>> 4) &&& 0x1FFFFFFFFFFF then
          (SP_ERR_LENGTH_MISMATCH, some q0)
        else if sp_crc32_inline b (b.length - 4) ≠ sp_read_crc b (b.length - 4) then
          (SP_ERR_CRC_MISMATCH, some q0)
        else (SP_OK, some
          { protocol_version := ((sp_read_header b >>> 0) &&& 0x0F) % 256
            packet_length := b.length
            fragment_flag := ((sp_read_header b >>> 49) &&& 0x01) % 256
            payload_type := ((sp_read_header b >>> 50) &&& 0x0F) % 256
            user_field := ((sp_read_header b >>> 54) &&& 0x3FF) % 65536
            payload := b.drop 8
            payload_length := b.length - 8 - 4 }) := by
  have hD : (sp_read_header b >>> 4) &&& 0x1FFFFFFFFFFF < 2 ^ 45 := by
    rw [and_m45]; exact Nat.mod_lt _ (by norm_num)
  generalize hDd : (sp_read_header b >>> 4) &&& 0x1FFFFFFFFFFF = D at hD
  have hts : to_size_t D = D := by simp only [to_size_t]; omega
  unfold sp_parse_packet
  simp only [hDd, hts, SP_HEADER_SIZE, SP_MAX_HEADER_LENGTH_VALUE]
  by_cases h1 : b.length < 12
  · rw [if_pos (by omega), if_pos h1]
  · rw [if_neg (by omega), if_neg h1]
    by_cases h2 : D < 12
    · rw [if_pos (by omega), if_pos h2]
    · rw [if_neg (by omega), if_neg h2, if_neg (by omega)]
      by_cases h3 : b.length ≠ D
      · rw [if_pos h3, if_pos h3]
      · rw [if_neg h3, if_neg h3]
        have h3' : D = b.length := by omega
        subst h3'
        rfl

/-! ## Lemmas: the C++ restatement -/

open streamprotocol

theorem computeCRC32_bits_eq (j crc : Nat) : computeCRC32_bits j crc = sp_crc32_bits j crc := by
  induction j generalizing crc with
  | zero => rfl
  | succ j ih =>
    rw [computeCRC32_bits, sp_crc32_bits, ih]
    rfl

theorem computeCRC32_loop_eq (data : List Nat) (crc : Nat) :
    computeCRC32_loop data crc = sp_crc32_loop data crc := by
  induction data generalizing crc with
  | nil => rfl
  | cons d ds ih => rw [computeCRC32_loop, sp_crc32_loop, ih, computeCRC32_bits_eq]

theorem computeCRC32_eq (data : List Nat) (length : Nat) :
    computeCRC32 data length = sp_crc32_inline data length := by
  unfold computeCRC32 sp_crc32_inline
  rw [computeCRC32_loop_eq]

theorem foldl_push_range (g : Nat → Nat) (n : Nat) (init : List Nat) :
    (List.range n).foldl (fun p i => p ++ [g i]) init = init ++ (List.range n).map g := by
  induction n with
  | zero => simp
  | succ n ih =>
    rw [List.range_succ, List.foldl_append, ih, List.map_append]
    simp

theorem object_bytes_u32_eq (x : Nat) : object_bytes_u32 x = le_bytes 4 x := by
  simp only [object_bytes_u32, le_bytes, Nat.div_div_eq_div_mul]
  norm_num

theorem MAX_PACKET_LENGTH_eq : MAX_PACKET_LENGTH = 2 ^ 45 - 1 := by decide

/-- Outcome of `buildPacket` on a non-null payload when every check passes. -/
theorem buildPacket_ok (self : StreamProtocol) (data : List Nat)
    (payloadType fragFlag userValue : Nat)
    (hv : self.protocolVersion ≤ 15)
    (hf : fragFlag = 0 ∨ fragFlag = 1) (ht : payloadType ≤ 15) (hu : userValue ≤ 1023)
    (hN : data.length + 12 ≤ 2 ^ 45 - 1) :
    self.buildPacket (some data) data.length payloadType fragFlag userValue
      = .ok (wire (header_word self.protocolVersion (data.length + 12) fragFlag payloadType
          userValue) data) := by
  have e0 : (HEADER_SIZE + data.length % 2 ^ 64 + 4) % 2 ^ 64 = data.length + 12 := by
    simp only [HEADER_SIZE]; omega
  have ept : (payloadType &&& 0xFF) % 256 = payloadType := by
    rw [and_255]; omega
  unfold StreamProtocol.buildPacket
  simp only [e0, ept, MAX_PACKET_LENGTH_eq, FRAGED, UNFRAGED, header_or_eq, foldl_push_range,
    List.nil_append, computeCRC32_eq, object_bytes_u32_eq, List.take_length]
  rw [if_neg (by omega), if_neg (by omega), if_neg (by omega), if_neg (by omega)]
  have hH : self.protocolVersion % 16 + (data.length + 12) % 2 ^ 45 * 2 ^ 4 + fragFlag % 2 * 2 ^ 49
      + payloadType % 16 * 2 ^ 50 + userValue % 1024 * 2 ^ 54
      = header_word self.protocolVersion (data.length + 12) fragFlag payloadType userValue := by
    rw [header_word_eq _ _ _ _ _ (by omega) (by omega) (by omega) (by omega)]
    rw [Nat.mod_eq_of_lt (by omega : self.protocolVersion < 16),
      Nat.mod_eq_of_lt (by omega : data.length + 12 < 2 ^ 45),
      Nat.mod_eq_of_lt (by omega : fragFlag < 2),
      Nat.mod_eq_of_lt (by omega : payloadType < 16),
      Nat.mod_eq_of_lt (by omega : userValue < 1024)]
  rw [hH]
  have hb := header_bytes_eq (header_word self.protocolVersion (data.length + 12) fragFlag
    payloadType userValue)
  simp only [HEADER_SIZE]
  rw [hb]
  rfl

/-- Normal form of `parsePacket`: the same ordered checks as the C decoder. -/
theorem parsePacket_spec (self : StreamProtocol) (b : List Nat) :
    self.parsePacket b
      = if b.length < 12 then .error (.BufferTooSmallException b.length)
        else if (sp_read_header b >>> 4) &&& 0x1FFFFFFFFFFF < 12 then
          .error (.BufferTooSmallException ((sp_read_header b >>> 4) &&& 0x1FFFFFFFFFFF))
        else if b.length ≠ (sp_read_header b >>> 4) &&& 0x1FFFFFFFFFFF then
          .error (.PacketSizeMismatch b.length ((sp_read_header b >>> 4) &&& 0x1FFFFFFFFFFF))
        else if sp_crc32_inline b (b.length - 4) ≠ sp_read_crc b (b.length - 4) then
          .error (.InvalidCRCException (sp_read_crc b (b.length - 4))
            (sp_crc32_inline b (b.length - 4)))
        else .ok
          { protocolVersion := ((sp_read_header b >>> 0) &&& 0x0F) % 256
            packetLength := b.length
            fragmentFlag := ((sp_read_header b >>> 49) &&& 0x01) % 256
            payloadType := ((sp_read_header b >>> 50) &&& 0x0F) % 256
            userField := ((sp_read_header b >>> 54) &&& 0x3FF) % 65536
            payloadRaw := (b.take (b.length - 4)).drop 8 } := by
  have hD : (sp_read_header b >>> 4) &&& 0x1FFFFFFFFFFF < 2 ^ 45 := by
    rw [and_m45]; exact Nat.mod_lt _ (by norm_num)
  have hrd : (List.range HEADER_SIZE).foldl
      (fun h i => h ||| ((b.getD i 0) <<< (i * 8))) 0 = sp_read_header b := rfl
  have hcr : ∀ off, (List.range 4).foldl
      (fun r i => r ||| ((b.getD (off + i) 0) <<< (i * 8))) 0 = sp_read_crc b off := by
    intro off
    have r4 : List.range 4 = [0, 1, 2, 3] := by decide
    simp only [r4, List.foldl_cons, List.foldl_nil, sp_read_crc]
  unfold StreamProtocol.parsePacket
  simp only [hrd, hcr, computeCRC32_eq, MAX_PACKET_LENGTH_eq]
  generalize hDd : (sp_read_header b >>> 4) &&& 0x1FFFFFFFFFFF = D at hD
  have hts : D % 2 ^ 64 = D := by omega
  simp only [hts, HEADER_SIZE]
  by_cases h1 : b.length < 12
  · rw [if_pos (by omega), if_pos h1]
  · rw [if_neg (by omega), if_neg h1]
    by_cases h2 : D < 12
    · rw [if_pos (by omega), if_pos h2]
    · rw [if_neg (by omega), if_neg h2, if_neg (by omega)]
      by_cases h3 : b.length ≠ D
      · rw [if_pos h3, if_pos h3]
      · rw [if_neg h3, if_neg h3]
        have h3' : D = b.length := by omega
        subst h3'
        rfl

/-- A buffer the C decoder accepts is accepted by `parsePacket`, with the same fields. -/
theorem parsePacket_of_sp_parse_ok (self : StreamProtocol) (b : List Nat)
    (q0 r : sp_parsed_packet_t)
    (h : sp_parse_packet (some b) b.length (some q0) = (SP_OK, some r)) :
    self.parsePacket b = .ok ⟨r.protocol_version, r.packet_length, r.fragment_flag,
      r.payload_type, r.user_field, payload_view r⟩ := by
  rw [sp_parse_packet_spec] at h
  rw [parsePacket_spec]
  by_cases h1 : b.length < 12
  · rw [if_pos h1] at h; cases h
  rw [if_neg h1] at h ⊢
  by_cases h2 : (sp_read_header b >>> 4) &&& 0x1FFFFFFFFFFF < 12
  · rw [if_pos h2] at h; cases h
  rw [if_neg h2] at h ⊢
  by_cases h3 : b.length ≠ (sp_read_header b >>> 4) &&& 0x1FFFFFFFFFFF
  · rw [if_pos h3] at h; cases h
  rw [if_neg h3] at h ⊢
  by_cases h4 : sp_crc32_inline b (b.length - 4) ≠ sp_read_crc b (b.length - 4)
  · rw [if_pos h4] at h; cases h
  rw [if_neg h4] at h ⊢
  simp only [Prod.mk.injEq, Option.some.injEq, true_and] at h
  subst h
  simp only [payload_view, List.drop_take]
  have e : b.length - 4 - 8 = b.length - 8 - 4 := by omega
  rw [e]

/-- When `malloc` answers `NULL` the encoder returns `SP_ERR_PAYLOAD_TOO_LARGE` and leaves
both outputs as they were. -/
theorem sp_encode_packet_malloc_null :
    sp_encode_packet (some [0x41, 0x42]) 2 0 1 42 (some []) (some 0) nullAllocator
      = (SP_ERR_PAYLOAD_TOO_LARGE, some [], some 0) := by
  decide

/-- Known entries of the CRC-32 table. -/
theorem crc32_table_values :
    crc32_table.getD 0 0 = 0x00000000 ∧ crc32_table.getD 1 0 = 0x77073096 ∧
      crc32_table.getD 2 0 = 0xEE0E612C ∧ crc32_table.getD 255 0 = 0x2D02EF8D := by
  decide

/-! ## Lemmas: tampering and the two decoders -/

/-- The bit step is injective on 32-bit registers: the bit shifted out decides bit 31 of the
result, because the polynomial has bit 31 set. -/
theorem crc32_table_step_injective (x y : Nat) (hx : x < 2 ^ 32) (hy : y < 2 ^ 32)
    (h : crc32_table_step x = crc32_table_step y) : x = y := by
  have hP : Nat.testBit 0xEDB88320 31 = true := by decide
  have hhalf : ∀ z, z < 2 ^ 32 → Nat.testBit (z / 2) 31 = false := by
    intro z hz
    exact Nat.testBit_lt_two_pow (by omega)
  have hmix : ∀ a b, a < 2 ^ 32 → b < 2 ^ 32 → 0xEDB88320 ^^^ (a / 2) ≠ b / 2 := by
    intro a b ha hb he
    have := congrArg (fun z => Nat.testBit z 31) he
    simp only [Nat.testBit_xor, hP, hhalf a ha, hhalf b hb] at this
    cases this
  unfold crc32_table_step at h
  by_cases h1 : x % 2 = 1 <;> by_cases h2 : y % 2 = 1
  · rw [if_pos h1, if_pos h2] at h
    have h3 : x / 2 = y / 2 := by
      have := congrArg (fun z => 0xEDB88320 ^^^ z) h
      simp only [← Nat.xor_assoc, Nat.xor_self, Nat.zero_xor] at this
      exact this
    omega
  · rw [if_pos h1, if_neg h2] at h
    exact absurd h (hmix x y hx hy)
  · rw [if_neg h1, if_pos h2] at h
    exact absurd h.symm (hmix y x hy hx)
  · rw [if_neg h1, if_neg h2] at h
    omega

theorem sp_crc32_bits_injective (j x y : Nat) (hx : x < 2 ^ 32) (hy : y < 2 ^ 32)
    (h : sp_crc32_bits j x = sp_crc32_bits j y) : x = y := by
  induction j generalizing x y with
  | zero => exact h
  | succ j ih =>
    have h' := ih _ _ (sp_crc32_step_lt x hx) (sp_crc32_step_lt y hy) h
    rw [sp_crc32_step_eq, sp_crc32_step_eq] at h'
    exact crc32_table_step_injective x y hx hy h'

theorem sp_crc32_loop_injective (data : List Nat) (x y : Nat) (hd : IsBytes data)
    (hx : x < 2 ^ 32) (hy : y < 2 ^ 32)
    (h : sp_crc32_loop data x = sp_crc32_loop data y) : x = y := by
  induction data generalizing x y with
  | nil => exact h
  | cons d ds ih =>
    have hd0 : d < 256 := hd d (List.mem_cons_self _ _)
    have hx' : x ^^^ d < 2 ^ 32 := Nat.xor_lt_two_pow hx (by omega)
    have hy' : y ^^^ d < 2 ^ 32 := Nat.xor_lt_two_pow hy (by omega)
    have h1 := ih _ _ (fun z hz => hd z (List.mem_cons_of_mem _ hz))
      (sp_crc32_bits_lt 8 _ hx') (sp_crc32_bits_lt 8 _ hy') h
    have h2 := sp_crc32_bits_injective 8 _ _ hx' hy' h1
    have := congrArg (fun z => z ^^^ d) h2
    simp only [Nat.xor_assoc, Nat.xor_self, Nat.xor_zero] at this
    exact this

theorem sp_crc32_loop_append (xs ys : List Nat) (c : Nat) :
    sp_crc32_loop (xs ++ ys) c = sp_crc32_loop ys (sp_crc32_loop xs c) := by
  induction xs generalizing c with
  | nil => rfl
  | cons x xs ih =>
    rw [List.cons_append, sp_crc32_loop, sp_crc32_loop, ih]

/-- Replacing one byte of the covered data by a different byte changes the CRC register. -/
theorem sp_crc32_loop_change (pre suf : List Nat) (a a' c : Nat) (hpre : IsBytes pre)
    (hsuf : IsBytes suf) (ha : a < 256) (ha' : a' < 256) (hne : a ≠ a') (hc : c < 2 ^ 32) :
    sp_crc32_loop (pre ++ a :: suf) c ≠ sp_crc32_loop (pre ++ a' :: suf) c := by
  intro h
  rw [sp_crc32_loop_append, sp_crc32_loop_append] at h
  simp only [sp_crc32_loop] at h
  have hs := sp_crc32_loop_lt pre c hpre hc
  have h1 : sp_crc32_loop pre c ^^^ a < 2 ^ 32 := Nat.xor_lt_two_pow hs (by omega)
  have h2 : sp_crc32_loop pre c ^^^ a' < 2 ^ 32 := Nat.xor_lt_two_pow hs (by omega)
  have h3 := sp_crc32_loop_injective suf _ _ hsuf (sp_crc32_bits_lt 8 _ h1)
    (sp_crc32_bits_lt 8 _ h2) h
  have h4 := sp_crc32_bits_injective 8 _ _ h1 h2 h3
  have := congrArg (fun z => sp_crc32_loop pre c ^^^ z) h4
  simp only [← Nat.xor_assoc, Nat.xor_self, Nat.zero_xor] at this
  exact hne this


theorem flip_value (a k : Nat) (ha : a < 256) (hk : k < 8) :
    a ^^^ 2 ^ k < 256 ∧ a ^^^ 2 ^ k ≠ a := by
  constructor
  · have h1 : a < 2 ^ 8 := by omega
    have h2 : 2 ^ k < 2 ^ 8 := Nat.pow_lt_pow_right (by norm_num) hk
    have := Nat.xor_lt_two_pow h1 h2
    omega
  · intro h
    have := congrArg (fun z => a ^^^ z) h
    simp only [← Nat.xor_assoc, Nat.xor_self, Nat.zero_xor] at this
    have hp : 0 < 2 ^ k := Nat.pos_pow_of_pos k (by norm_num)
    omega

theorem IsBytes_set (b : List Nat) (i v : Nat) (hb : IsBytes b) (hv : v < 256) :
    IsBytes (b.set i v) := by
  intro x hx
  rcases List.mem_or_eq_of_mem_set hx with h | h
  · exact hb x h
  · omega

theorem getD_set_ne (b : List Nat) (i j v : Nat) (h : i ≠ j) :
    (b.set i v).getD j 0 = b.getD j 0 := by
  simp only [List.getD_eq_getElem?_getD, List.getElem?_set_ne h]

theorem sp_read_header_set (b : List Nat) (i v : Nat) (hi : 8 ≤ i) :
    sp_read_header (b.set i v) = sp_read_header b := by
  have r8 : List.range SP_HEADER_SIZE = [0, 1, 2, 3, 4, 5, 6, 7] := by decide
  simp only [sp_read_header, r8, List.foldl_cons, List.foldl_nil]
  rw [getD_set_ne b i 0 v (by omega), getD_set_ne b i 1 v (by omega),
    getD_set_ne b i 2 v (by omega), getD_set_ne b i 3 v (by omega),
    getD_set_ne b i 4 v (by omega), getD_set_ne b i 5 v (by omega),
    getD_set_ne b i 6 v (by omega), getD_set_ne b i 7 v (by omega)]

theorem sp_read_crc_set (b : List Nat) (i v off : Nat) (hi : i < off) :
    sp_read_crc (b.set i v) off = sp_read_crc b off := by
  simp only [sp_read_crc]
  rw [getD_set_ne b i _ v (by omega), getD_set_ne b i _ v (by omega),
    getD_set_ne b i _ v (by omega), getD_set_ne b i _ v (by omega)]

/-- Replacing one covered byte of a buffer by a different byte changes its CRC-32. -/
theorem sp_crc32_inline_set_ne (b : List Nat) (i v n : Nat) (hb : IsBytes b)
    (hi : i < n) (hn : n ≤ b.length) (hv : v < 256) (hne : b.getD i 0 ≠ v) :
    sp_crc32_inline (b.set i v) n ≠ sp_crc32_inline b n := by
  have hil : i < (b.take n).length := by rw [List.length_take]; omega
  have hset : (b.set i v).take n = (b.take n).take i ++ v :: (b.take n).drop (i + 1) := by
    rw [List.set_take, List.set_eq_take_append_cons_drop, if_pos hil]
  have horig : b.take n = (b.take n).take i ++ (b.take n)[i] :: (b.take n).drop (i + 1) := by
    conv_lhs => rw [← List.take_append_drop i (b.take n)]
    rw [List.drop_eq_getElem_cons hil]
  have hget : (b.take n)[i] = b.getD i 0 := by
    rw [List.getD_eq_getElem?_getD, ← List.getElem?_take_of_lt hi, List.getElem?_eq_getElem hil]
    rfl
  have hbt := IsBytes_take b n hb
  have hpre : IsBytes ((b.take n).take i) := IsBytes_take _ _ hbt
  have hsuf : IsBytes ((b.take n).drop (i + 1)) :=
    fun x hx => hbt x (List.mem_of_mem_drop hx)
  have ha : b.getD i 0 < 256 := by
    rw [← hget]
    exact hbt _ (List.getElem_mem _)
  intro h
  unfold sp_crc32_inline at h
  rw [hset] at h
  conv_rhs at h => rw [horig, hget]
  have h' := congrArg (fun z => 0xFFFFFFFF ^^^ z) h
  simp only [← Nat.xor_assoc, Nat.xor_self, Nat.zero_xor] at h'
  exact sp_crc32_loop_change _ _ _ _ _ hpre hsuf ha hv hne (by norm_num) h'.symm

/-- The result code of the C decoder on non-null arguments, as a cascade of the four tests. -/
theorem sp_parse_packet_code (b : List Nat) (q0 : sp_parsed_packet_t) :
    (sp_parse_packet (some b) b.length (some q0)).1
      = if b.length < 12 then SP_ERR_BUFFER_TOO_SMALL
        else if (sp_read_header b >>> 4) &&& 0x1FFFFFFFFFFF < 12 then SP_ERR_BUFFER_TOO_SMALL
        else if b.length ≠ (sp_read_header b >>> 4) &&& 0x1FFFFFFFFFFF then
          SP_ERR_LENGTH_MISMATCH
        else if sp_crc32_inline b (b.length - 4) ≠ sp_read_crc b (b.length - 4) then
          SP_ERR_CRC_MISMATCH
        else SP_OK := by
  rw [sp_parse_packet_spec]
  split_ifs <;> rfl

/-- The C++ decoder ends with the same result code as the C decoder. -/
theorem outcome_code_parsePacket (self : StreamProtocol) (b : List Nat)
    (q0 : sp_parsed_packet_t) :
    outcome_code (self.parsePacket b) = (sp_parse_packet (some b) b.length (some q0)).1 := by
  rw [sp_parse_packet_code, parsePacket_spec]
  split_ifs <;> rfl

/-- A buffer is accepted by the C decoder exactly when it is long enough, declares its own
length and carries the CRC-32 of its first `L-4` bytes. -/
theorem sp_parse_packet_ok_iff (b : List Nat) (q0 : sp_parsed_packet_t) :
    (sp_parse_packet (some b) b.length (some q0)).1 = SP_OK ↔
      12 ≤ b.length ∧ (sp_read_header b >>> 4) &&& 0x1FFFFFFFFFFF = b.length ∧
        sp_crc32_inline b (b.length - 4) = sp_read_crc b (b.length - 4) := by
  rw [sp_parse_packet_code]
  constructor
  · intro h
    split_ifs at h with h1 h2 h3 h4
    exact ⟨by omega, by omega, by simpa using h4⟩
  · rintro ⟨h1, h2, h3⟩
    rw [if_neg (by omega), if_neg (by omega), if_neg (by omega), if_neg (by simp [h3])]

/-- What a successful call of the C encoder has produced, and from what. -/
theorem sp_encode_produced (payload : List Nat) (frag type user m : Nat)
    (out_packet : Option (List Nat)) (out_length : Option Nat) (A : Allocator)
    (p : List Nat) (n : Option Nat)
    (hN : 8 + payload.length + 4 < 2 ^ 64)
    (h : sp_encode_internal_inline (some payload) payload.length frag type user m
      out_packet out_length A = (SP_OK, some p, n)) :
    p = wire (header_word 1 (payload.length + 12) frag type user) payload ∧
      (frag = 0 ∨ frag = 1) ∧ type ≤ 15 ∧ user ≤ 1023 ∧ payload.length + 12 ≤ 2 ^ 45 - 1 := by
  have hok : (sp_encode_internal_inline (some payload) payload.length frag type user m
      out_packet out_length A).1 = SP_OK := by rw [h]
  have hN' : payload.length + 12 < 2 ^ 64 := by omega
  obtain ⟨h1, h2⟩ := sp_encode_internal_ok_of_code payload frag type user m out_packet
    out_length A hN' hok
  obtain ⟨hf, ht, hu, -⟩ := sp_encode_internal_inv payload frag type user m out_packet
    out_length A hN' hok
  rw [h1] at h
  simp only [Prod.mk.injEq, Option.some.injEq, true_and] at h
  exact ⟨h.1.symm, hf, ht, hu, h2⟩

/-- A packet produced by the C encoder from a byte payload is a byte buffer of `N+12` bytes
that the C decoder accepts. -/
theorem sp_encode_produced_ok (payload : List Nat) (frag type user m : Nat)
    (out_packet : Option (List Nat)) (out_length : Option Nat) (A : Allocator)
    (p : List Nat) (n : Option Nat) (q0 : sp_parsed_packet_t)
    (hp : IsBytes payload) (hN : 8 + payload.length + 4 < 2 ^ 64)
    (h : sp_encode_internal_inline (some payload) payload.length frag type user m
      out_packet out_length A = (SP_OK, some p, n)) :
    IsBytes p ∧ p.length = payload.length + 12 ∧
      (sp_parse_packet (some p) p.length (some q0)).1 = SP_OK := by
  obtain ⟨rfl, hf, ht, hu, hl⟩ := sp_encode_produced payload frag type user m out_packet
    out_length A p n hN h
  obtain ⟨r, hr, -⟩ := sp_parse_wire_view 1 (payload.length + 12) frag type user payload q0
    (by omega) (by omega) (by omega) (by omega) rfl (by omega) hp
  refine ⟨?_, wire_length _ _, by rw [hr]⟩
  rw [wire_eq]
  exact IsBytes_append _ _ (IsBytes_append _ _ (le_bytes_isBytes _ _) hp) (le_bytes_isBytes _ _)

/-- Replacing one payload byte of an accepted buffer by a different byte is reported as a CRC
mismatch. -/
theorem tamper_payload_byte (b : List Nat) (q0 : sp_parsed_packet_t) (i v : Nat)
    (hb : IsBytes b) (hok : (sp_parse_packet (some b) b.length (some q0)).1 = SP_OK)
    (hi : 8 ≤ i) (hi2 : i < b.length - 4) (hv : v < 256) (hne : b.getD i 0 ≠ v) :
    (sp_parse_packet (some (b.set i v)) (b.set i v).length (some q0)).1
      = SP_ERR_CRC_MISMATCH := by
  obtain ⟨h1, h2, h3⟩ := (sp_parse_packet_ok_iff b q0).mp hok
  rw [sp_parse_packet_code, List.length_set, sp_read_header_set b i v hi,
    sp_read_crc_set b i v _ hi2, h2]
  rw [if_neg (by omega), if_neg (by omega), if_neg (by simp), ← h3,
    if_pos (sp_crc32_inline_set_ne b i v _ hb hi2 (by omega) hv hne)]

theorem flip_bit_length (p : List Nat) (j : Nat) : (flip_bit p j).length = p.length := by
  unfold flip_bit
  exact List.length_set _ _ _

theorem getD_lt_of_isBytes (b : List Nat) (i : Nat) (hb : IsBytes b) : b.getD i 0 < 256 := by
  rw [List.getD_eq_getElem?_getD]
  by_cases h : i < b.length
  · rw [List.getElem?_eq_getElem h]
    exact hb _ (List.getElem_mem _)
  · rw [List.getElem?_eq_none (by omega)]
    decide

theorem testBit_byte_add (b V j : Nat) (hb : b < 256) :
    Nat.testBit (b + 256 * V) j = if j < 8 then Nat.testBit b j else Nat.testBit V (j - 8) := by
  have h := Nat.testBit_mul_pow_two_add V (show b < 2 ^ 8 by omega) j
  have e : 2 ^ 8 * V + b = b + 256 * V := by omega
  rw [e] at h
  exact h

/-- Flipping bit `k` of byte `i` flips bit `8 * i + k` of the little-endian value. -/
theorem le_value_set_flip (l : List Nat) (i k : Nat) (hl : IsBytes l) (hi : i < l.length)
    (hk : k < 8) :
    le_value (l.set i (l.getD i 0 ^^^ 2 ^ k)) = le_value l ^^^ 2 ^ (8 * i + k) := by
  induction l generalizing i with
  | nil => simp at hi
  | cons b bs ih =>
    have hb : b < 256 := hl b (List.mem_cons_self _ _)
    have hbs : IsBytes bs := fun x hx => hl x (List.mem_cons_of_mem _ hx)
    cases i with
    | zero =>
      simp only [List.set_cons_zero, List.getD_cons_zero, le_value, Nat.mul_zero, Nat.zero_add]
      apply Nat.eq_of_testBit_eq
      intro j
      rw [testBit_byte_add _ _ _ (flip_value b k hb hk).1]
      simp only [Nat.testBit_xor, testBit_byte_add _ _ _ hb, Nat.testBit_two_pow]
      by_cases hj : j < 8
      · simp only [hj, if_true]
      · have : ¬ k = j := by omega
        simp [hj, this]
    | succ i =>
      simp only [List.set_cons_succ, List.getD_cons_succ, le_value]
      rw [ih i hbs (by simpa using hi)]
      apply Nat.eq_of_testBit_eq
      intro j
      simp only [Nat.testBit_xor, testBit_byte_add _ _ _ hb, Nat.testBit_two_pow]
      by_cases hj : j < 8
      · have : ¬ 8 * (i + 1) + k = j := by omega
        simp [hj, this]
      · have e : (8 * i + k = j - 8) ↔ (8 * (i + 1) + k = j) := by omega
        simp [hj, e]

/-- The header word read from a buffer with one header bit flipped. -/
theorem sp_read_header_flip (p : List Nat) (j : Nat) (hp : IsBytes p) (hl : 8 ≤ p.length)
    (hj : j < 64) :
    sp_read_header (flip_bit p j) = sp_read_header p ^^^ 2 ^ j := by
  have hv := (flip_value (p.getD (j / 8) 0) (j % 8) (getD_lt_of_isBytes p _ hp)
    (Nat.mod_lt _ (by norm_num))).1
  have hi : j / 8 < 8 := by omega
  have hget : (p.take 8).getD (j / 8) 0 = p.getD (j / 8) 0 := by
    simp only [List.getD_eq_getElem?_getD, List.getElem?_take_of_lt hi]
  unfold flip_bit
  rw [sp_read_header_eq_le_value _ (IsBytes_set p _ _ hp hv)
      (by rw [List.length_set]; exact hl),
    sp_read_header_eq_le_value p hp hl]
  rw [List.set_take, ← hget,
    le_value_set_flip (p.take 8) (j / 8) (j % 8) (IsBytes_take _ _ hp)
      (by rw [List.length_take]; omega) (Nat.mod_lt _ (by norm_num))]
  have e : 8 * (j / 8) + j % 8 = j := Nat.div_add_mod j 8
  rw [e]

/-- Flipping a bit inside bits 4..48 of a header word changes its length field. -/
theorem length_field_flip_in (H j : Nat) (h1 : 4 ≤ j) (h2 : j < 49) :
    ((H ^^^ 2 ^ j) >>> 4) &&& 0x1FFFFFFFFFFF ≠ (H >>> 4) &&& 0x1FFFFFFFFFFF := by
  intro h
  have := congrArg (fun z => Nat.testBit z (j - 4)) h
  have e : (0x1FFFFFFFFFFF : Nat) = 2 ^ 45 - 1 := by norm_num
  have e2 : 4 + (j - 4) = j := by omega
  have e3 : j - 4 < 45 := by omega
  simp only [e, Nat.testBit_and, Nat.testBit_shiftRight, Nat.testBit_xor, Nat.testBit_two_pow,
    Nat.testBit_two_pow_sub_one, e2, e3, decide_True, Bool.and_true] at this
  cases hb : H.testBit j <;> simp [hb] at this

/-- Flipping a bit outside bits 4..48 of a header word leaves its length field alone. -/
theorem length_field_flip_out (H j : Nat) (h : j < 4 ∨ 49 ≤ j) :
    ((H ^^^ 2 ^ j) >>> 4) &&& 0x1FFFFFFFFFFF = (H >>> 4) &&& 0x1FFFFFFFFFFF := by
  apply Nat.eq_of_testBit_eq
  intro m
  have e : (0x1FFFFFFFFFFF : Nat) = 2 ^ 45 - 1 := by norm_num
  simp only [e, Nat.testBit_and, Nat.testBit_shiftRight, Nat.testBit_xor, Nat.testBit_two_pow,
    Nat.testBit_two_pow_sub_one]
  by_cases hm : m < 45
  · have : ¬ j = 4 + m := by omega
    simp [hm, this]
  · simp [hm]

/-- One flipped header bit of an accepted buffer: a CRC mismatch when the bit lies outside the
length field, a length error when it lies inside. -/
theorem tamper_header_bit (b : List Nat) (q0 : sp_parsed_packet_t) (j : Nat)
    (hb : IsBytes b) (hok : (sp_parse_packet (some b) b.length (some q0)).1 = SP_OK)
    (hj : j < 64) :
    ((j < 4 ∨ 49 ≤ j) →
      (sp_parse_packet (some (flip_bit b j)) (flip_bit b j).length (some q0)).1
        = SP_ERR_CRC_MISMATCH) ∧
    ((4 ≤ j ∧ j < 49) →
      (sp_parse_packet (some (flip_bit b j)) (flip_bit b j).length (some q0)).1
          = SP_ERR_LENGTH_MISMATCH ∨
        (sp_parse_packet (some (flip_bit b j)) (flip_bit b j).length (some q0)).1
          = SP_ERR_BUFFER_TOO_SMALL) := by
  obtain ⟨h1, h2, h3⟩ := (sp_parse_packet_ok_iff b q0).mp hok
  obtain ⟨hv, hne⟩ := flip_value (b.getD (j / 8) 0) (j % 8) (getD_lt_of_isBytes b _ hb)
    (Nat.mod_lt _ (by norm_num))
  have hcode := sp_parse_packet_code (flip_bit b j) q0
  rw [flip_bit_length, sp_read_header_flip b j hb (by omega) hj] at hcode
  rw [flip_bit_length]
  constructor
  · intro hout
    rw [hcode, length_field_flip_out _ j hout, h2]
    have hcrc : sp_crc32_inline (flip_bit b j) (b.length - 4)
        ≠ sp_read_crc (flip_bit b j) (b.length - 4) := by
      unfold flip_bit
      rw [sp_read_crc_set b _ _ _ (by omega), ← h3]
      exact sp_crc32_inline_set_ne b _ _ _ hb (by omega) (by omega) hv (fun h => hne h.symm)
    rw [if_neg (by omega), if_neg (by omega), if_neg (by simp), if_pos hcrc]
  · intro hin
    rw [hcode]
    have hD := length_field_flip_in (sp_read_header b) j hin.1 hin.2
    rw [h2] at hD
    rw [if_neg (by omega)]
    by_cases hs : (sp_read_header b ^^^ 2 ^ j) >>> 4 &&& 0x1FFFFFFFFFFF < 12
    · rw [if_pos hs]
      exact Or.inr rfl
    · rw [if_neg hs, if_pos (fun h => hD h.symm)]
      exact Or.inl rfl

theorem sp_read_header_take (b : List Nat) (k : Nat) (hk : 8 ≤ k) :
    sp_read_header (b.take k) = sp_read_header b := by
  have r8 : List.range SP_HEADER_SIZE = [0, 1, 2, 3, 4, 5, 6, 7] := by decide
  have g : ∀ i, i < 8 → (b.take k).getD i 0 = b.getD i 0 := by
    intro i hi
    simp only [List.getD_eq_getElem?_getD, List.getElem?_take_of_lt (show i < k by omega)]
  simp only [sp_read_header, r8, List.foldl_cons, List.foldl_nil]
  rw [g 0 (by omega), g 1 (by omega), g 2 (by omega), g 3 (by omega), g 4 (by omega),
    g 5 (by omega), g 6 (by omega), g 7 (by omega)]

/-- Removing the last byte of an accepted buffer: a length mismatch, or the size error when
fewer than 12 bytes remain. -/
theorem truncate_accepted (b : List Nat) (q0 : sp_parsed_packet_t)
    (hok : (sp_parse_packet (some b) b.length (some q0)).1 = SP_OK) :
    (13 ≤ b.length →
      (sp_parse_packet (some b.dropLast) b.dropLast.length (some q0)).1
        = SP_ERR_LENGTH_MISMATCH) ∧
    (b.length = 12 →
      (sp_parse_packet (some b.dropLast) b.dropLast.length (some q0)).1
        = SP_ERR_BUFFER_TOO_SMALL) := by
  obtain ⟨h1, h2, -⟩ := (sp_parse_packet_ok_iff b q0).mp hok
  rw [sp_parse_packet_code, List.length_dropLast]
  constructor
  · intro h13
    rw [List.dropLast_eq_take, sp_read_header_take b _ (by omega), h2]
    rw [if_neg (by omega), if_neg (by omega), if_pos (by omega)]
  · intro h12
    rw [if_pos (by omega)]

/-- Appending one cell to an accepted buffer is reported as a length mismatch. -/
theorem pad_accepted (b : List Nat) (q0 : sp_parsed_packet_t) (x : Nat)
    (hok : (sp_parse_packet (some b) b.length (some q0)).1 = SP_OK) :
    (sp_parse_packet (some (b ++ [x])) (b ++ [x]).length (some q0)).1
      = SP_ERR_LENGTH_MISMATCH := by
  obtain ⟨h1, h2, -⟩ := (sp_parse_packet_ok_iff b q0).mp hok
  have hh : sp_read_header (b ++ [x]) = sp_read_header b := by
    rw [← sp_read_header_take (b ++ [x]) 8 (by omega),
      List.take_append_of_le_length (by omega), sp_read_header_take b 8 (by omega)]
  rw [sp_parse_packet_code, hh, h2, List.length_append, List.length_singleton]
  rw [if_neg (by omega), if_neg (by omega), if_pos (by omega)]

/-- Both entry points of the C encoder are calls of the internal encoder. -/
theorem sp_encode_either (payload : List Nat)
    (frag_flag payload_type user_field max_packet_size : Nat)
    (out_packet : Option (List Nat)) (out_length : Option Nat) (A : Allocator)
    (res : sp_result_t × Option (List Nat) × Option Nat)
    (h : sp_encode_packet (some payload) payload.length frag_flag payload_type user_field
        out_packet out_length A = res ∨
      sp_encode_packet_limited (some payload) payload.length frag_flag payload_type user_field
        max_packet_size out_packet out_length A = res) :
    ∃ m, sp_encode_internal_inline (some payload) payload.length frag_flag payload_type
      user_field m out_packet out_length A = res := by
  rcases h with h | h
  · exact ⟨0, h⟩
  · exact ⟨max_packet_size % 2 ^ 64, h⟩

/-- Every packet `buildPacket` returns carries the low four bits of the stored protocol
version in header bits 0..3, whatever the other arguments. -/
theorem buildPacket_version (self : StreamProtocol) (data : Option (List Nat))
    (size payloadType fragFlag userValue : Nat) (p : List Nat)
    (h : self.buildPacket data size payloadType fragFlag userValue = .ok p) :
    (sp_read_header p >>> 0) &&& 0x0F = self.protocolVersion % 16 := by
  unfold StreamProtocol.buildPacket at h
  cases data with
  | none => simp at h
  | some data =>
    simp only [header_or_eq, foldl_push_range, List.nil_append] at h
    split_ifs at h
    simp only [Except.ok.injEq] at h
    rw [← h]
    have hb := header_bytes_eq (self.protocolVersion % 16
      + (HEADER_SIZE + size % 2 ^ 64 + 4) % 2 ^ 64 % 2 ^ 45 * 2 ^ 4 + fragFlag % 2 * 2 ^ 49
      + payloadType % 16 * 2 ^ 50 + userValue % 1024 * 2 ^ 54)
    simp only [HEADER_SIZE] at hb ⊢
    rw [hb, List.append_assoc, sp_read_header_le_bytes, and_15, Nat.shiftRight_zero]
    omega

/-- The internal C encoder leavesboth outputs alone unless it returns `SP_OK`. -/
theorem sp_encode_internal_frame (payload : Option (List Nat))
    (payload_length frag_flag payload_type user_field max_packet_size : Nat)
    (out_packet : Option (List Nat)) (out_length : Option Nat) (A : Allocator)
    (h : (sp_encode_internal_inline payload payload_length frag_flag payload_type user_field
      max_packet_size out_packet out_length A).1 ≠ SP_OK) :
    (sp_encode_internal_inline payload payload_length frag_flag payload_type user_field
      max_packet_size out_packet out_length A).2 = (out_packet, out_length) := by
  unfold sp_encode_internal_inline at h ⊢
  cases payload with
  | none => rfl
  | some pl =>
    cases out_packet with
    | none => rfl
    | some op =>
      cases out_length with
      | none => rfl
      | some ol =>
        simp only at h ⊢
        split_ifs at h ⊢
        all_goals first
          | rfl
          | (cases hm : A.malloc (to_size_t
                ((SP_HEADER_SIZE + payload_length % 2 ^ 64 + 4) % 2 ^ 64)) with
              | none => simp only [hm]
              | some buf => simp only [hm] at h; exact absurd rfl h)

/-- A little-endian value of bytes is below `256 ^ length`. -/
theorem le_value_lt : ∀ (l : List Nat), IsBytes l → le_value l < 256 ^ l.length := by
  intro l
  induction l with
  | nil => intro _; simp [le_value]
  | cons x xs ih =>
    intro h
    have hx : x < 256 := h x (List.mem_cons_self _ _)
    have hxs : IsBytes xs := fun y hy => h y (List.mem_cons_of_mem _ hy)
    have := ih hxs
    simp only [le_value, List.length_cons, Nat.pow_succ]
    omega

/-- Emitting the little-endian value of a byte sequence gives the sequence back. -/
theorem le_bytes_le_value : ∀ (l : List Nat), IsBytes l → le_bytes l.length (le_value l) = l := by
  intro l
  induction l with
  | nil => intro _; rfl
  | cons x xs ih =>
    intro h
    have hx : x < 256 := h x (List.mem_cons_self _ _)
    have hxs : IsBytes xs := fun y hy => h y (List.mem_cons_of_mem _ hy)
    simp only [le_value, List.length_cons, le_bytes]
    have e1 : (x + 256 * le_value xs) % 256 = x := by omega
    have e2 : (x + 256 * le_value xs) / 256 = le_value xs := by omega
    rw [e1, e2, ih hxs]

theorem sp_read_header_lt (b : List Nat) (hb : IsBytes b) (hl : 8 ≤ b.length) :
    sp_read_header b < 2 ^ 64 := by
  rw [sp_read_header_eq_le_value b hb hl]
  have h := le_value_lt (b.take 8) (IsBytes_take b 8 hb)
  have e : (b.take 8).length = 8 := by rw [List.length_take]; omega
  rw [e] at h
  norm_num at h ⊢
  exact h

/-- The five field ranges cover the 64-bit word: packing the unpacked fields gives the
word back. -/
theorem header_repack (H : Nat) (hH : H < 2 ^ 64) :
    header_word ((H >>> 0) &&& 0x0F) ((H >>> 4) &&& 0x1FFFFFFFFFFF) ((H >>> 49) &&& 0x01)
      ((H >>> 50) &&& 0x0F) ((H >>> 54) &&& 0x3FF) = H := by
  rw [and_15, and_m45, and_1, and_15, and_1023]
  simp only [Nat.shiftRight_eq_div_pow]
  rw [header_word_eq _ _ _ _ _ (Nat.mod_lt _ (by norm_num)) (Nat.mod_lt _ (by norm_num))
    (Nat.mod_lt _ (by norm_num)) (Nat.mod_lt _ (by norm_num))]
  norm_num at hH ⊢
  omega

/-- The unpacked fields are within their ranges. -/
theorem unpack_bounds (H : Nat) :
    ((H >>> 0) &&& 0x0F) % 256 ≤ 15 ∧ (H >>> 4) &&& 0x1FFFFFFFFFFF ≤ 2 ^ 45 - 1 ∧
      (((H >>> 49) &&& 0x01) % 256 = 0 ∨ ((H >>> 49) &&& 0x01) % 256 = 1) ∧
      ((H >>> 50) &&& 0x0F) % 256 ≤ 15 ∧ ((H >>> 54) &&& 0x3FF) % 65536 ≤ 1023 := by
  rw [and_15, and_m45, and_1, and_15, and_1023]
  norm_num
  omega

/-- The effective maximum in closed form. -/
theorem effective_max_eq (m : Nat) :
    effective_max m = if m = 0 then 2 ^ 45 - 1 else min (2 ^ 45 - 1) m := by
  unfold effective_max SP_MAX_HEADER_LENGTH_VALUE
  by_cases h0 : m = 0
  · subst h0; simp
  · rw [if_neg h0]
    by_cases h1 : m < 2 ^ 45 - 1
    · rw [if_pos ⟨by omega, h1⟩]; omega
    · rw [if_neg (by omega)]; omega

/-- With valid fields the result code of the encoder is decided by the effective maximum
and by the allocation. -/
theorem sp_encode_code_limit (payload : List Nat) (frag type user m : Nat)
    (op : List Nat) (ol : Nat) (A : Allocator)
    (hf : frag = 0 ∨ frag = 1) (ht : type ≤ 15) (hu : user ≤ 1023)
    (hN : payload.length + 12 < 2 ^ 64) :
    (A.malloc (payload.length + 12) ≠ none →
      ((sp_encode_internal_inline (some payload) payload.length frag type user m (some op)
        (some ol) A).1 = SP_OK ↔ payload.length + 12 ≤ effective_max m)) ∧
    (¬ payload.length + 12 ≤ effective_max m →
      (sp_encode_internal_inline (some payload) payload.length frag type user m (some op)
        (some ol) A).1 = SP_ERR_PAYLOAD_TOO_LARGE) := by
  rw [sp_encode_internal_spec payload frag type user m op ol A hN]
  rw [if_neg (by omega), if_neg (by omega), if_neg (by omega)]
  constructor
  · intro hA
    by_cases h : payload.length + 12 > effective_max m
    · rw [if_pos h]
      constructor
      · intro h2; cases h2
      · intro h2; omega
    · rw [if_neg h]
      cases hm : A.malloc (payload.length + 12) with
      | none => exact absurd hm hA
      | some buf =>
        constructor
        · intro _; omega
        · intro _; rfl
  · intro h
    rw [if_pos (by omega)]


theorem IsBytes_drop (data : List Nat) (n : Nat) (hd : IsBytes data) : IsBytes (data.drop n) :=
  fun x hx => hd x (List.mem_of_mem_drop hx)

theorem take_set_of_le (l : List Nat) (n m a : Nat) (h : m ≤ n) :
    (l.set n a).take m = l.take m :=
  List.ext_getElem? fun k => by
    rw [List.getElem?_take, List.getElem?_take]
    split
    · next h2 => rw [List.getElem?_set_ne (by omega)]
    · rfl

/-- Flipping one bit inside the four trailer bytes of an accepted buffer changes the CRC
that is read while the CRC that is computed stays: the decoder answers CRC mismatch. -/
theorem tamper_crc_bit (b : List Nat) (q0 : sp_parsed_packet_t) (j : Nat)
    (hb : IsBytes b) (hok : (sp_parse_packet (some b) b.length (some q0)).1 = SP_OK)
    (hj1 : 8 * (b.length - 4) ≤ j) (hj2 : j < 8 * b.length) :
    (sp_parse_packet (some (flip_bit b j)) (flip_bit b j).length (some q0)).1
      = SP_ERR_CRC_MISMATCH := by
  obtain ⟨h12, hD, hcrc⟩ := (sp_parse_packet_ok_iff b q0).mp hok
  obtain ⟨hv, -⟩ := flip_value (b.getD (j / 8) 0) (j % 8) (getD_lt_of_isBytes b _ hb)
    (Nat.mod_lt _ (by norm_num))
  have hi1 : b.length - 4 ≤ j / 8 := by omega
  have hi2 : j / 8 < b.length := by omega
  have hlen : (flip_bit b j).length = b.length := flip_bit_length b j
  have hb2 : IsBytes (flip_bit b j) := IsBytes_set b _ _ hb hv
  have hH : sp_read_header (flip_bit b j) = sp_read_header b :=
    sp_read_header_set b _ _ (by omega)
  have hc : sp_crc32_inline (flip_bit b j) (b.length - 4) = sp_crc32_inline b (b.length - 4) := by
    unfold sp_crc32_inline flip_bit
    rw [take_set_of_le b _ _ _ hi1]
  have hdrop : (flip_bit b j).drop (b.length - 4)
      = (b.drop (b.length - 4)).set (j / 8 - (b.length - 4))
          ((b.drop (b.length - 4)).getD (j / 8 - (b.length - 4)) 0 ^^^ 2 ^ (j % 8)) := by
    unfold flip_bit
    rw [List.drop_set, if_neg (by omega)]
    have e : (b.drop (b.length - 4)).getD (j / 8 - (b.length - 4)) 0 = b.getD (j / 8) 0 := by
      simp only [List.getD_eq_getElem?_getD, List.getElem?_drop]
      have e2 : b.length - 4 + (j / 8 - (b.length - 4)) = j / 8 := by omega
      rw [e2]
    rw [e]
  have hr : sp_read_crc (flip_bit b j) (b.length - 4) ≠ sp_read_crc b (b.length - 4) := by
    have h1 := sp_read_crc_eq_le_value (flip_bit b j) hb2 (by rw [hlen]; omega)
    rw [hlen] at h1
    rw [h1, sp_read_crc_eq_le_value b hb (by omega), hdrop,
      le_value_set_flip _ _ _ (IsBytes_drop b _ hb) (by rw [List.length_drop]; omega)
        (Nat.mod_lt _ (by norm_num))]
    intro h
    have h0 : 2 ^ (8 * (j / 8 - (b.length - 4)) + j % 8) = 0 := by
      apply Nat.xor_right_injective
      rw [Nat.xor_zero]
      exact h
    exact absurd h0 (Nat.pos_iff_ne_zero.mp (Nat.pow_pos (by norm_num)))
  rw [sp_parse_packet_code, hlen, hH, hD, hc, hcrc]
  rw [if_neg (by omega), if_neg (by omega), if_neg (fun h => h rfl),
    if_pos (fun h => hr h.symm)]

/-! ## The claims -/

/-- C1. Round trip (C API): for every byte payload of length N with 8+N+4 at most 2^45-1,
every frag_flag in 0..1, payload_type at most 15 and user_field at most 1023, when the
allocation succeeds, `sp_encode_packet` returns `SP_OK` with a packet `p` of N+12 bytes, and
`sp_parse_packet p (len p)` returns `SP_OK` with protocol_version 1, packet_length N+12, the
same fragment_flag, payload_type and user_field, payload_length N and the input payload as
payload bytes. -/
theorem C1_roundtrip (payload : List Nat) (frag_flag payload_type user_field : Nat)
    (out_packet0 : List Nat) (out_length0 : Nat) (parsed0 : sp_parsed_packet_t) (A : Allocator)
    (hp : IsBytes payload) (hN : 8 + payload.length + 4 ≤ 2 ^ 45 - 1)
    (hf : frag_flag = 0 ∨ frag_flag = 1) (ht : payload_type ≤ 15) (hu : user_field ≤ 1023)
    (hm : A.malloc (8 + payload.length + 4) ≠ none) :
    ∃ p r,
      sp_encode_packet (some payload) payload.length frag_flag payload_type user_field
        (some out_packet0) (some out_length0) A = (SP_OK, some p, some (payload.length + 12)) ∧
      p.length = payload.length + 12 ∧
      sp_parse_packet (some p) p.length (some parsed0) = (SP_OK, some r) ∧
      r.protocol_version = 1 ∧ r.packet_length = payload.length + 12 ∧
      r.fragment_flag = frag_flag ∧ r.payload_type = payload_type ∧
      r.user_field = user_field ∧ r.payload_length = payload.length ∧
      payload_view r = payload := by
  have e : 8 + payload.length + 4 = payload.length + 12 := by omega
  rw [e] at hm hN
  have hmax : payload.length + 12 ≤ effective_max 0 := by
    simp only [effective_max, SP_MAX_HEADER_LENGTH_VALUE]
    rw [if_neg (by omega)]
    omega
  obtain ⟨r, hr, h1, h2, h3, h4, h5, h6, h7⟩ :=
    sp_parse_wire_view 1 (payload.length + 12) frag_flag payload_type user_field payload parsed0
      (by omega) (by omega) (by omega) (by omega) rfl (by omega) hp
  exact ⟨_, r, sp_encode_internal_ok payload frag_flag payload_type user_field 0 out_packet0
    out_length0 A hf ht hu hmax hm, wire_length _ _, hr, h1, h2, h3, h4, h5, h6, h7⟩

/-- Witness of C1 at the payload "AB", fragment flag 0, payload type 1, user field 42. -/
theorem C1_roundtrip_witness :
    (IsBytes [0x41, 0x42] ∧ 8 + [0x41, 0x42].length + 4 ≤ 2 ^ 45 - 1 ∧
      fillAllocator.malloc (8 + [0x41, 0x42].length + 4) ≠ none) ∧
    ∃ p r,
      sp_encode_packet (some [0x41, 0x42]) [0x41, 0x42].length 0 1 42
        (some []) (some 0) fillAllocator = (SP_OK, some p, some ([0x41, 0x42].length + 12)) ∧
      p.length = [0x41, 0x42].length + 12 ∧
      sp_parse_packet (some p) p.length (some ⟨0, 0, 0, 0, 0, [], 0⟩) = (SP_OK, some r) ∧
      r.protocol_version = 1 ∧ r.packet_length = [0x41, 0x42].length + 12 ∧
      r.fragment_flag = 0 ∧ r.payload_type = 1 ∧
      r.user_field = 42 ∧ r.payload_length = [0x41, 0x42].length ∧
      payload_view r = [0x41, 0x42] :=
  ⟨⟨by decide, by decide, by decide⟩,
    C1_roundtrip [0x41, 0x42] 0 1 42 [] 0 ⟨0, 0, 0, 0, 0, [], 0⟩ fillAllocator
      (by decide) (by decide) (by decide) (by decide) (by decide) (by decide)⟩

/-- C2. Round trip with configured version (C++ API): for every `v` in 0..15,
`SetProtocolVersion(v)` succeeds and afterwards, for every byte string `s` of length N with
N+12 at most 2^45-1, every fragFlag in 0..1 and every userValue at most 1023,
`parsePacket(toBytes(s, fragFlag, userValue))` succeeds and returns ProtocolVersion `v`,
PacketLength N+12, FragmentFlag fragFlag, PayloadType 1, UserField userValue and Payload `s`;
on a freshly constructed object (no `SetProtocolVersion` call) the returned version is 1. -/
theorem C2_roundtrip_version (self : StreamProtocol) (v : Nat) (s : List Nat)
    (fragFlag userValue : Nat)
    (hv : v ≤ 15) (hs : IsBytes s) (hN : s.length + 12 ≤ 2 ^ 45 - 1)
    (hf : fragFlag = 0 ∨ fragFlag = 1) (hu : userValue ≤ 1023) :
    (self.SetProtocolVersion v).1 = .ok () ∧
    (∃ p r, (self.SetProtocolVersion v).2.toBytes s fragFlag userValue = .ok p ∧
      (self.SetProtocolVersion v).2.parsePacket p = .ok r ∧
      r.ProtocolVersion = v ∧ r.PacketLength = s.length + 12 ∧ r.FragmentFlag = fragFlag ∧
      r.PayloadType = 1 ∧ r.UserField = userValue ∧ r.Payload = s) ∧
    (∃ p r, ({} : StreamProtocol).toBytes s fragFlag userValue = .ok p ∧
      ({} : StreamProtocol).parsePacket p = .ok r ∧
      r.ProtocolVersion = 1 ∧ r.PacketLength = s.length + 12 ∧ r.FragmentFlag = fragFlag ∧
      r.PayloadType = 1 ∧ r.UserField = userValue ∧ r.Payload = s) := by
  have key : ∀ sp : StreamProtocol, sp.protocolVersion ≤ 15 →
      ∃ p r, sp.toBytes s fragFlag userValue = .ok p ∧ sp.parsePacket p = .ok r ∧
        r.ProtocolVersion = sp.protocolVersion ∧ r.PacketLength = s.length + 12 ∧
        r.FragmentFlag = fragFlag ∧ r.PayloadType = 1 ∧ r.UserField = userValue ∧
        r.Payload = s := by
    intro sp hsp
    obtain ⟨r, hr, h1, h2, h3, h4, h5, -, h7⟩ :=
      sp_parse_wire_view sp.protocolVersion (s.length + 12) fragFlag 1 userValue s
        ⟨0, 0, 0, 0, 0, [], 0⟩ (by omega) (by omega) (by omega) (by omega) rfl (by omega) hs
    refine ⟨_, _, buildPacket_ok sp s 1 fragFlag userValue hsp hf (by omega) hu hN,
      parsePacket_of_sp_parse_ok sp _ _ r hr, h1, h2, h3, h4, h5, h7⟩
  refine ⟨?_, ?_, ?_⟩
  · unfold StreamProtocol.SetProtocolVersion
    rw [if_neg (by omega)]
  · have hsv : (self.SetProtocolVersion v).2.protocolVersion = v := by
      unfold StreamProtocol.SetProtocolVersion
      rw [if_neg (by omega)]
    have := key (self.SetProtocolVersion v).2 (by omega)
    rw [hsv] at this
    exact this
  · exact key {} (by decide)

/-- Witness of C2 at version 7, payload "AB", fragment flag 1, user value 1023. -/
theorem C2_roundtrip_version_witness :
    (7 ≤ 15 ∧ IsBytes [0x41, 0x42] ∧ [0x41, 0x42].length + 12 ≤ 2 ^ 45 - 1) ∧
    (({} : StreamProtocol).SetProtocolVersion 7).1 = .ok () ∧
    (∃ p r, (({} : StreamProtocol).SetProtocolVersion 7).2.toBytes [0x41, 0x42] 1 1023 = .ok p ∧
      (({} : StreamProtocol).SetProtocolVersion 7).2.parsePacket p = .ok r ∧
      r.ProtocolVersion = 7 ∧ r.PacketLength = [0x41, 0x42].length + 12 ∧ r.FragmentFlag = 1 ∧
      r.PayloadType = 1 ∧ r.UserField = 1023 ∧ r.Payload = [0x41, 0x42]) ∧
    (∃ p r, ({} : StreamProtocol).toBytes [0x41, 0x42] 1 1023 = .ok p ∧
      ({} : StreamProtocol).parsePacket p = .ok r ∧
      r.ProtocolVersion = 1 ∧ r.PacketLength = [0x41, 0x42].length + 12 ∧ r.FragmentFlag = 1 ∧
      r.PayloadType = 1 ∧ r.UserField = 1023 ∧ r.Payload = [0x41, 0x42]) :=
  ⟨⟨by decide, by decide, by decide⟩,
    C2_roundtrip_version {} 7 [0x41, 0x42] 1 1023 (by decide) (by decide) (by decide)
      (by decide) (by decide)⟩

/-- C3. Wire layout of encode: whenever `sp_encode_packet` returns `SP_OK` (on a payload whose
framed length fits the 64-bit `size_t`), the output packet is exactly
`LE8(h) ++ payload ++ LE4(crc32(LE8(h) ++ payload))` with
`h = 1 | (total_length << 4) | (frag_flag << 49) | (payload_type << 50) | (user_field << 54)`
and `total_length = 8 + len(payload) + 4`. -/
theorem C3_wire_layout (payload : List Nat) (frag_flag payload_type user_field : Nat)
    (out_packet : Option (List Nat)) (out_length : Option Nat) (A : Allocator)
    (hN : 8 + payload.length + 4 < 2 ^ 64)
    (hok : (sp_encode_packet (some payload) payload.length frag_flag payload_type user_field
      out_packet out_length A).1 = SP_OK) :
    (sp_encode_packet (some payload) payload.length frag_flag payload_type user_field
      out_packet out_length A).2.1
      = some (le_bytes 8 (header_word 1 (8 + payload.length + 4) frag_flag payload_type user_field)
          ++ payload
          ++ le_bytes 4 (sp_crc32_inline
              (le_bytes 8 (header_word 1 (8 + payload.length + 4) frag_flag payload_type
                user_field) ++ payload)
              (le_bytes 8 (header_word 1 (8 + payload.length + 4) frag_flag payload_type
                user_field) ++ payload).length)) := by
  have e : 8 + payload.length + 4 = payload.length + 12 := by omega
  rw [e] at hN ⊢
  unfold sp_encode_packet at hok ⊢
  rw [(sp_encode_internal_ok_of_code payload frag_flag payload_type user_field 0 out_packet
    out_length A hN hok).1]
  rfl

/-- Witness of C3 at the payload "AB". -/
theorem C3_wire_layout_witness :
    (8 + [0x41, 0x42].length + 4 < 2 ^ 64 ∧
      (sp_encode_packet (some [0x41, 0x42]) 2 0 1 42 (some []) (some 0) fillAllocator).1
        = SP_OK) ∧
    (sp_encode_packet (some [0x41, 0x42]) 2 0 1 42 (some []) (some 0) fillAllocator).2.1
      = some (le_bytes 8 (header_word 1 14 0 1 42) ++ [0x41, 0x42]
          ++ le_bytes 4 (sp_crc32_inline (le_bytes 8 (header_word 1 14 0 1 42) ++ [0x41, 0x42])
              10)) :=
  ⟨⟨by decide, by decide⟩,
    C3_wire_layout [0x41, 0x42] 0 1 42 (some []) (some 0) fillAllocator (by decide) (by decide)⟩

/-- C4. Length invariant: whenever `sp_encode_packet` or `sp_encode_packet_limited` returns
`SP_OK` (on a payload whose framed length fits the 64-bit `size_t`), the reported out_length
and the length of the produced packet both equal `8 + len(payload) + 4`, and so does the
45-bit total_length field (bits 4..48 of the little-endian header word) stored in the packet. -/
theorem C4_length_invariant (payload : List Nat)
    (frag_flag payload_type user_field max_packet_size : Nat)
    (out_packet : Option (List Nat)) (out_length : Option Nat) (A : Allocator)
    (res : sp_result_t × Option (List Nat) × Option Nat)
    (hN : 8 + payload.length + 4 < 2 ^ 64)
    (hres : res = sp_encode_packet (some payload) payload.length frag_flag payload_type
        user_field out_packet out_length A ∨
      res = sp_encode_packet_limited (some payload) payload.length frag_flag payload_type
        user_field max_packet_size out_packet out_length A)
    (hok : res.1 = SP_OK) :
    ∃ p, res.2.1 = some p ∧ res.2.2 = some (8 + payload.length + 4) ∧
      p.length = 8 + payload.length + 4 ∧
      le_value (p.take 8) / 2 ^ 4 % 2 ^ 45 = 8 + payload.length + 4 := by
  have e : 8 + payload.length + 4 = payload.length + 12 := by omega
  rw [e] at hN ⊢
  have key : ∀ m, res = sp_encode_internal_inline (some payload) payload.length frag_flag
      payload_type user_field m out_packet out_length A →
      ∃ p, res.2.1 = some p ∧ res.2.2 = some (payload.length + 12) ∧
        p.length = payload.length + 12 ∧
        le_value (p.take 8) / 2 ^ 4 % 2 ^ 45 = payload.length + 12 := by
    intro m hm
    rw [hm] at hok
    obtain ⟨h1, h2⟩ := sp_encode_internal_ok_of_code payload frag_flag payload_type user_field m
      out_packet out_length A hN hok
    obtain ⟨hf, ht, -⟩ :=
      sp_encode_internal_inv payload frag_flag payload_type user_field m out_packet out_length A
        hN hok
    rw [hm, h1]
    exact ⟨_, rfl, rfl, wire_length _ _,
      wire_length_field 1 _ _ _ _ payload (by omega) (by omega) (by omega) (by omega)⟩
  rcases hres with h | h
  · exact key 0 h
  · exact key (max_packet_size % 2 ^ 64) h

/-- Witness of C4 on the payload "AB": `sp_encode_packet`, and `sp_encode_packet_limited`
with ceiling 20. -/
theorem C4_length_invariant_witness :
    ((sp_encode_packet (some [0x41, 0x42]) 2 0 1 42 (some []) (some 0) fillAllocator).1 = SP_OK ∧
      ∃ p, (sp_encode_packet (some [0x41, 0x42]) 2 0 1 42 (some []) (some 0)
          fillAllocator).2.1 = some p ∧
        (sp_encode_packet (some [0x41, 0x42]) 2 0 1 42 (some []) (some 0)
          fillAllocator).2.2 = some 14 ∧
        p.length = 14 ∧ le_value (p.take 8) / 2 ^ 4 % 2 ^ 45 = 14) ∧
    ((sp_encode_packet_limited (some [0x41, 0x42]) 2 0 1 42 20 (some []) (some 0)
        fillAllocator).1 = SP_OK ∧
      ∃ p, (sp_encode_packet_limited (some [0x41, 0x42]) 2 0 1 42 20 (some []) (some 0)
          fillAllocator).2.1 = some p ∧
        (sp_encode_packet_limited (some [0x41, 0x42]) 2 0 1 42 20 (some []) (some 0)
          fillAllocator).2.2 = some 14 ∧
        p.length = 14 ∧ le_value (p.take 8) / 2 ^ 4 % 2 ^ 45 = 14) :=
  ⟨⟨by decide,
    C4_length_invariant [0x41, 0x42] 0 1 42 0 (some []) (some 0) fillAllocator _
      (by decide) (Or.inl rfl) (by decide)⟩,
   ⟨by decide,
    C4_length_invariant [0x41, 0x42] 0 1 42 20 (some []) (some 0) fillAllocator _
      (by decide) (Or.inr rfl) (by decide)⟩⟩

/-- C5. Concrete example: with any allocator that serves the 14-byte request, encoding the
payload "AB" (bytes 0x41 0x42) with fragment_flag 0, payload_type 1, user_field 42 (protocol
version 1) yields a 14-byte packet whose first 8 bytes are the little-endian encoding of the
word `1 | (14<<4) | (0<<49) | (1<<50) | (42<<54)`, that is E1 00 00 00 00 00 84 0A, and
decoding that packet succeeds with protocol_version 1, total_length 14, fragment_flag 0,
payload_type 1, user_field 42 and payload "AB". -/
theorem C5_concrete_example (out_packet0 : List Nat) (out_length0 : Nat)
    (parsed0 : sp_parsed_packet_t) (A : Allocator) (hm : A.malloc 14 ≠ none) :
    ∃ p r,
      sp_encode_packet (some [0x41, 0x42]) 2 0 1 42 (some out_packet0) (some out_length0) A
        = (SP_OK, some p, some 14) ∧
      p.length = 14 ∧
      p.take 8 = le_bytes 8 (1 ||| (14 <<< 4) ||| (0 <<< 49) ||| (1 <<< 50) ||| (42 <<< 54)) ∧
      p.take 8 = [0xE1, 0x00, 0x00, 0x00, 0x00, 0x00, 0x84, 0x0A] ∧
      sp_parse_packet (some p) 14 (some parsed0) = (SP_OK, some r) ∧
      r.protocol_version = 1 ∧ r.packet_length = 14 ∧ r.fragment_flag = 0 ∧
      r.payload_type = 1 ∧ r.user_field = 42 ∧ payload_view r = [0x41, 0x42] := by
  have henc := sp_encode_internal_ok [0x41, 0x42] 0 1 42 0 out_packet0 out_length0 A
    (by decide) (by decide) (by decide) (by decide) hm
  obtain ⟨r, hr, h1, h2, h3, h4, h5, -, h7⟩ :=
    sp_parse_wire_view 1 14 0 1 42 [0x41, 0x42] parsed0 (by decide) (by decide) (by decide)
      (by decide) rfl (by decide) (by decide)
  rw [wire_length] at hr
  refine ⟨_, r, henc, wire_length _ _, ?_, ?_, hr, h1, h2, h3, h4, h5, h7⟩
  · rw [wire_eq, List.append_assoc, List.take_left' (le_bytes_length 8 _)]
    rfl
  · rw [wire_eq, List.append_assoc, List.take_left' (le_bytes_length 8 _)]
    decide

/-- Witness of C5 with the allocator that always succeeds. -/
theorem C5_concrete_example_witness :
    fillAllocator.malloc 14 ≠ none ∧
    ∃ p r,
      sp_encode_packet (some [0x41, 0x42]) 2 0 1 42 (some []) (some 0) fillAllocator
        = (SP_OK, some p, some 14) ∧
      p.length = 14 ∧
      p.take 8 = le_bytes 8 (1 ||| (14 <<< 4) ||| (0 <<< 49) ||| (1 <<< 50) ||| (42 <<< 54)) ∧
      p.take 8 = [0xE1, 0x00, 0x00, 0x00, 0x00, 0x00, 0x84, 0x0A] ∧
      sp_parse_packet (some p) 14 (some ⟨0, 0, 0, 0, 0, [], 0⟩) = (SP_OK, some r) ∧
      r.protocol_version = 1 ∧ r.packet_length = 14 ∧ r.fragment_flag = 0 ∧
      r.payload_type = 1 ∧ r.user_field = 42 ∧ payload_view r = [0x41, 0x42] :=
  ⟨by decide, C5_concrete_example [] 0 ⟨0, 0, 0, 0, 0, [], 0⟩ fillAllocator (by decide)⟩

set_option maxRecDepth 4000 in
/-- C6. CRC32 is the reference CRC-32 (IEEE 802.3): on every byte sequence the bit-by-bit
routines `sp_crc32_inline` and `computeCRC32` return the value of the standard byte-wise
table-driven CRC-32 (`crc32_table_driven`: table entry `i` is `i` after 8 reflected shift
steps, update `table[(crc ^ b) & 0xFF] ^ (crc >> 8)`, same initial value and final
complement); they return 0x00000000 on the empty input and 0xCBF43926 on the ASCII bytes
"123456789". -/
theorem C6_crc32_reference (data : List Nat) (hd : IsBytes data) :
    (sp_crc32_inline data data.length = crc32_table_driven data ∧
      computeCRC32 data data.length = crc32_table_driven data) ∧
    (sp_crc32_inline [] 0 = 0x00000000 ∧ computeCRC32 [] 0 = 0x00000000) ∧
    (sp_crc32_inline [0x31, 0x32, 0x33, 0x34, 0x35, 0x36, 0x37, 0x38, 0x39] 9 = 0xCBF43926 ∧
      computeCRC32 [0x31, 0x32, 0x33, 0x34, 0x35, 0x36, 0x37, 0x38, 0x39] 9 = 0xCBF43926) := by
  refine ⟨⟨sp_crc32_inline_eq_table data hd, ?_⟩, ⟨by decide, by decide⟩, ⟨by decide, by decide⟩⟩
  rw [computeCRC32_eq]
  exact sp_crc32_inline_eq_table data hd

set_option maxRecDepth 4000 in
/-- Witness of C6 at the ASCII bytes "123456789". -/
theorem C6_crc32_reference_witness :
    IsBytes [0x31, 0x32, 0x33, 0x34, 0x35, 0x36, 0x37, 0x38, 0x39] ∧
    ((sp_crc32_inline [0x31, 0x32, 0x33, 0x34, 0x35, 0x36, 0x37, 0x38, 0x39] 9
        = crc32_table_driven [0x31, 0x32, 0x33, 0x34, 0x35, 0x36, 0x37, 0x38, 0x39] ∧
      computeCRC32 [0x31, 0x32, 0x33, 0x34, 0x35, 0x36, 0x37, 0x38, 0x39] 9
        = crc32_table_driven [0x31, 0x32, 0x33, 0x34, 0x35, 0x36, 0x37, 0x38, 0x39]) ∧
    (sp_crc32_inline [] 0 = 0x00000000 ∧ computeCRC32 [] 0 = 0x00000000) ∧
    (sp_crc32_inline [0x31, 0x32, 0x33, 0x34, 0x35, 0x36, 0x37, 0x38, 0x39] 9 = 0xCBF43926 ∧
      computeCRC32 [0x31, 0x32, 0x33, 0x34, 0x35, 0x36, 0x37, 0x38, 0x39] 9 = 0xCBF43926)) :=
  ⟨by decide,
    C6_crc32_reference [0x31, 0x32, 0x33, 0x34, 0x35, 0x36, 0x37, 0x38, 0x39] (by decide)⟩

/-- C7. Decode result is fully determined by the ordered checks: for every non-null byte
buffer `b` of length `L` with declared header length `D` (bits 4..48 of the little-endian
64-bit word in the first 8 bytes), `sp_parse_packet` returns `SP_ERR_BUFFER_TOO_SMALL` iff
`L < 12` or (`L >= 12` and `D < 12`); `SP_ERR_LENGTH_MISMATCH` iff `L >= 12`, `D >= 12` and
`L != D`; `SP_ERR_CRC_MISMATCH` iff `L = D >= 12` and the CRC-32 of the first `L-4` bytes
differs from the little-endian value of the last 4 bytes; and `SP_OK` iff `L = D >= 12` and
the two agree.  In particular a buffer that is too short reports the size error whatever
its CRC. -/
theorem C7_decode_checks_ordered (b : List Nat) (parsed0 : sp_parsed_packet_t)
    (hb : IsBytes b) :
    ((sp_parse_packet (some b) b.length (some parsed0)).1 = SP_ERR_BUFFER_TOO_SMALL ↔
      b.length < 12 ∨ (b.length ≥ 12 ∧ declared_length b < 12)) ∧
    ((sp_parse_packet (some b) b.length (some parsed0)).1 = SP_ERR_LENGTH_MISMATCH ↔
      b.length ≥ 12 ∧ declared_length b ≥ 12 ∧ b.length ≠ declared_length b) ∧
    ((sp_parse_packet (some b) b.length (some parsed0)).1 = SP_ERR_CRC_MISMATCH ↔
      b.length = declared_length b ∧ declared_length b ≥ 12 ∧
        sp_crc32_inline b (b.length - 4) ≠ le_value (b.drop (b.length - 4))) ∧
    ((sp_parse_packet (some b) b.length (some parsed0)).1 = SP_OK ↔
      b.length = declared_length b ∧ declared_length b ≥ 12 ∧
        sp_crc32_inline b (b.length - 4) = le_value (b.drop (b.length - 4))) := by
  rw [sp_parse_packet_spec]
  by_cases h1 : b.length < 12
  · rw [if_pos h1]
    refine ⟨?_, ?_, ?_, ?_⟩
    · simp [h1]
    · simp; omega
    · simp; omega
    · simp; omega
  · rw [if_neg h1, declared_length_eq b hb (by omega), sp_read_crc_eq_le_value b hb (by omega)]
    unfold declared_length
    generalize le_value (b.take 8) / 2 ^ 4 % 2 ^ 45 = D
    by_cases h2 : D < 12
    · rw [if_pos h2]
      refine ⟨?_, ?_, ?_, ?_⟩
      · simp; omega
      · simp; omega
      · simp; omega
      · simp; omega
    · rw [if_neg h2]
      by_cases h3 : b.length ≠ D
      · rw [if_pos h3]
        refine ⟨?_, ?_, ?_, ?_⟩
        · simp; omega
        · simp; omega
        · simp; omega
        · simp; omega
      · rw [if_neg h3]
        have h3' : b.length = D := by omega
        by_cases h4 : sp_crc32_inline b (b.length - 4) ≠ le_value (b.drop (b.length - 4))
        · rw [if_pos h4]
          refine ⟨?_, ?_, ?_, ?_⟩
          · simp; omega
          · simp; omega
          · simp only [true_iff]; exact ⟨h3', by omega, h4⟩
          · constructor
            · intro h; cases h
            · intro h; exact absurd h.2.2 h4
        · rw [if_neg h4]
          refine ⟨?_, ?_, ?_, ?_⟩
          · simp; omega
          · simp; omega
          · constructor
            · intro h; cases h
            · intro h; exact absurd h.2.2 h4
          · simp only [true_iff]; exact ⟨h3', by omega, by simpa using h4⟩

set_option maxRecDepth 4000 in
/-- Witness of C7: an 11-byte buffer, a packet with one byte appended, a packet with a
damaged CRC byte, and an intact packet. -/
theorem C7_decode_checks_ordered_witness :
    (IsBytes [193, 0, 0, 0, 0, 0, 4, 0, 196, 93, 66] ∧
      (sp_parse_packet (some [193, 0, 0, 0, 0, 0, 4, 0, 196, 93, 66]) 11
        (some ⟨0, 0, 0, 0, 0, [], 0⟩)).1 = SP_ERR_BUFFER_TOO_SMALL) ∧
    (IsBytes [193, 0, 0, 0, 0, 0, 4, 0, 196, 93, 66, 183, 0] ∧
      (sp_parse_packet (some [193, 0, 0, 0, 0, 0, 4, 0, 196, 93, 66, 183, 0]) 13
        (some ⟨0, 0, 0, 0, 0, [], 0⟩)).1 = SP_ERR_LENGTH_MISMATCH) ∧
    (IsBytes [193, 0, 0, 0, 0, 0, 4, 0, 196, 93, 66, 184] ∧
      (sp_parse_packet (some [193, 0, 0, 0, 0, 0, 4, 0, 196, 93, 66, 184]) 12
        (some ⟨0, 0, 0, 0, 0, [], 0⟩)).1 = SP_ERR_CRC_MISMATCH) ∧
    (IsBytes [193, 0, 0, 0, 0, 0, 4, 0, 196, 93, 66, 183] ∧
      (sp_parse_packet (some [193, 0, 0, 0, 0, 0, 4, 0, 196, 93, 66, 183]) 12
        (some ⟨0, 0, 0, 0, 0, [], 0⟩)).1 = SP_OK) :=
  ⟨⟨by decide,
    (C7_decode_checks_ordered [193, 0, 0, 0, 0, 0, 4, 0, 196, 93, 66] ⟨0, 0, 0, 0, 0, [], 0⟩
      (by decide)).1.mpr (by decide)⟩,
   ⟨by decide,
    (C7_decode_checks_ordered [193, 0, 0, 0, 0, 0, 4, 0, 196, 93, 66, 183, 0]
      ⟨0, 0, 0, 0, 0, [], 0⟩ (by decide)).2.1.mpr (by decide)⟩,
   ⟨by decide,
    (C7_decode_checks_ordered [193, 0, 0, 0, 0, 0, 4, 0, 196, 93, 66, 184]
      ⟨0, 0, 0, 0, 0, [], 0⟩ (by decide)).2.2.1.mpr (by decide)⟩,
   ⟨by decide,
    (C7_decode_checks_ordered [193, 0, 0, 0, 0, 0, 4, 0, 196, 93, 66, 183]
      ⟨0, 0, 0, 0, 0, [], 0⟩ (by decide)).2.2.2.mpr (by decide)⟩⟩

/-- C8. Minimum-buffer boundary: decoding any byte buffer of length below 12 (11 in
particular), whatever its contents, fails with `SP_ERR_BUFFER_TOO_SMALL`; and for every
12-byte buffer whose header declares total_length 12 (any version, fragment flag, payload
type and user field) and whose last 4 bytes are the little-endian CRC-32 of its first 8
bytes, decoding succeeds with an empty payload (payload_length 0). -/
theorem C8_minimum_buffer (b : List Nat) (parsed0 : sp_parsed_packet_t) (hb : IsBytes b) :
    (b.length < 12 →
      sp_parse_packet (some b) b.length (some parsed0)
        = (SP_ERR_BUFFER_TOO_SMALL, some parsed0)) ∧
    (b.length = 12 → declared_length b = 12 →
      b.drop 8 = le_bytes 4 (sp_crc32_inline (b.take 8) 8) →
      ∃ r, sp_parse_packet (some b) b.length (some parsed0) = (SP_OK, some r) ∧
        r.payload_length = 0 ∧ payload_view r = []) := by
  constructor
  · intro h
    rw [sp_parse_packet_spec, if_pos h]
  · intro hl hD hcrc
    have hD' := declared_length_eq b hb (by omega)
    rw [← declared_length, hD] at hD'
    have hc := sp_read_crc_eq_le_value b hb (by omega)
    have hlt : sp_crc32_inline (b.take 8) 8 < 2 ^ 32 := sp_crc32_inline_lt _ _ (IsBytes_take _ _ hb)
    have htake : sp_crc32_inline b (b.length - 4) = sp_crc32_inline (b.take 8) 8 := by
      rw [hl]
      unfold sp_crc32_inline
      rw [List.take_take]
      rfl
    rw [hl] at hc
    rw [show 12 - 4 = 8 from rfl, hcrc, le_value_le_bytes] at hc
    rw [sp_parse_packet_spec, hD', if_neg (by omega), if_neg (by omega), if_neg (by omega),
      htake, hl, show 12 - 4 = 8 from rfl, hc, if_neg (by
        rw [Nat.mod_eq_of_lt (by norm_num; norm_num at hlt; exact hlt)]
        exact fun h => h rfl)]
    exact ⟨_, rfl, rfl, rfl⟩

set_option maxRecDepth 4000 in
/-- Witness of C8: an 11-byte buffer, and the 12-byte packet with version 1, fragment flag
1, payload type 15, user field 1023 and an empty payload. -/
theorem C8_minimum_buffer_witness :
    (IsBytes [193, 0, 0, 0, 0, 0, 4, 0, 1, 2, 3] ∧
      sp_parse_packet (some [193, 0, 0, 0, 0, 0, 4, 0, 1, 2, 3]) 11
        (some ⟨0, 0, 0, 0, 0, [], 0⟩) = (SP_ERR_BUFFER_TOO_SMALL, some ⟨0, 0, 0, 0, 0, [], 0⟩)) ∧
    (IsBytes [193, 0, 0, 0, 0, 0, 254, 255, 126, 187, 19, 116] ∧
      ∃ r, sp_parse_packet (some [193, 0, 0, 0, 0, 0, 254, 255, 126, 187, 19, 116]) 12
          (some ⟨0, 0, 0, 0, 0, [], 0⟩) = (SP_OK, some r) ∧
        r.payload_length = 0 ∧ payload_view r = []) :=
  ⟨⟨by decide,
    (C8_minimum_buffer [193, 0, 0, 0, 0, 0, 4, 0, 1, 2, 3] ⟨0, 0, 0, 0, 0, [], 0⟩
      (by decide)).1 (by decide)⟩,
   ⟨by decide,
    (C8_minimum_buffer [193, 0, 0, 0, 0, 0, 254, 255, 126, 187, 19, 116] ⟨0, 0, 0, 0, 0, [], 0⟩
      (by decide)).2 (by decide) (by decide) (by decide)⟩⟩

/-- C9. Range rejection on encode: for every non-null payload and every value of the other
arguments (payload length, output pointers and allocator included), `sp_encode_packet` returns
`SP_ERR_INVALID_ARGUMENT` as soon as frag_flag is neither 0 nor 1, or payload_type exceeds 15,
or user_field exceeds 1023; the size of the payload plays no role. -/
theorem C9_range_rejection (payload : List Nat)
    (payload_length frag_flag payload_type user_field : Nat)
    (out_packet : Option (List Nat)) (out_length : Option Nat) (A : Allocator)
    (h : (frag_flag ≠ 0 ∧ frag_flag ≠ 1) ∨ payload_type > 15 ∨ user_field > 1023) :
    (sp_encode_packet (some payload) payload_length frag_flag payload_type user_field
      out_packet out_length A).1 = SP_ERR_INVALID_ARGUMENT := by
  unfold sp_encode_packet sp_encode_internal_inline
  cases out_packet with
  | none => rfl
  | some op =>
    cases out_length with
    | none => rfl
    | some ol =>
      simp only [SP_FRAGED, SP_UNFRAGED]
      by_cases h1 : frag_flag ≠ 1 ∧ frag_flag ≠ 0
      · rw [if_pos h1]
      · rw [if_neg h1]
        by_cases h2 : payload_type > 15
        · rw [if_pos h2]
        · have h3 : user_field > 1023 := by omega
          rw [if_neg h2, if_pos h3]

/-- Witness of C9: fragment flag 2, payload type 16, user field 1024 and a declared payload
length of 2^45 at once. -/
theorem C9_range_rejection_witness :
    (sp_encode_packet (some [0x41, 0x42]) (2 ^ 45) 2 16 1024 (some []) (some 0)
      fillAllocator).1 = SP_ERR_INVALID_ARGUMENT :=
  C9_range_rejection [0x41, 0x42] (2 ^ 45) 2 16 1024 (some []) (some 0) fillAllocator
    (Or.inl (by decide))

/-- C10. Size ceiling: for every nonzero max_packet_size `m` below 2^45-1, every valid
frag_flag, payload_type and user_field, and every payload whose framed length fits the 64-bit
`size_t`, `sp_encode_packet_limited` returns `SP_ERR_PAYLOAD_TOO_LARGE` when
`8 + len(payload) + 4 > m`, and `SP_OK` when `8 + len(payload) + 4 <= m` and the allocation
succeeds. -/
theorem C10_size_ceiling (payload : List Nat) (frag_flag payload_type user_field m : Nat)
    (out_packet0 : List Nat) (out_length0 : Nat) (A : Allocator)
    (hm0 : m ≠ 0) (hm : m < 2 ^ 45 - 1)
    (hf : frag_flag = 0 ∨ frag_flag = 1) (ht : payload_type ≤ 15) (hu : user_field ≤ 1023)
    (hN : 8 + payload.length + 4 < 2 ^ 64) :
    (8 + payload.length + 4 > m →
      (sp_encode_packet_limited (some payload) payload.length frag_flag payload_type user_field
        m (some out_packet0) (some out_length0) A).1 = SP_ERR_PAYLOAD_TOO_LARGE) ∧
    (8 + payload.length + 4 ≤ m → A.malloc (8 + payload.length + 4) ≠ none →
      (sp_encode_packet_limited (some payload) payload.length frag_flag payload_type user_field
        m (some out_packet0) (some out_length0) A).1 = SP_OK) := by
  have e : 8 + payload.length + 4 = payload.length + 12 := by omega
  rw [e] at hN ⊢
  have hmax := effective_max_of_lt m (by omega) hm
  unfold sp_encode_packet_limited
  constructor
  · intro hgt
    rw [sp_encode_internal_spec payload frag_flag payload_type user_field _ out_packet0
      out_length0 A hN, hmax]
    rw [if_neg (by omega), if_neg (by omega), if_neg (by omega), if_pos hgt]
  · intro hle hA
    rw [sp_encode_internal_ok payload frag_flag payload_type user_field _ out_packet0
      out_length0 A hf ht hu (by rw [hmax]; exact hle) hA]

/-- Witness of C10 with ceiling 20: a 9-byte payload (total 21) is rejected, an 8-byte
payload (total exactly 20) is encoded. -/
theorem C10_size_ceiling_witness :
    (sp_encode_packet_limited (some [1, 2, 3, 4, 5, 6, 7, 8, 9]) 9 0 1 0 20 (some []) (some 0)
      fillAllocator).1 = SP_ERR_PAYLOAD_TOO_LARGE ∧
    (sp_encode_packet_limited (some [1, 2, 3, 4, 5, 6, 7, 8]) 8 0 1 0 20 (some []) (some 0)
      fillAllocator).1 = SP_OK :=
  ⟨(C10_size_ceiling [1, 2, 3, 4, 5, 6, 7, 8, 9] 0 1 0 20 [] 0 fillAllocator (by decide)
      (by decide) (by decide) (by decide) (by decide) (by decide)).1 (by decide),
    (C10_size_ceiling [1, 2, 3, 4, 5, 6, 7, 8] 0 1 0 20 [] 0 fillAllocator (by decide)
      (by decide) (by decide) (by decide) (by decide) (by decide)).2 (by decide) (by decide)⟩

/-- C11 fails as stated: the payload "AB" needs 14 bytes and bufferSize 11 is nonzero and
smaller, yet the buffer-size overload of `toBytes` throws `BufferTooSmallException`, not
`PayloadTooLargeException`: the 12-byte floor on bufferSize is tested first. -/
theorem C11_counterexample :
    ((11 : Nat) ≠ 0 ∧ 8 + [0x41, 0x42].length + 4 > 11) ∧
    ({} : StreamProtocol).toBytes_bufferSize [0x41, 0x42] 0 0 11
      = .error (.BufferTooSmallException 11) ∧
    ¬ ∃ given max, ({} : StreamProtocol).toBytes_bufferSize [0x41, 0x42] 0 0 11
      = .error (.PayloadTooLargeException given max) := by
  refine ⟨by decide, by decide, ?_⟩
  rintro ⟨g, m, h⟩
  have h2 : ({} : StreamProtocol).toBytes_bufferSize [0x41, 0x42] 0 0 11
      = .error (.BufferTooSmallException 11) := by decide
  rw [h2] at h
  cases h

/-- C11, amended. Reject policy of the C++ buffer-size overload: for every string payload
(whose framed length fits the 64-bit `size_t`), every fragFlag and userValue, and every
bufferSize with `8 + len(payload) + 4 > bufferSize`, `toBytes(payload, fragFlag, userValue,
bufferSize)` fails with `PayloadTooLargeException` when bufferSize is at least 12, and with
`BufferTooSmallException` when bufferSize is below 12; it never returns a truncated packet. -/
theorem C11_toBytes_bufferSize_reject (self : StreamProtocol) (payload : List Nat)
    (fragFlag userValue bufferSize : Nat)
    (hN : 8 + payload.length + 4 < 2 ^ 64) (hgt : 8 + payload.length + 4 > bufferSize) :
    (12 ≤ bufferSize →
      self.toBytes_bufferSize payload fragFlag userValue bufferSize
        = .error (.PayloadTooLargeException (8 + payload.length + 4) bufferSize)) ∧
    (bufferSize < 12 →
      self.toBytes_bufferSize payload fragFlag userValue bufferSize
        = .error (.BufferTooSmallException bufferSize)) := by
  have e0 : (8 + payload.length % 2 ^ 64 + 4) % 2 ^ 64 = 8 + payload.length + 4 := by
    omega
  unfold StreamProtocol.toBytes_bufferSize
  simp only [HEADER_SIZE, e0]
  constructor
  · intro h
    rw [if_neg (by omega), if_pos hgt]
  · intro h
    rw [if_pos (by omega)]

/-- Witness of C11 (amended): bufferSize 13 for the payload "AB", which needs 14 bytes. -/
theorem C11_toBytes_bufferSize_reject_witness :
    (8 + [0x41, 0x42].length + 4 < 2 ^ 64 ∧ 8 + [0x41, 0x42].length + 4 > 13) ∧
    ({} : StreamProtocol).toBytes_bufferSize [0x41, 0x42] 0 0 13
      = .error (.PayloadTooLargeException 14 13) :=
  ⟨⟨by decide, by decide⟩,
    (C11_toBytes_bufferSize_reject {} [0x41, 0x42] 0 0 13 (by decide) (by decide)).1
      (by decide)⟩

/-- C12. Tamper detection, payload bits: for every packet `p` produced by a successful encode
(either entry point of the C encoder, byte payload whose framed length fits the 64-bit
`size_t`) and every bit position `j` inside the payload bytes `p[8 .. len(p)-4)` (such a
position exists only when the payload is non-empty), decoding `p` with that one bit flipped,
header and CRC bytes unchanged, fails with `SP_ERR_CRC_MISMATCH`. -/
theorem C12_tamper_payload_bit (payload : List Nat)
    (frag_flag payload_type user_field max_packet_size : Nat)
    (out_packet : Option (List Nat)) (out_length : Option Nat) (A : Allocator)
    (p : List Nat) (n : Option Nat) (parsed0 : sp_parsed_packet_t) (j : Nat)
    (hp : IsBytes payload) (hN : 8 + payload.length + 4 < 2 ^ 64)
    (henc : sp_encode_packet (some payload) payload.length frag_flag payload_type user_field
        out_packet out_length A = (SP_OK, some p, n) ∨
      sp_encode_packet_limited (some payload) payload.length frag_flag payload_type user_field
        max_packet_size out_packet out_length A = (SP_OK, some p, n))
    (hj : 8 * 8 ≤ j ∧ j < 8 * (p.length - 4)) :
    (sp_parse_packet (some (flip_bit p j)) (flip_bit p j).length (some parsed0)).1
      = SP_ERR_CRC_MISMATCH := by
  have hprod : ∃ m, sp_encode_internal_inline (some payload) payload.length frag_flag
      payload_type user_field m out_packet out_length A = (SP_OK, some p, n) := by
    rcases henc with h | h
    · exact ⟨0, h⟩
    · exact ⟨max_packet_size % 2 ^ 64, h⟩
  obtain ⟨m, hm⟩ := hprod
  obtain ⟨hb, -, hok⟩ := sp_encode_produced_ok payload frag_flag payload_type user_field m
    out_packet out_length A p n parsed0 hp hN hm
  obtain ⟨hv, hne⟩ := flip_value (p.getD (j / 8) 0) (j % 8) (getD_lt_of_isBytes p _ hb)
    (Nat.mod_lt _ (by norm_num))
  exact tamper_payload_byte p parsed0 (j / 8) _ hb hok (by omega) (by omega) hv
    (fun h => hne h.symm)

set_option maxRecDepth 8000 in
/-- Witness of C12: bit 6 of the first payload byte of the packet of "AB" (0x41 becomes 0x01). -/
theorem C12_tamper_payload_bit_witness :
    (IsBytes [0x41, 0x42] ∧ 8 + [0x41, 0x42].length + 4 < 2 ^ 64 ∧
      sp_encode_packet (some [0x41, 0x42]) 2 0 1 42 (some []) (some 0) fillAllocator
        = (SP_OK, some [225, 0, 0, 0, 0, 0, 132, 10, 65, 66, 123, 244, 182, 37], some 14) ∧
      (8 * 8 ≤ 70 ∧ 70 < 8 * (14 - 4))) ∧
    (sp_parse_packet (some [225, 0, 0, 0, 0, 0, 132, 10, 1, 66, 123, 244, 182, 37]) 14
      (some ⟨0, 0, 0, 0, 0, [], 0⟩)).1 = SP_ERR_CRC_MISMATCH :=
  ⟨⟨by decide, by decide, by decide, by decide⟩,
    C12_tamper_payload_bit [0x41, 0x42] 0 1 42 0 (some []) (some 0) fillAllocator
      [225, 0, 0, 0, 0, 0, 132, 10, 65, 66, 123, 244, 182, 37] (some 14)
      ⟨0, 0, 0, 0, 0, [], 0⟩ 70 (by decide) (by decide) (Or.inl (by decide)) (by decide)⟩

set_option maxRecDepth 8000 in
/-- C13 fails as stated: flipping header bit 4, the lowest bit of the total_length field, in
the packet of "AB" (byte 0 goes from 0xE1 to 0xF1, declared length from 14 to 15) makes decode
fail with `SP_ERR_LENGTH_MISMATCH`, not with `SP_ERR_CRC_MISMATCH`: the length is compared
before the CRC. -/
theorem C13_counterexample :
    sp_encode_packet (some [0x41, 0x42]) 2 0 1 42 (some []) (some 0) fillAllocator
      = (SP_OK, some [225, 0, 0, 0, 0, 0, 132, 10, 65, 66, 123, 244, 182, 37], some 14) ∧
    flip_bit [225, 0, 0, 0, 0, 0, 132, 10, 65, 66, 123, 244, 182, 37] 4
      = [241, 0, 0, 0, 0, 0, 132, 10, 65, 66, 123, 244, 182, 37] ∧
    (sp_parse_packet (some [241, 0, 0, 0, 0, 0, 132, 10, 65, 66, 123, 244, 182, 37]) 14
      (some ⟨0, 0, 0, 0, 0, [], 0⟩)).1 = SP_ERR_LENGTH_MISMATCH ∧
    (sp_parse_packet (some [241, 0, 0, 0, 0, 0, 132, 10, 65, 66, 123, 244, 182, 37]) 14
      (some ⟨0, 0, 0, 0, 0, [], 0⟩)).1 ≠ SP_ERR_CRC_MISMATCH := by
  decide

/-- C13, amended. Tamper detection, header bits: for every packet `p` produced by a
successful encode and every bit position `j` among the 64 header bits, decoding `p` with that
one bit flipped (payload and CRC unchanged) fails with CrcMismatch when the bit lies outside
the 45 total_length bits (bits 0..3 and 49..63), and with LengthMismatch or BufferTooSmall
when it lies inside them (bits 4..48); the C and the C++ decoder agree. -/
theorem C13_tamper_header_bit (payload : List Nat)
    (frag_flag payload_type user_field max_packet_size : Nat)
    (out_packet : Option (List Nat)) (out_length : Option Nat) (A : Allocator)
    (p : List Nat) (n : Option Nat) (parsed0 : sp_parsed_packet_t) (self : StreamProtocol)
    (j : Nat)
    (hp : IsBytes payload) (hN : 8 + payload.length + 4 < 2 ^ 64)
    (henc : sp_encode_packet (some payload) payload.length frag_flag payload_type user_field
        out_packet out_length A = (SP_OK, some p, n) ∨
      sp_encode_packet_limited (some payload) payload.length frag_flag payload_type user_field
        max_packet_size out_packet out_length A = (SP_OK, some p, n))
    (hj : j < 64) :
    ((j < 4 ∨ 49 ≤ j) →
      (sp_parse_packet (some (flip_bit p j)) (flip_bit p j).length (some parsed0)).1
        = SP_ERR_CRC_MISMATCH ∧
      outcome_code (self.parsePacket (flip_bit p j)) = SP_ERR_CRC_MISMATCH) ∧
    ((4 ≤ j ∧ j < 49) →
      ((sp_parse_packet (some (flip_bit p j)) (flip_bit p j).length (some parsed0)).1
          = SP_ERR_LENGTH_MISMATCH ∨
        (sp_parse_packet (some (flip_bit p j)) (flip_bit p j).length (some parsed0)).1
          = SP_ERR_BUFFER_TOO_SMALL) ∧
      (outcome_code (self.parsePacket (flip_bit p j)) = SP_ERR_LENGTH_MISMATCH ∨
        outcome_code (self.parsePacket (flip_bit p j)) = SP_ERR_BUFFER_TOO_SMALL)) := by
  obtain ⟨m, hm⟩ := sp_encode_either payload frag_flag payload_type user_field max_packet_size
    out_packet out_length A _ henc
  obtain ⟨hb, -, hok⟩ := sp_encode_produced_ok payload frag_flag payload_type user_field m
    out_packet out_length A p n parsed0 hp hN hm
  obtain ⟨h1, h2⟩ := tamper_header_bit p parsed0 j hb hok hj
  rw [outcome_code_parsePacket self (flip_bit p j) parsed0]
  exact ⟨fun h => ⟨h1 h, h1 h⟩, fun h => ⟨h2 h, h2 h⟩⟩

set_option maxRecDepth 8000 in
/-- Witness of C13 (amended) on the packet of "AB": bit 57 (a user_field bit) gives a CRC
mismatch, bit 4 (a total_length bit) a length mismatch. -/
theorem C13_tamper_header_bit_witness :
    (IsBytes [0x41, 0x42] ∧ 8 + [0x41, 0x42].length + 4 < 2 ^ 64 ∧
      sp_encode_packet (some [0x41, 0x42]) 2 0 1 42 (some []) (some 0) fillAllocator
        = (SP_OK, some [225, 0, 0, 0, 0, 0, 132, 10, 65, 66, 123, 244, 182, 37], some 14)) ∧
    ((sp_parse_packet (some [225, 0, 0, 0, 0, 0, 132, 8, 65, 66, 123, 244, 182, 37]) 14
        (some ⟨0, 0, 0, 0, 0, [], 0⟩)).1 = SP_ERR_CRC_MISMATCH ∧
      outcome_code (({} : StreamProtocol).parsePacket
        [225, 0, 0, 0, 0, 0, 132, 8, 65, 66, 123, 244, 182, 37]) = SP_ERR_CRC_MISMATCH) ∧
    (((sp_parse_packet (some [241, 0, 0, 0, 0, 0, 132, 10, 65, 66, 123, 244, 182, 37]) 14
          (some ⟨0, 0, 0, 0, 0, [], 0⟩)).1 = SP_ERR_LENGTH_MISMATCH ∨
        (sp_parse_packet (some [241, 0, 0, 0, 0, 0, 132, 10, 65, 66, 123, 244, 182, 37]) 14
          (some ⟨0, 0, 0, 0, 0, [], 0⟩)).1 = SP_ERR_BUFFER_TOO_SMALL) ∧
      (outcome_code (({} : StreamProtocol).parsePacket
          [241, 0, 0, 0, 0, 0, 132, 10, 65, 66, 123, 244, 182, 37]) = SP_ERR_LENGTH_MISMATCH ∨
        outcome_code (({} : StreamProtocol).parsePacket
          [241, 0, 0, 0, 0, 0, 132, 10, 65, 66, 123, 244, 182, 37])
          = SP_ERR_BUFFER_TOO_SMALL)) :=
  ⟨⟨by decide, by decide, by decide⟩,
    (C13_tamper_header_bit [0x41, 0x42] 0 1 42 0 (some []) (some 0) fillAllocator
      [225, 0, 0, 0, 0, 0, 132, 10, 65, 66, 123, 244, 182, 37] (some 14)
      ⟨0, 0, 0, 0, 0, [], 0⟩ {} 57 (by decide) (by decide) (Or.inl (by decide))
      (by decide)).1 (by decide),
    (C13_tamper_header_bit [0x41, 0x42] 0 1 42 0 (some []) (some 0) fillAllocator
      [225, 0, 0, 0, 0, 0, 132, 10, 65, 66, 123, 244, 182, 37] (some 14)
      ⟨0, 0, 0, 0, 0, [], 0⟩ {} 4 (by decide) (by decide) (Or.inl (by decide))
      (by decide)).2 (by decide)⟩

set_option maxRecDepth 8000 in
/-- C14 fails as stated: the 12-byte packet of the empty payload with its last byte removed
has 11 bytes, and decode fails with `SP_ERR_BUFFER_TOO_SMALL`, not with
`SP_ERR_LENGTH_MISMATCH`: the 12-byte floor is tested before the header is read. -/
theorem C14_counterexample :
    sp_encode_packet (some []) 0 0 1 0 (some []) (some 0) fillAllocator
      = (SP_OK, some [193, 0, 0, 0, 0, 0, 4, 0, 196, 93, 66, 183], some 12) ∧
    [193, 0, 0, 0, 0, 0, 4, 0, 196, 93, 66, 183].dropLast
      = [193, 0, 0, 0, 0, 0, 4, 0, 196, 93, 66] ∧
    (sp_parse_packet (some [193, 0, 0, 0, 0, 0, 4, 0, 196, 93, 66]) 11
      (some ⟨0, 0, 0, 0, 0, [], 0⟩)).1 = SP_ERR_BUFFER_TOO_SMALL ∧
    (sp_parse_packet (some [193, 0, 0, 0, 0, 0, 4, 0, 196, 93, 66]) 11
      (some ⟨0, 0, 0, 0, 0, [], 0⟩)).1 ≠ SP_ERR_LENGTH_MISMATCH := by
  decide

/-- C14, amended. Truncation by one byte: for every packet `p` produced by a successful
encode, decoding `p` with its last byte removed (header left unadjusted) fails with
`SP_ERR_LENGTH_MISMATCH` when the payload is non-empty, and with `SP_ERR_BUFFER_TOO_SMALL` for
the 12-byte packet of an empty payload. -/
theorem C14_truncation (payload : List Nat)
    (frag_flag payload_type user_field max_packet_size : Nat)
    (out_packet : Option (List Nat)) (out_length : Option Nat) (A : Allocator)
    (p : List Nat) (n : Option Nat) (parsed0 : sp_parsed_packet_t)
    (hp : IsBytes payload) (hN : 8 + payload.length + 4 < 2 ^ 64)
    (henc : sp_encode_packet (some payload) payload.length frag_flag payload_type user_field
        out_packet out_length A = (SP_OK, some p, n) ∨
      sp_encode_packet_limited (some payload) payload.length frag_flag payload_type user_field
        max_packet_size out_packet out_length A = (SP_OK, some p, n)) :
    (payload ≠ [] →
      (sp_parse_packet (some p.dropLast) p.dropLast.length (some parsed0)).1
        = SP_ERR_LENGTH_MISMATCH) ∧
    (payload = [] →
      (sp_parse_packet (some p.dropLast) p.dropLast.length (some parsed0)).1
        = SP_ERR_BUFFER_TOO_SMALL) := by
  obtain ⟨m, hm⟩ := sp_encode_either payload frag_flag payload_type user_field max_packet_size
    out_packet out_length A _ henc
  obtain ⟨-, hl, hok⟩ := sp_encode_produced_ok payload frag_flag payload_type user_field m
    out_packet out_length A p n parsed0 hp hN hm
  obtain ⟨h1, h2⟩ := truncate_accepted p parsed0 hok
  constructor
  · intro hne
    have : 0 < payload.length := List.length_pos.mpr hne
    exact h1 (by omega)
  · intro he
    subst he
    exact h2 (by simpa using hl)

set_option maxRecDepth 8000 in
/-- Witness of C14 (amended): the packet of "AB" and the packet of the empty payload, each with
its last byte removed. -/
theorem C14_truncation_witness :
    ((IsBytes [0x41, 0x42] ∧ 8 + [0x41, 0x42].length + 4 < 2 ^ 64 ∧
        sp_encode_packet (some [0x41, 0x42]) 2 0 1 42 (some []) (some 0) fillAllocator
          = (SP_OK, some [225, 0, 0, 0, 0, 0, 132, 10, 65, 66, 123, 244, 182, 37], some 14)) ∧
      (sp_parse_packet (some [225, 0, 0, 0, 0, 0, 132, 10, 65, 66, 123, 244, 182]) 13
        (some ⟨0, 0, 0, 0, 0, [], 0⟩)).1 = SP_ERR_LENGTH_MISMATCH) ∧
    ((IsBytes [] ∧ 8 + ([] : List Nat).length + 4 < 2 ^ 64 ∧
        sp_encode_packet (some []) 0 0 1 0 (some []) (some 0) fillAllocator
          = (SP_OK, some [193, 0, 0, 0, 0, 0, 4, 0, 196, 93, 66, 183], some 12)) ∧
      (sp_parse_packet (some [193, 0, 0, 0, 0, 0, 4, 0, 196, 93, 66]) 11
        (some ⟨0, 0, 0, 0, 0, [], 0⟩)).1 = SP_ERR_BUFFER_TOO_SMALL) :=
  ⟨⟨⟨by decide, by decide, by decide⟩,
    (C14_truncation [0x41, 0x42] 0 1 42 0 (some []) (some 0) fillAllocator
      [225, 0, 0, 0, 0, 0, 132, 10, 65, 66, 123, 244, 182, 37] (some 14)
      ⟨0, 0, 0, 0, 0, [], 0⟩ (by decide) (by decide) (Or.inl (by decide))).1 (by decide)⟩,
   ⟨⟨by decide, by decide, by decide⟩,
    (C14_truncation [] 0 1 0 0 (some []) (some 0) fillAllocator
      [193, 0, 0, 0, 0, 0, 4, 0, 196, 93, 66, 183] (some 12)
      ⟨0, 0, 0, 0, 0, [], 0⟩ (by decide) (by decide) (Or.inl (by decide))).2 rfl⟩⟩

/-- C15. Padding by one byte: for every packet `p` produced by a successful encode and every
byte `x`, decoding `p ++ [x]` (header left unadjusted) fails with `SP_ERR_LENGTH_MISMATCH` in
the C decoder and with `PacketSizeMismatch` in the C++ decoder. -/
theorem C15_padding (payload : List Nat)
    (frag_flag payload_type user_field max_packet_size : Nat)
    (out_packet : Option (List Nat)) (out_length : Option Nat) (A : Allocator)
    (p : List Nat) (n : Option Nat) (parsed0 : sp_parsed_packet_t) (self : StreamProtocol)
    (x : Nat)
    (hp : IsBytes payload) (hN : 8 + payload.length + 4 < 2 ^ 64)
    (henc : sp_encode_packet (some payload) payload.length frag_flag payload_type user_field
        out_packet out_length A = (SP_OK, some p, n) ∨
      sp_encode_packet_limited (some payload) payload.length frag_flag payload_type user_field
        max_packet_size out_packet out_length A = (SP_OK, some p, n)) :
    (sp_parse_packet (some (p ++ [x])) (p ++ [x]).length (some parsed0)).1
      = SP_ERR_LENGTH_MISMATCH ∧
    self.parsePacket (p ++ [x]) = .error (.PacketSizeMismatch (p.length + 1) p.length) := by
  obtain ⟨m, hm⟩ := sp_encode_either payload frag_flag payload_type user_field max_packet_size
    out_packet out_length A _ henc
  obtain ⟨-, -, hok⟩ := sp_encode_produced_ok payload frag_flag payload_type user_field m
    out_packet out_length A p n parsed0 hp hN hm
  refine ⟨pad_accepted p parsed0 x hok, ?_⟩
  obtain ⟨h1, h2, -⟩ := (sp_parse_packet_ok_iff p parsed0).mp hok
  have hh : sp_read_header (p ++ [x]) = sp_read_header p := by
    rw [← sp_read_header_take (p ++ [x]) 8 (by omega),
      List.take_append_of_le_length (by omega), sp_read_header_take p 8 (by omega)]
  rw [parsePacket_spec, hh, h2, List.length_append, List.length_singleton]
  rw [if_neg (by omega), if_neg (by omega), if_pos (by omega)]

set_option maxRecDepth 8000 in
/-- Witness of C15: the packet of "AB" with a zero byte appended. -/
theorem C15_padding_witness :
    (IsBytes [0x41, 0x42] ∧ 8 + [0x41, 0x42].length + 4 < 2 ^ 64 ∧
      sp_encode_packet (some [0x41, 0x42]) 2 0 1 42 (some []) (some 0) fillAllocator
        = (SP_OK, some [225, 0, 0, 0, 0, 0, 132, 10, 65, 66, 123, 244, 182, 37], some 14)) ∧
    (sp_parse_packet (some [225, 0, 0, 0, 0, 0, 132, 10, 65, 66, 123, 244, 182, 37, 0]) 15
      (some ⟨0, 0, 0, 0, 0, [], 0⟩)).1 = SP_ERR_LENGTH_MISMATCH ∧
    ({} : StreamProtocol).parsePacket
      [225, 0, 0, 0, 0, 0, 132, 10, 65, 66, 123, 244, 182, 37, 0]
      = .error (.PacketSizeMismatch 15 14) :=
  ⟨⟨by decide, by decide, by decide⟩,
    C15_padding [0x41, 0x42] 0 1 42 0 (some []) (some 0) fillAllocator
      [225, 0, 0, 0, 0, 0, 132, 10, 65, 66, 123, 244, 182, 37] (some 14)
      ⟨0, 0, 0, 0, 0, [], 0⟩ {} 0 (by decide) (by decide) (Or.inl (by decide))⟩

/-- C16. Header pack/unpack round trip: for every protocol_version at most 15, total_length
at most 2^45-1, fragment_flag 0 or 1, payload_type at most 15 and user_field at most 1023,
the encoder's store loop emits the 8 little-endian bytes of the word
`version | (length<<4) | (frag<<49) | (type<<50) | (user<<54)`, and reading those bytes back
with the decoder's loop, shifts and masks (`>>0 & 0xF`, `>>4 & 0x1FFFFFFFFFFF`, `>>49 & 1`,
`>>50 & 0xF`, `>>54 & 0x3FF`) returns exactly the same five field values. -/
theorem C16_header_roundtrip (protocol_version total_length fragment_flag payload_type
    user_field : Nat) (buf rest : List Nat)
    (hv : protocol_version ≤ 15) (hT : total_length ≤ 2 ^ 45 - 1)
    (hf : fragment_flag = 0 ∨ fragment_flag = 1) (ht : payload_type ≤ 15)
    (hu : user_field ≤ 1023) (hbuf : 8 ≤ buf.length) :
    sp_write_header buf
        (header_word protocol_version total_length fragment_flag payload_type user_field)
      = le_bytes 8
          (header_word protocol_version total_length fragment_flag payload_type user_field)
        ++ buf.drop 8 ∧
    (sp_read_header (le_bytes 8
        (header_word protocol_version total_length fragment_flag payload_type user_field)
        ++ rest) >>> 0) &&& 0x0F = protocol_version ∧
    (sp_read_header (le_bytes 8
        (header_word protocol_version total_length fragment_flag payload_type user_field)
        ++ rest) >>> 4) &&& 0x1FFFFFFFFFFF = total_length ∧
    (sp_read_header (le_bytes 8
        (header_word protocol_version total_length fragment_flag payload_type user_field)
        ++ rest) >>> 49) &&& 0x01 = fragment_flag ∧
    (sp_read_header (le_bytes 8
        (header_word protocol_version total_length fragment_flag payload_type user_field)
        ++ rest) >>> 50) &&& 0x0F = payload_type ∧
    (sp_read_header (le_bytes 8
        (header_word protocol_version total_length fragment_flag payload_type user_field)
        ++ rest) >>> 54) &&& 0x3FF = user_field := by
  refine ⟨sp_write_header_eq buf _ hbuf, ?_⟩
  obtain ⟨hH, f1, f2, f3, f4, f5⟩ := header_fields protocol_version total_length fragment_flag
    payload_type user_field _ (by omega) (by omega) (by omega) (by omega) (by omega)
    (header_word_eq protocol_version total_length fragment_flag payload_type user_field
      (by omega) (by omega) (by omega) (by omega))
  rw [sp_read_header_le_bytes, Nat.mod_eq_of_lt hH]
  exact ⟨f1, f2, f3, f4, f5⟩

/-- Witness of C16 at version 1, length 14, fragment flag 0, payload type 1, user field 42. -/
theorem C16_header_roundtrip_witness :
    sp_write_header [0, 0, 0, 0, 0, 0, 0, 0, 0] (header_word 1 14 0 1 42)
      = le_bytes 8 (header_word 1 14 0 1 42) ++ [0] ∧
    (sp_read_header (le_bytes 8 (header_word 1 14 0 1 42) ++ [65, 66]) >>> 0) &&& 0x0F = 1 ∧
    (sp_read_header (le_bytes 8 (header_word 1 14 0 1 42) ++ [65, 66]) >>> 4)
      &&& 0x1FFFFFFFFFFF = 14 ∧
    (sp_read_header (le_bytes 8 (header_word 1 14 0 1 42) ++ [65, 66]) >>> 49) &&& 0x01 = 0 ∧
    (sp_read_header (le_bytes 8 (header_word 1 14 0 1 42) ++ [65, 66]) >>> 50) &&& 0x0F = 1 ∧
    (sp_read_header (le_bytes 8 (header_word 1 14 0 1 42) ++ [65, 66]) >>> 54) &&& 0x3FF = 42 :=
  C16_header_roundtrip 1 14 0 1 42 [0, 0, 0, 0, 0, 0, 0, 0, 0] [65, 66] (by decide) (by decide)
    (by decide) (by decide) (by decide) (by decide)

/-- C17. Decode success postcondition: whenever `sp_parse_packet(b, L)` returns `SP_OK`, the
result structure is filled and satisfies packet_length = L = 8 + payload_length + 4,
protocol_version at most 15, fragment_flag 0 or 1, payload_type at most 15, user_field at
most 1023, and its payload view is exactly the bytes `b[8 .. L-4)`; the C++ `parsePacket`
then succeeds with a result that satisfies the same. -/
theorem C17_decode_postcondition (b : List Nat) (parsed0 : sp_parsed_packet_t)
    (self : StreamProtocol)
    (hok : (sp_parse_packet (some b) b.length (some parsed0)).1 = SP_OK) :
    (∃ r, (sp_parse_packet (some b) b.length (some parsed0)).2 = some r ∧
      r.packet_length = b.length ∧ b.length = 8 + r.payload_length + 4 ∧
      r.protocol_version ≤ 15 ∧ (r.fragment_flag = 0 ∨ r.fragment_flag = 1) ∧
      r.payload_type ≤ 15 ∧ r.user_field ≤ 1023 ∧
      payload_view r = (b.take (b.length - 4)).drop 8) ∧
    (∃ r, self.parsePacket b = .ok r ∧
      r.PacketLength = b.length ∧ b.length = 8 + r.Payload.length + 4 ∧
      r.ProtocolVersion ≤ 15 ∧ (r.FragmentFlag = 0 ∨ r.FragmentFlag = 1) ∧
      r.PayloadType ≤ 15 ∧ r.UserField ≤ 1023 ∧
      r.Payload = (b.take (b.length - 4)).drop 8) := by
  obtain ⟨h1, h2, h3⟩ := (sp_parse_packet_ok_iff b parsed0).mp hok
  have b1 : ((sp_read_header b >>> 0) &&& 0x0F) % 256 ≤ 15 := by rw [and_15]; omega
  have b2 : ((sp_read_header b >>> 49) &&& 0x01) % 256 = 0 ∨
      ((sp_read_header b >>> 49) &&& 0x01) % 256 = 1 := by rw [and_1]; omega
  have b3 : ((sp_read_header b >>> 50) &&& 0x0F) % 256 ≤ 15 := by rw [and_15]; omega
  have b4 : ((sp_read_header b >>> 54) &&& 0x3FF) % 65536 ≤ 1023 := by rw [and_1023]; omega
  have hc : ¬ sp_crc32_inline b (b.length - 4) ≠ sp_read_crc b (b.length - 4) := by simp [h3]
  have hview : (b.drop 8).take (b.length - 8 - 4) = (b.take (b.length - 4)).drop 8 := by
    rw [List.drop_take]
    have e : b.length - 4 - 8 = b.length - 8 - 4 := by omega
    rw [e]
  constructor
  · rw [sp_parse_packet_spec, h2, if_neg (by omega), if_neg (by omega), if_neg (by simp),
      if_neg hc]
    exact ⟨_, rfl, rfl, by simp only []; omega, b1, b2, b3, b4, hview⟩
  · rw [parsePacket_spec, h2, if_neg (by omega), if_neg (by omega), if_neg (by simp),
      if_neg hc]
    refine ⟨_, rfl, rfl, ?_, b1, b2, b3, b4, rfl⟩
    simp only [ParsedPacket.Payload, List.length_drop, List.length_take]
    omega

set_option maxRecDepth 8000 in
/-- Witness of C17 at the packet of the payload "AB". -/
theorem C17_decode_postcondition_witness :
    (sp_parse_packet (some [225, 0, 0, 0, 0, 0, 132, 10, 65, 66, 123, 244, 182, 37]) 14
      (some ⟨0, 0, 0, 0, 0, [], 0⟩)).1 = SP_OK ∧
    (∃ r, (sp_parse_packet (some [225, 0, 0, 0, 0, 0, 132, 10, 65, 66, 123, 244, 182, 37]) 14
        (some ⟨0, 0, 0, 0, 0, [], 0⟩)).2 = some r ∧
      r.packet_length = 14 ∧ 14 = 8 + r.payload_length + 4 ∧
      r.protocol_version ≤ 15 ∧ (r.fragment_flag = 0 ∨ r.fragment_flag = 1) ∧
      r.payload_type ≤ 15 ∧ r.user_field ≤ 1023 ∧
      payload_view r = [65, 66]) ∧
    (∃ r, ({} : StreamProtocol).parsePacket
        [225, 0, 0, 0, 0, 0, 132, 10, 65, 66, 123, 244, 182, 37] = .ok r ∧
      r.PacketLength = 14 ∧ 14 = 8 + r.Payload.length + 4 ∧
      r.ProtocolVersion ≤ 15 ∧ (r.FragmentFlag = 0 ∨ r.FragmentFlag = 1) ∧
      r.PayloadType ≤ 15 ∧ r.UserField ≤ 1023 ∧
      r.Payload = [65, 66]) :=
  ⟨by decide,
    C17_decode_postcondition [225, 0, 0, 0, 0, 0, 132, 10, 65, 66, 123, 244, 182, 37]
      ⟨0, 0, 0, 0, 0, [], 0⟩ {} (by decide)⟩

/-- C18. `SetProtocolVersion` validates and is atomic: for every version above 15 it fails
with an invalid-argument error and leaves the object as it was, so that every subsequent
`toBytes` call returns what it returned before; for every version up to 15 it succeeds,
stores the value, and every packet a subsequent `toBytes` call (either overload of the class)
returns carries exactly that value in header bits 0..3. -/
theorem C18_SetProtocolVersion (self : StreamProtocol) (version : Nat) :
    (version > 15 →
      self.SetProtocolVersion version = (.error .invalid_argument, self) ∧
      (∀ s fragFlag userValue,
        (self.SetProtocolVersion version).2.toBytes s fragFlag userValue
          = self.toBytes s fragFlag userValue)) ∧
    (version ≤ 15 →
      (self.SetProtocolVersion version).1 = .ok () ∧
      (self.SetProtocolVersion version).2.protocolVersion = version ∧
      (∀ s fragFlag userValue p,
        (self.SetProtocolVersion version).2.toBytes s fragFlag userValue = .ok p →
          (sp_read_header p >>> 0) &&& 0x0F = version) ∧
      (∀ s fragFlag userValue bufferSize p,
        (self.SetProtocolVersion version).2.toBytes_bufferSize s fragFlag userValue bufferSize
            = .ok p →
          (sp_read_header p >>> 0) &&& 0x0F = version)) := by
  constructor
  · intro h
    have e : self.SetProtocolVersion version = (.error .invalid_argument, self) := by
      unfold StreamProtocol.SetProtocolVersion
      rw [if_pos h]
    refine ⟨e, ?_⟩
    intro s f u
    rw [e]
  · intro h
    have e : self.SetProtocolVersion version = (.ok (), { self with protocolVersion := version }) := by
      unfold StreamProtocol.SetProtocolVersion
      rw [if_neg (by omega)]
    rw [e]
    refine ⟨rfl, rfl, ?_, ?_⟩
    · intro s f u p hp
      have := buildPacket_version _ _ _ _ _ _ p hp
      rw [this]
      exact Nat.mod_eq_of_lt (by simp only []; omega)
    · intro s f u bs p hp
      unfold StreamProtocol.toBytes_bufferSize at hp
      simp only at hp
      split_ifs at hp
      have := buildPacket_version _ _ _ _ _ _ p hp
      rw [this]
      exact Nat.mod_eq_of_lt (by simp only []; omega)

set_option maxRecDepth 8000 in
/-- Witness of C18: version 16 is refused and changes nothing, version 7 is stored and
travels in the header of the next packet. -/
theorem C18_SetProtocolVersion_witness :
    (({} : StreamProtocol).SetProtocolVersion 16 = (.error .invalid_argument, {}) ∧
      (∀ s fragFlag userValue,
        (({} : StreamProtocol).SetProtocolVersion 16).2.toBytes s fragFlag userValue
          = ({} : StreamProtocol).toBytes s fragFlag userValue)) ∧
    ((({} : StreamProtocol).SetProtocolVersion 7).2.toBytes [0x41, 0x42] 0 42
        = .ok [231, 0, 0, 0, 0, 0, 132, 10, 65, 66, 60, 132, 168, 40] ∧
      (sp_read_header [231, 0, 0, 0, 0, 0, 132, 10, 65, 66, 60, 132, 168, 40] >>> 0)
        &&& 0x0F = 7) :=
  ⟨(C18_SetProtocolVersion {} 16).1 (by decide),
    by decide,
    ((C18_SetProtocolVersion {} 7).2 (by decide)).2.2.1 [0x41, 0x42] 0 42
      [231, 0, 0, 0, 0, 0, 132, 10, 65, 66, 60, 132, 168, 40] (by decide)⟩

/-- C19. No partial results on failure (C API): whenever `sp_encode_packet` or
`sp_encode_packet_limited` returns a code other than `SP_OK`, `*out_packet` and `*out_length`
keep the values they had before the call; whenever `sp_parse_packet` returns a code other
than `SP_OK`, `*out_packet` keeps the value it had before the call.  This holds for every
argument, null pointers and a failing allocator included. -/
theorem C19_no_partial_results (payload : Option (List Nat))
    (payload_length frag_flag payload_type user_field max_packet_size : Nat)
    (out_packet : Option (List Nat)) (out_length : Option Nat) (A : Allocator)
    (packet : Option (List Nat)) (packet_len : Nat) (parsed : Option sp_parsed_packet_t) :
    ((sp_encode_packet payload payload_length frag_flag payload_type user_field
        out_packet out_length A).1 ≠ SP_OK →
      (sp_encode_packet payload payload_length frag_flag payload_type user_field
        out_packet out_length A).2 = (out_packet, out_length)) ∧
    ((sp_encode_packet_limited payload payload_length frag_flag payload_type user_field
        max_packet_size out_packet out_length A).1 ≠ SP_OK →
      (sp_encode_packet_limited payload payload_length frag_flag payload_type user_field
        max_packet_size out_packet out_length A).2 = (out_packet, out_length)) ∧
    ((sp_parse_packet packet packet_len parsed).1 ≠ SP_OK →
      (sp_parse_packet packet packet_len parsed).2 = parsed) := by
  refine ⟨sp_encode_internal_frame _ _ _ _ _ _ _ _ _, sp_encode_internal_frame _ _ _ _ _ _ _ _ _,
    ?_⟩
  intro h
  unfold sp_parse_packet at h ⊢
  cases packet with
  | none => rfl
  | some pk =>
    cases parsed with
    | none => rfl
    | some q =>
      simp only at h ⊢
      split_ifs at h ⊢
      all_goals first
        | rfl
        | exact absurd rfl h

set_option maxRecDepth 8000 in
/-- Witness of C19: a refused encode (fragment flag 2), a refused limited encode (ceiling
12) and a refused decode (11 bytes) hand back the old contents of their outputs. -/
theorem C19_no_partial_results_witness :
    (sp_encode_packet (some [0x41, 0x42]) 2 2 1 42 (some [1, 2, 3]) (some 7) fillAllocator).2
      = (some [1, 2, 3], some 7) ∧
    (sp_encode_packet_limited (some [0x41, 0x42]) 2 0 1 42 12 (some [1, 2, 3]) (some 7)
      fillAllocator).2 = (some [1, 2, 3], some 7) ∧
    (sp_parse_packet (some [193, 0, 0, 0, 0, 0, 4, 0, 196, 93, 66]) 11
      (some ⟨9, 9, 9, 9, 9, [9], 9⟩)).2 = some ⟨9, 9, 9, 9, 9, [9], 9⟩ :=
  ⟨(C19_no_partial_results (some [0x41, 0x42]) 2 2 1 42 12 (some [1, 2, 3]) (some 7)
      fillAllocator (some [193, 0, 0, 0, 0, 0, 4, 0, 196, 93, 66]) 11
      (some ⟨9, 9, 9, 9, 9, [9], 9⟩)).1 (by decide),
    (C19_no_partial_results (some [0x41, 0x42]) 2 0 1 42 12 (some [1, 2, 3]) (some 7)
      fillAllocator (some [193, 0, 0, 0, 0, 0, 4, 0, 196, 93, 66]) 11
      (some ⟨9, 9, 9, 9, 9, [9], 9⟩)).2.1 (by decide),
    (C19_no_partial_results (some [0x41, 0x42]) 2 2 1 42 12 (some [1, 2, 3]) (some 7)
      fillAllocator (some [193, 0, 0, 0, 0, 0, 4, 0, 196, 93, 66]) 11
      (some ⟨9, 9, 9, 9, 9, [9], 9⟩)).2.2 (by decide)⟩

set_option maxRecDepth 8000 in
/-- C20 fails as stated for byte payloads: the `std::vector<uint8_t>` overload of `toBytes`
in the single-header variants tags the packet with payload type 0, so for the payload "AB"
its packet differs (header byte 6 and the CRC) from the packet of
`sp_encode_packet(s, len(s), fragFlag, 1, userValue)`. -/
theorem C20_counterexample :
    ({} : StreamProtocol).toBytes_vector false [0x41, 0x42] 0 42
      = .ok [225, 0, 0, 0, 0, 0, 128, 10, 65, 66, 44, 99, 212, 170] ∧
    sp_encode_packet (some [0x41, 0x42]) 2 0 1 42 (some []) (some 0) fillAllocator
      = (SP_OK, some [225, 0, 0, 0, 0, 0, 132, 10, 65, 66, 123, 244, 182, 37], some 14) ∧
    [225, 0, 0, 0, 0, 0, 128, 10, 65, 66, 44, 99, 212, 170]
      ≠ [225, 0, 0, 0, 0, 0, 132, 10, 65, 66, 123, 244, 182, 37] := by
  decide

/-- C20, amended. The C and C++ restatements are the same codec: for every payload `s` with
len(s)+12 at most 2^45-1, every fragFlag 0 or 1 and every userValue at most 1023, with the
default protocol version, the string overload `toBytes(s, fragFlag, userValue)` returns byte
for byte the packet of the C `sp_encode_packet(s, len(s), fragFlag, 1, userValue)`; the
byte-vector overload of the single-header variants returns, for every non-empty payload and
for an empty vector whose `data()` is not null, the packet of
`sp_encode_packet(s, len(s), fragFlag, 0, userValue)`, and fails with `std::invalid_argument`
for an empty vector whose `data()` is null, where the C encoder returns a 12-byte packet
(the C allocation succeeding); and for every buffer `b`, `parsePacket(b)` succeeds iff
`sp_parse_packet(b)` returns `SP_OK`, with equal field values and payload. -/
theorem C20_same_codec (s : List Nat) (fragFlag userValue : Nat)
    (out_packet0 : List Nat) (out_length0 : Nat) (A : Allocator) (null_when_empty : Bool)
    (b : List Nat) (parsed0 : sp_parsed_packet_t) (self : StreamProtocol)
    (hN : s.length + 12 ≤ 2 ^ 45 - 1) (hf : fragFlag = 0 ∨ fragFlag = 1)
    (hu : userValue ≤ 1023) (hm : A.malloc (s.length + 12) ≠ none) :
    (∃ p, ({} : StreamProtocol).toBytes s fragFlag userValue = .ok p ∧
      sp_encode_packet (some s) s.length fragFlag 1 userValue (some out_packet0)
        (some out_length0) A = (SP_OK, some p, some p.length)) ∧
    (s ≠ [] ∨ null_when_empty = false →
      ∃ p, ({} : StreamProtocol).toBytes_vector null_when_empty s fragFlag userValue = .ok p ∧
        sp_encode_packet (some s) s.length fragFlag 0 userValue (some out_packet0)
          (some out_length0) A = (SP_OK, some p, some p.length)) ∧
    (s = [] ∧ null_when_empty = true →
      ({} : StreamProtocol).toBytes_vector null_when_empty s fragFlag userValue
          = .error .invalid_argument ∧
        ∃ p, sp_encode_packet (some s) s.length fragFlag 0 userValue (some out_packet0)
          (some out_length0) A = (SP_OK, some p, some 12) ∧ p.length = 12) ∧
    ((∃ r, self.parsePacket b = .ok r) ↔
      (sp_parse_packet (some b) b.length (some parsed0)).1 = SP_OK) ∧
    (∀ r, (sp_parse_packet (some b) b.length (some parsed0)) = (SP_OK, some r) →
      ∃ r', self.parsePacket b = .ok r' ∧
        r'.ProtocolVersion = r.protocol_version ∧ r'.PacketLength = r.packet_length ∧
        r'.FragmentFlag = r.fragment_flag ∧ r'.PayloadType = r.payload_type ∧
        r'.UserField = r.user_field ∧ r'.Payload = payload_view r) := by
  have hmax : s.length + 12 ≤ effective_max 0 := by
    simp only [effective_max, SP_MAX_HEADER_LENGTH_VALUE]
    rw [if_neg (by omega)]
    omega
  have hdef : ({} : StreamProtocol).protocolVersion = 1 := rfl
  refine ⟨?_, ?_, ?_, ?_, ?_⟩
  · refine ⟨_, buildPacket_ok {} s 1 fragFlag userValue (by decide) hf (by omega) hu hN, ?_⟩
    rw [hdef, wire_length]
    exact sp_encode_internal_ok s fragFlag 1 userValue 0 out_packet0 out_length0 A hf
      (by omega) hu hmax hm
  · intro hs
    have hd : vector_data null_when_empty s = some s := by
      unfold vector_data
      rcases hs with hs | hs
      · cases s with
        | nil => exact absurd rfl hs
        | cons x xs => rfl
      · rw [hs]
        simp
    refine ⟨wire (header_word 1 (s.length + 12) fragFlag 0 userValue) s, ?_, ?_⟩
    · unfold StreamProtocol.toBytes_vector
      rw [hd]
      exact buildPacket_ok {} s 0 fragFlag userValue (by decide) hf (by omega) hu hN
    · rw [wire_length]
      exact sp_encode_internal_ok s fragFlag 0 userValue 0 out_packet0 out_length0 A hf
        (by omega) hu hmax hm
  · rintro ⟨hs, hnull⟩
    subst hs
    subst hnull
    refine ⟨rfl, wire (header_word 1 (([] : List Nat).length + 12) fragFlag 0 userValue) [],
      ?_, wire_length _ _⟩
    exact sp_encode_internal_ok [] fragFlag 0 userValue 0 out_packet0 out_length0 A hf
      (by omega) hu hmax hm
  · rw [← outcome_code_parsePacket self b parsed0]
    constructor
    · rintro ⟨r, hr⟩
      rw [hr]
      rfl
    · intro h
      cases hp : self.parsePacket b with
      | ok r => exact ⟨r, rfl⟩
      | error e =>
        rw [hp] at h
        cases e <;> cases h
  · intro r hr
    exact ⟨_, parsePacket_of_sp_parse_ok self b parsed0 r hr, rfl, rfl, rfl, rfl, rfl, rfl⟩

set_option maxRecDepth 8000 in
/-- Witness of C20 at the payload "AB", fragment flag 0, user value 42, at the empty vector
whose `data()` is null, and at the packet of "AB" as the buffer to decode. -/
theorem C20_same_codec_witness :
    ([0x41, 0x42].length + 12 ≤ 2 ^ 45 - 1 ∧
      fillAllocator.malloc ([0x41, 0x42].length + 12) ≠ none) ∧
    (∃ p, ({} : StreamProtocol).toBytes [0x41, 0x42] 0 42 = .ok p ∧
      sp_encode_packet (some [0x41, 0x42]) 2 0 1 42 (some []) (some 0) fillAllocator
        = (SP_OK, some p, some p.length)) ∧
    (∃ p, ({} : StreamProtocol).toBytes_vector true [0x41, 0x42] 0 42 = .ok p ∧
      sp_encode_packet (some [0x41, 0x42]) 2 0 0 42 (some []) (some 0) fillAllocator
        = (SP_OK, some p, some p.length)) ∧
    (({} : StreamProtocol).toBytes_vector true [] 0 42 = .error .invalid_argument ∧
      ∃ p, sp_encode_packet (some []) 0 0 0 42 (some []) (some 0) fillAllocator
        = (SP_OK, some p, some 12) ∧ p.length = 12) ∧
    ((∃ r, ({} : StreamProtocol).parsePacket
        [225, 0, 0, 0, 0, 0, 132, 10, 65, 66, 123, 244, 182, 37] = .ok r) ↔
      (sp_parse_packet (some [225, 0, 0, 0, 0, 0, 132, 10, 65, 66, 123, 244, 182, 37]) 14
        (some ⟨0, 0, 0, 0, 0, [], 0⟩)).1 = SP_OK) :=
  ⟨⟨by decide, by decide⟩,
    (C20_same_codec [0x41, 0x42] 0 42 [] 0 fillAllocator true
      [225, 0, 0, 0, 0, 0, 132, 10, 65, 66, 123, 244, 182, 37] ⟨0, 0, 0, 0, 0, [], 0⟩ {}
      (by decide) (by decide) (by decide) (by decide)).1,
    (C20_same_codec [0x41, 0x42] 0 42 [] 0 fillAllocator true
      [225, 0, 0, 0, 0, 0, 132, 10, 65, 66, 123, 244, 182, 37] ⟨0, 0, 0, 0, 0, [], 0⟩ {}
      (by decide) (by decide) (by decide) (by decide)).2.1 (Or.inl (by decide)),
    (C20_same_codec [] 0 42 [] 0 fillAllocator true
      [225, 0, 0, 0, 0, 0, 132, 10, 65, 66, 123, 244, 182, 37] ⟨0, 0, 0, 0, 0, [], 0⟩ {}
      (by decide) (by decide) (by decide) (by decide)).2.2.1 ⟨rfl, rfl⟩,
    (C20_same_codec [0x41, 0x42] 0 42 [] 0 fillAllocator true
      [225, 0, 0, 0, 0, 0, 132, 10, 65, 66, 123, 244, 182, 37] ⟨0, 0, 0, 0, 0, [], 0⟩ {}
      (by decide) (by decide) (by decide) (by decide)).2.2.2.1⟩

/-- C21. Decode never answers PayloadTooLarge: for every packet pointer, every
`packet_len` and every out-pointer, `sp_parse_packet` returns a code other than
`SP_ERR_PAYLOAD_TOO_LARGE` (the declared length is masked to 45 bits before it is compared
with `SP_MAX_HEADER_LENGTH_VALUE = 2^45-1`), and `StreamProtocol::parsePacket` never throws
`PayloadTooLargeException`. -/
theorem C21_decode_never_too_large (self : StreamProtocol) (packet : Option (List Nat))
    (packet_len : Nat) (out_packet : Option sp_parsed_packet_t) (b : List Nat) (given max : Nat) :
    (sp_parse_packet packet packet_len out_packet).1 ≠ SP_ERR_PAYLOAD_TOO_LARGE ∧
      SP_MAX_HEADER_LENGTH_VALUE = 2 ^ 45 - 1 ∧
      (sp_read_header b >>> 4) &&& 0x1FFFFFFFFFFF ≤ SP_MAX_HEADER_LENGTH_VALUE ∧
      self.parsePacket b ≠ .error (.PayloadTooLargeException given max) := by
  have hb : ∀ H : Nat, ¬ ((H >>> 4) &&& 0x1FFFFFFFFFFF > SP_MAX_HEADER_LENGTH_VALUE) := by
    intro H
    rw [and_m45]
    simp only [SP_MAX_HEADER_LENGTH_VALUE]
    norm_num
    omega
  refine ⟨?_, by simp only [SP_MAX_HEADER_LENGTH_VALUE]; norm_num, ?_, ?_⟩
  · unfold sp_parse_packet
    cases packet with
    | none => simp
    | some p =>
      cases out_packet with
      | none => simp
      | some q =>
        simp only []
        by_cases h1 : packet_len < SP_HEADER_SIZE + 4
        · rw [if_pos h1]; simp
        · rw [if_neg h1]
          by_cases h2 : (sp_read_header p >>> 4) &&& 0x1FFFFFFFFFFF < SP_HEADER_SIZE + 4
          · rw [if_pos h2]; simp
          · rw [if_neg h2, if_neg (hb _)]
            split_ifs <;> simp
  · exact Nat.le_of_not_gt (hb _)
  · rw [parsePacket_spec]
    split_ifs <;> simp

/-- C22. Effective maximum on encode: with valid fields and a payload whose framed length
fits the 64-bit `size_t`, `sp_encode_packet` (ceiling 0) and `sp_encode_packet_limited`
with `max_packet_size = 0` or `max_packet_size >= 2^45-1` return `SP_ERR_PAYLOAD_TOO_LARGE`
when `8 + len(payload) + 4 > 2^45-1`, and, when the allocation succeeds, return `SP_OK`
exactly when `8 + len(payload) + 4 <= 2^45-1`; for every `max_packet_size` the limit that
decides is `2^45-1` when it is zero and `min(2^45-1, max_packet_size)` otherwise. -/
theorem C22_effective_maximum (payload : List Nat) (frag_flag payload_type user_field m : Nat)
    (out_packet0 : List Nat) (out_length0 : Nat) (A : Allocator)
    (hf : frag_flag = 0 ∨ frag_flag = 1) (ht : payload_type ≤ 15) (hu : user_field ≤ 1023)
    (hN : 8 + payload.length + 4 < 2 ^ 64) (hm : m < 2 ^ 64) :
    ((A.malloc (8 + payload.length + 4) ≠ none →
        ((sp_encode_packet (some payload) payload.length frag_flag payload_type user_field
          (some out_packet0) (some out_length0) A).1 = SP_OK ↔
            8 + payload.length + 4 ≤ 2 ^ 45 - 1)) ∧
      (¬ 8 + payload.length + 4 ≤ 2 ^ 45 - 1 →
        (sp_encode_packet (some payload) payload.length frag_flag payload_type user_field
          (some out_packet0) (some out_length0) A).1 = SP_ERR_PAYLOAD_TOO_LARGE)) ∧
    ((m = 0 ∨ 2 ^ 45 - 1 ≤ m) →
      (A.malloc (8 + payload.length + 4) ≠ none →
        ((sp_encode_packet_limited (some payload) payload.length frag_flag payload_type
          user_field m (some out_packet0) (some out_length0) A).1 = SP_OK ↔
            8 + payload.length + 4 ≤ 2 ^ 45 - 1)) ∧
      (¬ 8 + payload.length + 4 ≤ 2 ^ 45 - 1 →
        (sp_encode_packet_limited (some payload) payload.length frag_flag payload_type
          user_field m (some out_packet0) (some out_length0) A).1 = SP_ERR_PAYLOAD_TOO_LARGE)) ∧
    ((A.malloc (8 + payload.length + 4) ≠ none →
        ((sp_encode_packet_limited (some payload) payload.length frag_flag payload_type
          user_field m (some out_packet0) (some out_length0) A).1 = SP_OK ↔
            8 + payload.length + 4 ≤ (if m = 0 then 2 ^ 45 - 1 else min (2 ^ 45 - 1) m))) ∧
      (¬ 8 + payload.length + 4 ≤ (if m = 0 then 2 ^ 45 - 1 else min (2 ^ 45 - 1) m) →
        (sp_encode_packet_limited (some payload) payload.length frag_flag payload_type
          user_field m (some out_packet0) (some out_length0) A).1
            = SP_ERR_PAYLOAD_TOO_LARGE)) := by
  have e : 8 + payload.length + 4 = payload.length + 12 := by omega
  rw [e] at hN ⊢
  have hmm : m % 2 ^ 64 = m := Nat.mod_eq_of_lt hm
  have h0 := sp_encode_code_limit payload frag_flag payload_type user_field 0 out_packet0
    out_length0 A hf ht hu hN
  have hl := sp_encode_code_limit payload frag_flag payload_type user_field (m % 2 ^ 64)
    out_packet0 out_length0 A hf ht hu hN
  have hE : effective_max (m % 2 ^ 64) = if m = 0 then 2 ^ 45 - 1 else min (2 ^ 45 - 1) m := by
    rw [hmm]; exact effective_max_eq m
  rw [hE] at hl
  rw [effective_max_eq 0, if_pos rfl] at h0
  unfold sp_encode_packet sp_encode_packet_limited
  refine ⟨h0, ?_, hl⟩
  intro hcase
  have hL : (if m = 0 then 2 ^ 45 - 1 else min (2 ^ 45 - 1) m) = 2 ^ 45 - 1 := by
    rcases hcase with h | h
    · rw [if_pos h]
    · by_cases hz : m = 0
      · rw [if_pos hz]
      · rw [if_neg hz]; omega
  rw [hL] at hl
  exact hl

set_option maxRecDepth 8000 in
/-- Witness of C22: the payload "AB" (14 bytes framed) is encoded with ceiling 0, with
ceiling 2^45-1 and with ceiling 2^50. -/
theorem C22_effective_maximum_witness :
    (sp_encode_packet (some [0x41, 0x42]) 2 0 1 42 (some []) (some 0) fillAllocator).1 = SP_OK ∧
    (sp_encode_packet_limited (some [0x41, 0x42]) 2 0 1 42 (2 ^ 45 - 1) (some []) (some 0)
      fillAllocator).1 = SP_OK ∧
    (sp_encode_packet_limited (some [0x41, 0x42]) 2 0 1 42 (2 ^ 50) (some []) (some 0)
      fillAllocator).1 = SP_OK :=
  ⟨((C22_effective_maximum [0x41, 0x42] 0 1 42 0 [] 0 fillAllocator (by decide) (by decide)
      (by decide) (by decide) (by decide)).1.1 (by decide)).2 (by decide),
    (((C22_effective_maximum [0x41, 0x42] 0 1 42 (2 ^ 45 - 1) [] 0 fillAllocator (by decide)
      (by decide) (by decide) (by decide) (by decide)).2.1 (Or.inr (by decide))).1
        (by decide)).2 (by decide),
    (((C22_effective_maximum [0x41, 0x42] 0 1 42 (2 ^ 50) [] 0 fillAllocator (by decide)
      (by decide) (by decide) (by decide) (by decide)).2.1 (Or.inr (by decide))).1
        (by decide)).2 (by decide)⟩

/-- C24 fails as stated: with fragFlag 2 (out of range) and bufferSize 11 the buffer-size
overload of `toBytes` throws `BufferTooSmallException`, and with userValue 1024 (out of
range) and bufferSize 13 it throws `PayloadTooLargeException`: the tests on bufferSize come
before the field validation of `buildPacket`. -/
theorem C24_counterexample :
    ({} : StreamProtocol).toBytes_bufferSize [0x41, 0x42] 2 0 11
      = .error (.BufferTooSmallException 11) ∧
    ({} : StreamProtocol).toBytes_bufferSize [0x41, 0x42] 2 0 11 ≠ .error .invalid_argument ∧
    ({} : StreamProtocol).toBytes_bufferSize [0x41, 0x42] 0 1024 13
      = .error (.PayloadTooLargeException 14 13) ∧
    ({} : StreamProtocol).toBytes_bufferSize [0x41, 0x42] 0 1024 13
      ≠ .error .invalid_argument := by
  decide

/-- C24, amended. Field validation of the C++ encoder: with fragFlag outside 0..1,
`buildPacket` and the 3-argument `toBytes` fail with `std::invalid_argument` whatever the
payload, its length and the other fields; with userValue above 1023 they fail with
`std::invalid_argument` when `8 + len(payload) + 4 <= 2^45-1`. The 4-argument overload
tests bufferSize first, whatever the fields: below 12 it throws `BufferTooSmallException`,
and for `8 + len(payload) + 4 > bufferSize` it throws `PayloadTooLargeException`; once
`8 + len(payload) + 4 <= bufferSize` and the length is at most `2^45-1`, an out-of-range
fragFlag or userValue gives `std::invalid_argument`. -/
theorem C24_field_validation (self : StreamProtocol) (payload : List Nat)
    (fragFlag userValue bufferSize : Nat)
    (hbad : (fragFlag ≠ 0 ∧ fragFlag ≠ 1) ∨ userValue > 1023) :
    ((fragFlag ≠ 0 ∧ fragFlag ≠ 1) → ∀ (data : Option (List Nat)) (size payloadType : Nat),
      self.buildPacket data size payloadType fragFlag userValue = .error .invalid_argument) ∧
    (∀ (data : Option (List Nat)) (size payloadType : Nat), 8 + size + 4 ≤ 2 ^ 45 - 1 →
      self.buildPacket data size payloadType fragFlag userValue = .error .invalid_argument) ∧
    ((fragFlag ≠ 0 ∧ fragFlag ≠ 1) →
      self.toBytes payload fragFlag userValue = .error .invalid_argument) ∧
    (8 + payload.length + 4 ≤ 2 ^ 45 - 1 →
      self.toBytes payload fragFlag userValue = .error .invalid_argument) ∧
    (bufferSize < 12 →
      self.toBytes_bufferSize payload fragFlag userValue bufferSize
        = .error (.BufferTooSmallException bufferSize)) ∧
    (12 ≤ bufferSize → bufferSize < 8 + payload.length + 4 → 8 + payload.length + 4 < 2 ^ 64 →
      self.toBytes_bufferSize payload fragFlag userValue bufferSize
        = .error (.PayloadTooLargeException (8 + payload.length + 4) bufferSize)) ∧
    (8 + payload.length + 4 ≤ bufferSize → 8 + payload.length + 4 ≤ 2 ^ 45 - 1 →
      self.toBytes_bufferSize payload fragFlag userValue bufferSize
        = .error .invalid_argument) := by
  have hfrag : (fragFlag ≠ 0 ∧ fragFlag ≠ 1) → ∀ (data : Option (List Nat))
      (size payloadType : Nat),
      self.buildPacket data size payloadType fragFlag userValue = .error .invalid_argument := by
    intro hf data size payloadType
    unfold StreamProtocol.buildPacket
    cases data with
    | none => rfl
    | some d =>
      simp only []
      rw [if_pos (by simp only [FRAGED, UNFRAGED]; omega)]
  have hfit : ∀ (data : Option (List Nat)) (size payloadType : Nat), 8 + size + 4 ≤ 2 ^ 45 - 1 →
      self.buildPacket data size payloadType fragFlag userValue = .error .invalid_argument := by
    intro data size payloadType hs
    rcases hbad with hf | hu
    · exact hfrag hf data size payloadType
    · unfold StreamProtocol.buildPacket
      cases data with
      | none => rfl
      | some d =>
        simp only []
        have e : (HEADER_SIZE + size % 2 ^ 64 + 4) % 2 ^ 64 = 8 + size + 4 := by
          simp only [HEADER_SIZE]; omega
        rw [e]
        have hle : ¬ 8 + size + 4 > MAX_PACKET_LENGTH := by
          rw [MAX_PACKET_LENGTH_eq]; omega
        split_ifs <;> rfl
  refine ⟨hfrag, hfit, ?_, ?_, ?_, ?_, ?_⟩
  · intro hf
    exact hfrag hf _ _ _
  · intro hs
    exact hfit _ _ _ hs
  · intro hb
    unfold StreamProtocol.toBytes_bufferSize
    rw [if_pos (by simp only [HEADER_SIZE]; omega)]
  · intro h12 hgt hN
    unfold StreamProtocol.toBytes_bufferSize
    have e : (HEADER_SIZE + payload.length % 2 ^ 64 + 4) % 2 ^ 64 = 8 + payload.length + 4 := by
      simp only [HEADER_SIZE]; omega
    rw [if_neg (by simp only [HEADER_SIZE]; omega)]
    simp only [e]
    rw [if_pos (by omega)]
  · intro hle hs
    unfold StreamProtocol.toBytes_bufferSize
    have e : (HEADER_SIZE + payload.length % 2 ^ 64 + 4) % 2 ^ 64 = 8 + payload.length + 4 := by
      simp only [HEADER_SIZE]; omega
    rw [if_neg (by simp only [HEADER_SIZE]; omega)]
    simp only [e]
    rw [if_neg (by omega)]
    exact hfit _ _ _ hs

/-- Witness of C24 (amended): with the payload "AB", fragFlag 2 makes `toBytes` and the
buffer-size overload with bufferSize 14 throw `std::invalid_argument`, and so does userValue
1024 under bufferSize 64. -/
theorem C24_field_validation_witness :
    ({} : StreamProtocol).toBytes [0x41, 0x42] 2 0 = .error .invalid_argument ∧
    ({} : StreamProtocol).toBytes_bufferSize [0x41, 0x42] 2 0 14 = .error .invalid_argument ∧
    ({} : StreamProtocol).toBytes [0x41, 0x42] 0 1024 = .error .invalid_argument ∧
    ({} : StreamProtocol).toBytes_bufferSize [0x41, 0x42] 0 1024 64
      = .error .invalid_argument :=
  ⟨(C24_field_validation {} [0x41, 0x42] 2 0 14 (Or.inl (by decide))).2.2.1 (by decide),
    (C24_field_validation {} [0x41, 0x42] 2 0 14 (Or.inl (by decide))).2.2.2.2.2.2
      (by decide) (by decide),
    (C24_field_validation {} [0x41, 0x42] 0 1024 64 (Or.inr (by decide))).2.2.2.1 (by decide),
    (C24_field_validation {} [0x41, 0x42] 0 1024 64 (Or.inr (by decide))).2.2.2.2.2.2
      (by decide) (by decide)⟩

/-- C25. The unpack is total and range-closed: for every 8-byte input the header extraction
of the decoder (little-endian word, then the five shifts and masks, with the casts of the
code) gives protocol_version <= 15, total_length <= 2^45-1, fragment_flag in 0..1,
payload_type <= 15 and user_field <= 1023; the word itself is below 2^64 and is the
little-endian value of the eight bytes. -/
theorem C25_unpack_range_closed (b : List Nat) (hb : IsBytes b) (hl : b.length = 8) :
    sp_read_header b = le_value b ∧ sp_read_header b < 2 ^ 64 ∧
      ((sp_read_header b >>> 0) &&& 0x0F) % 256 ≤ 15 ∧
      (sp_read_header b >>> 4) &&& 0x1FFFFFFFFFFF ≤ 2 ^ 45 - 1 ∧
      (((sp_read_header b >>> 49) &&& 0x01) % 256 = 0 ∨
        ((sp_read_header b >>> 49) &&& 0x01) % 256 = 1) ∧
      ((sp_read_header b >>> 50) &&& 0x0F) % 256 ≤ 15 ∧
      ((sp_read_header b >>> 54) &&& 0x3FF) % 65536 ≤ 1023 := by
  refine ⟨?_, sp_read_header_lt b hb (by omega), unpack_bounds _⟩
  rw [sp_read_header_eq_le_value b hb (by omega), ← hl, List.take_length]

set_option maxRecDepth 8000 in
/-- Witness of C25: the header `e1 00 00 00 00 00 84 0a` unpacks to version 1, length 14,
fragment flag 0, payload type 1 and user field 42. -/
theorem C25_unpack_range_closed_witness :
    IsBytes [225, 0, 0, 0, 0, 0, 132, 10] ∧
      sp_read_header [225, 0, 0, 0, 0, 0, 132, 10] = le_value [225, 0, 0, 0, 0, 0, 132, 10] ∧
      ((sp_read_header [225, 0, 0, 0, 0, 0, 132, 10] >>> 0) &&& 0x0F) % 256 = 1 ∧
      (sp_read_header [225, 0, 0, 0, 0, 0, 132, 10] >>> 4) &&& 0x1FFFFFFFFFFF = 14 ∧
      ((sp_read_header [225, 0, 0, 0, 0, 0, 132, 10] >>> 54) &&& 0x3FF) % 65536 = 42 ∧
      ((sp_read_header [255, 255, 255, 255, 255, 255, 255, 255] >>> 54) &&& 0x3FF) % 65536
        ≤ 1023 :=
  ⟨by decide, (C25_unpack_range_closed [225, 0, 0, 0, 0, 0, 132, 10] (by decide) rfl).1,
    by decide, by decide, by decide,
    (C25_unpack_range_closed [255, 255, 255, 255, 255, 255, 255, 255] (by decide) rfl).2.2.2.2.2.2⟩

/-- C27. Any single-bit corruption is rejected: for every packet `p` produced by a successful
encode (either entry point of the C encoder, byte payload whose framed length fits the
64-bit `size_t`) and every bit position `j` of `p` (header, payload or the four CRC bytes),
decoding `p` with bit `j` flipped does not succeed; it fails with CrcMismatch when the bit
lies outside the 45 total_length bits (header bits 4..48), and with LengthMismatch or
BufferTooSmall when it lies inside them; the C++ decoder answers the same. -/
theorem C27_single_bit_corruption (payload : List Nat)
    (frag_flag payload_type user_field max_packet_size : Nat)
    (out_packet : Option (List Nat)) (out_length : Option Nat) (A : Allocator)
    (p : List Nat) (n : Option Nat) (parsed0 : sp_parsed_packet_t) (self : StreamProtocol)
    (j : Nat)
    (hp : IsBytes payload) (hN : 8 + payload.length + 4 < 2 ^ 64)
    (henc : sp_encode_packet (some payload) payload.length frag_flag payload_type user_field
        out_packet out_length A = (SP_OK, some p, n) ∨
      sp_encode_packet_limited (some payload) payload.length frag_flag payload_type user_field
        max_packet_size out_packet out_length A = (SP_OK, some p, n))
    (hj : j < 8 * p.length) :
    (sp_parse_packet (some (flip_bit p j)) (flip_bit p j).length (some parsed0)).1 ≠ SP_OK ∧
    ((j < 4 ∨ 49 ≤ j) →
      (sp_parse_packet (some (flip_bit p j)) (flip_bit p j).length (some parsed0)).1
        = SP_ERR_CRC_MISMATCH) ∧
    ((4 ≤ j ∧ j < 49) →
      (sp_parse_packet (some (flip_bit p j)) (flip_bit p j).length (some parsed0)).1
          = SP_ERR_LENGTH_MISMATCH ∨
        (sp_parse_packet (some (flip_bit p j)) (flip_bit p j).length (some parsed0)).1
          = SP_ERR_BUFFER_TOO_SMALL) ∧
    outcome_code (self.parsePacket (flip_bit p j))
      = (sp_parse_packet (some (flip_bit p j)) (flip_bit p j).length (some parsed0)).1 := by
  obtain ⟨m, hm⟩ := sp_encode_either payload frag_flag payload_type user_field max_packet_size
    out_packet out_length A _ henc
  obtain ⟨hb, hlen, hok⟩ := sp_encode_produced_ok payload frag_flag payload_type user_field m
    out_packet out_length A p n parsed0 hp hN hm
  have hout : (j < 4 ∨ 49 ≤ j) →
      (sp_parse_packet (some (flip_bit p j)) (flip_bit p j).length (some parsed0)).1
        = SP_ERR_CRC_MISMATCH := by
    intro hcase
    by_cases h64 : j < 64
    · exact (tamper_header_bit p parsed0 j hb hok h64).1 hcase
    · by_cases hpay : j < 8 * (p.length - 4)
      · obtain ⟨hv, hne⟩ := flip_value (p.getD (j / 8) 0) (j % 8) (getD_lt_of_isBytes p _ hb)
          (Nat.mod_lt _ (by norm_num))
        exact tamper_payload_byte p parsed0 (j / 8) _ hb hok (by omega) (by omega) hv
          (fun h => hne h.symm)
      · exact tamper_crc_bit p parsed0 j hb hok (by omega) hj
  have hin : (4 ≤ j ∧ j < 49) →
      (sp_parse_packet (some (flip_bit p j)) (flip_bit p j).length (some parsed0)).1
          = SP_ERR_LENGTH_MISMATCH ∨
        (sp_parse_packet (some (flip_bit p j)) (flip_bit p j).length (some parsed0)).1
          = SP_ERR_BUFFER_TOO_SMALL :=
    fun hcase => (tamper_header_bit p parsed0 j hb hok (by omega)).2 hcase
  refine ⟨?_, hout, hin, outcome_code_parsePacket self _ parsed0⟩
  by_cases hcase : j < 4 ∨ 49 ≤ j
  · rw [hout hcase]; decide
  · rcases hin (by omega) with h | h
    · rw [h]; decide
    · rw [h]; decide

set_option maxRecDepth 8000 in
/-- Witness of C27 at the packet of "AB": bit 10 (inside the length field), bit 70 (payload)
and bit 111 (the top bit of the last CRC byte). -/
theorem C27_single_bit_corruption_witness :
    (sp_encode_packet (some [0x41, 0x42]) 2 0 1 42 (some []) (some 0) fillAllocator
        = (SP_OK, some [225, 0, 0, 0, 0, 0, 132, 10, 65, 66, 123, 244, 182, 37], some 14)) ∧
    (sp_parse_packet (some (flip_bit [225, 0, 0, 0, 0, 0, 132, 10, 65, 66, 123, 244, 182, 37] 10))
      (flip_bit [225, 0, 0, 0, 0, 0, 132, 10, 65, 66, 123, 244, 182, 37] 10).length
      (some ⟨0, 0, 0, 0, 0, [], 0⟩)).1 ≠ SP_OK ∧
    (sp_parse_packet (some (flip_bit [225, 0, 0, 0, 0, 0, 132, 10, 65, 66, 123, 244, 182, 37] 70))
      (flip_bit [225, 0, 0, 0, 0, 0, 132, 10, 65, 66, 123, 244, 182, 37] 70).length
      (some ⟨0, 0, 0, 0, 0, [], 0⟩)).1 = SP_ERR_CRC_MISMATCH ∧
    (sp_parse_packet
      (some (flip_bit [225, 0, 0, 0, 0, 0, 132, 10, 65, 66, 123, 244, 182, 37] 111))
      (flip_bit [225, 0, 0, 0, 0, 0, 132, 10, 65, 66, 123, 244, 182, 37] 111).length
      (some ⟨0, 0, 0, 0, 0, [], 0⟩)).1 = SP_ERR_CRC_MISMATCH ∧
    flip_bit [225, 0, 0, 0, 0, 0, 132, 10, 65, 66, 123, 244, 182, 37] 111
      = [225, 0, 0, 0, 0, 0, 132, 10, 65, 66, 123, 244, 182, 165] :=
  ⟨by decide,
    (C27_single_bit_corruption [0x41, 0x42] 0 1 42 0 (some []) (some 0) fillAllocator
      [225, 0, 0, 0, 0, 0, 132, 10, 65, 66, 123, 244, 182, 37] (some 14)
      ⟨0, 0, 0, 0, 0, [], 0⟩ {} 10 (by decide) (by decide) (Or.inl (by decide)) (by decide)).1,
    (C27_single_bit_corruption [0x41, 0x42] 0 1 42 0 (some []) (some 0) fillAllocator
      [225, 0, 0, 0, 0, 0, 132, 10, 65, 66, 123, 244, 182, 37] (some 14)
      ⟨0, 0, 0, 0, 0, [], 0⟩ {} 70 (by decide) (by decide) (Or.inl (by decide))
      (by decide)).2.1 (Or.inr (by decide)),
    (C27_single_bit_corruption [0x41, 0x42] 0 1 42 0 (some []) (some 0) fillAllocator
      [225, 0, 0, 0, 0, 0, 132, 10, 65, 66, 123, 244, 182, 37] (some 14)
      ⟨0, 0, 0, 0, 0, [], 0⟩ {} 111 (by decide) (by decide) (Or.inl (by decide))
      (by decide)).2.1 (Or.inr (by decide)),
    by decide⟩

/-- C28. The header layout is a bijection on 64-bit words: for every 8-byte input, packing
the five unpacked field values with the shifts of the encoder
(version | length<<4 | frag<<49 | type<<50 | user<<54) gives the word that was read, and
the byte loop of the encoder writes the original eight bytes; with the masks of the encoder
in place the packed word is the same. -/
theorem C28_header_bijection (b buf : List Nat) (hb : IsBytes b) (hl : b.length = 8)
    (hbuf : 8 ≤ buf.length) :
    header_word ((sp_read_header b >>> 0) &&& 0x0F) ((sp_read_header b >>> 4) &&& 0x1FFFFFFFFFFF)
        ((sp_read_header b >>> 49) &&& 0x01) ((sp_read_header b >>> 50) &&& 0x0F)
        ((sp_read_header b >>> 54) &&& 0x3FF) = sp_read_header b ∧
      sp_write_header buf
        (header_word ((sp_read_header b >>> 0) &&& 0x0F)
          ((sp_read_header b >>> 4) &&& 0x1FFFFFFFFFFF)
          ((sp_read_header b >>> 49) &&& 0x01) ((sp_read_header b >>> 50) &&& 0x0F)
          ((sp_read_header b >>> 54) &&& 0x3FF)) = b ++ buf.drop 8 ∧
      ((sp_read_header b >>> 0) &&& 0x0F = 1 →
        sp_header_value ((sp_read_header b >>> 4) &&& 0x1FFFFFFFFFFF)
          ((sp_read_header b >>> 49) &&& 0x01) ((sp_read_header b >>> 50) &&& 0x0F)
          ((sp_read_header b >>> 54) &&& 0x3FF) = sp_read_header b) := by
  have hH := sp_read_header_lt b hb (by omega)
  have hr := header_repack (sp_read_header b) hH
  have hv : sp_read_header b = le_value b := by
    rw [sp_read_header_eq_le_value b hb (by omega), ← hl, List.take_length]
  refine ⟨hr, ?_, ?_⟩
  · rw [hr, sp_write_header_eq buf _ hbuf, hv]
    have := le_bytes_le_value b hb
    rw [hl] at this
    rw [this]
  · intro h1
    rw [sp_header_value_eq_word _ _ _ _ (by rw [and_m45]; exact Nat.mod_lt _ (by norm_num))
      (by rw [and_1]; omega) (by rw [and_15]; omega) (by rw [and_1023]; omega)]
    have hr2 := hr
    rw [h1] at hr2
    exact hr2

/-- Witness of C28: the fields unpacked from the header `e1 00 00 00 00 00 84 0a` pack to the
word read from it, and the byte loop writes the same eight bytes over a buffer of zeros. -/
theorem C28_header_bijection_witness :
    IsBytes [225, 0, 0, 0, 0, 0, 132, 10] ∧
      header_word ((sp_read_header [225, 0, 0, 0, 0, 0, 132, 10] >>> 0) &&& 0x0F)
        ((sp_read_header [225, 0, 0, 0, 0, 0, 132, 10] >>> 4) &&& 0x1FFFFFFFFFFF)
        ((sp_read_header [225, 0, 0, 0, 0, 0, 132, 10] >>> 49) &&& 0x01)
        ((sp_read_header [225, 0, 0, 0, 0, 0, 132, 10] >>> 50) &&& 0x0F)
        ((sp_read_header [225, 0, 0, 0, 0, 0, 132, 10] >>> 54) &&& 0x3FF)
        = sp_read_header [225, 0, 0, 0, 0, 0, 132, 10] ∧
      sp_write_header [0, 0, 0, 0, 0, 0, 0, 0]
        (header_word ((sp_read_header [225, 0, 0, 0, 0, 0, 132, 10] >>> 0) &&& 0x0F)
          ((sp_read_header [225, 0, 0, 0, 0, 0, 132, 10] >>> 4) &&& 0x1FFFFFFFFFFF)
          ((sp_read_header [225, 0, 0, 0, 0, 0, 132, 10] >>> 49) &&& 0x01)
          ((sp_read_header [225, 0, 0, 0, 0, 0, 132, 10] >>> 50) &&& 0x0F)
          ((sp_read_header [225, 0, 0, 0, 0, 0, 132, 10] >>> 54) &&& 0x3FF))
        = [225, 0, 0, 0, 0, 0, 132, 10] ++ [0, 0, 0, 0, 0, 0, 0, 0].drop 8 :=
  ⟨by decide,
    (C28_header_bijection [225, 0, 0, 0, 0, 0, 132, 10] [0, 0, 0, 0, 0, 0, 0, 0] (by decide) rfl
      (by decide)).1,
    (C28_header_bijection [225, 0, 0, 0, 0, 0, 132, 10] [0, 0, 0, 0, 0, 0, 0, 0] (by decide) rfl
      (by decide)).2.1⟩

end PacketCodec
